import Mathlib

/-!
# publish-carousel: cycles, scheduler, checkpoints, blacklists and cycle handlers

A shallow embedding of `CycleMetadata`, `abstractCycle` and its methods
(`publishCollection`, `updateProgress`, `Stop`, `Reset`, `Metadata`, `SetMetadata`,
`UpdateState`), of `newCycleID`, and of the scheduler (`defaultScheduler` with `AddCycle` and
`AddThrottle`, `DeleteCycle`, `RestorePreviousState`) of `scheduler/cycle.go` and
`scheduler/scheduler.go`, of the checkpoint reader and writer of `scheduler/metadata_rw.go`
(`LoadMetadata`, `WriteMetadata`), of the blacklist builder of `blacklist/blacklist.go`, and of
the handlers `CreateCycle`, `GetCycleThrottle` and `SetCycleThrottle` of `resources/cycles.go`,
followed by theorems about them.

Conventions of the embedding:

* Go `int` is a 64-bit two's-complement integer: values are `Int`, and `++` is
  `intIncr`, which wraps at `maxInt`.
* Go `string` is `String` (well-formed UTF-8 text); a nil slice and an empty slice are both
  the empty list.
* Go `error` is `Option String`: `none` is `nil`, `some msg` an error whose `Error()`
  is `msg`.
* The field `Progress` of a metadata holds the exact ratio in `ℚ`; the `float64` that
  `updateProgress` stores is `progressStored`, computed with `float64` conversion and division
  rounded to the nearest value (`roundFloat64`), where a division by zero gives an infinity or
  NaN.
* The metadata lock serialises the methods; each method is one atomic state change, and
  no other method of the cycle runs between the passes of one run of `publishCollection`.
* The collaborators of `publishCollection` (context, throttle, UUID collection,
  publish task) are external: a run is driven by the list of their answers, one
  `Turn` per pass through the loop, and records every call it makes.
* A Go map is the list of its entries (`mapGet`, `mapSet`, `mapDelete`).
* A run-time panic is the result `none` of a method that returns an `Option`.
* An instant of `time.Now().UTC()` is the record of its calendar fields; a JSON text is the
  value it spells, and the JSON methods of `time.Time` are library parameters; the store behind `s3.ReadWriter`, the files of a blacklist and the
  scheduler behind the handlers are interfaces, given as records of functions over a state.
* An `http.ResponseWriter` keeps the header map of the handler apart from the headers sent
  with the status: `WriteHeader` sends the map as it is at that moment.
* Code of the repository whose file is missing from the sources is a parameter (config
  validation) or a definition marked as modelled from the spec.
-/

namespace PublishCarousel

/-! ## Go base types -/

/-- Go `error`: `none` is `nil`, `some msg` an error value with `Error() = msg`. -/
abbrev GoError := Option String

/-- The text `err.Error()` of a non-nil error, and `""` for `nil`. -/
def errorText : GoError → String
  | none => ""
  | some msg => msg

/-- Largest value of Go `int` (64 bit). -/
def maxInt : Int := 9223372036854775807

/-- Smallest value of Go `int` (64 bit). -/
def minInt : Int := -9223372036854775808

/-- Reduction of an integer into the range of Go `int` (two's complement). -/
def wrapInt (x : Int) : Int := (x + 9223372036854775808) % 18446744073709551616 - 9223372036854775808

/-- Go `x++` on an `int`. -/
def intIncr (x : Int) : Int := wrapInt (x + 1)

/-- Go `unicode.IsSpace`: the characters with the Unicode White_Space property. -/
def isSpace (c : Char) : Bool :=
  decide (c.toNat ∈ [0x09, 0x0A, 0x0B, 0x0C, 0x0D, 0x20, 0x85, 0xA0, 0x1680,
    0x2028, 0x2029, 0x202F, 0x205F, 0x3000]) || (decide (0x2000 ≤ c.toNat) && decide (c.toNat ≤ 0x200A))

/-- Go `strings.TrimSpace`: the string without its leading and trailing white space. -/
def TrimSpace (s : String) : String :=
  String.mk ((s.data.dropWhile isSpace).reverse.dropWhile isSpace).reverse

/-- Go's order `<=` on strings, character by character (lexicographic; on well-formed
UTF-8 the byte order and the code-point order agree). -/
def charsLE : List Char → List Char → Bool
  | [], _ => true
  | _ :: _, [] => false
  | a :: as, b :: bs =>
    if a.toNat < b.toNat then true
    else if b.toNat < a.toNat then false
    else charsLE as bs

/-- Go `sort.Strings`: ascending order of strings. -/
def sortStrings (l : List String) : List String :=
  l.insertionSort (fun x y => charsLE x.data y.data = true)

/-! ## External types -/

/-- The record `native.Content`: a native document (body serialised) and its content type. -/
structure Content where
  Body : String := ""
  ContentType : String := ""
deriving DecidableEq, Repr

/-- The interface `native.DB`, used by `abstractCycle` only as a stored handle. -/
structure DB where
  Urls : String := ""
deriving DecidableEq, Repr

/-- The handle `tasks.Task` stored in a cycle (the interface is declared outside these
sources); what its methods `Prepare` and `Execute` answer is part of a `Turn`. -/
structure Task where
  id : Nat := 0
deriving DecidableEq, Repr

/-- Modelled from the spec: the function type `blacklist.IsBlacklisted` is declared outside these
sources; the blacklist predicate of the spec takes a uuid and its content and answers a
boolean or an error. Here `true` says that the item is excluded. -/
abbrev IsBlacklisted := String → Content → Bool × GoError

/-- A `context.CancelFunc`: the handle that cancels a worker's context. -/
structure CancelFunc where
  id : Nat := 0
deriving DecidableEq, Repr

/-- Modelled from the spec: the constant `stoppedState` is declared outside these sources;
the state table of the spec names the tag `stopped`. -/
def stoppedState : String := "stopped"

/-! ## CycleMetadata -/

/-- The struct `CycleMetadata`. `State` is the exported sorted tag list, `state` the unexported
`map[string]struct{}` (its key set; `none` is the nil map). `Start` and `End` are the optional
window bounds (instants as integers). -/
structure CycleMetadata where
  CurrentPublishUUID : String := ""
  CurrentPublishRef : String := ""
  CurrentPublishError : String := ""
  Errors : Int := 0
  Progress : ℚ := 0
  State : List String := []
  Completed : Int := 0
  Total : Int := 0
  Iteration : Int := 0
  Attempts : Int := 0
  Start : Option Int := none
  End : Option Int := none
  state : Option (List String) := none
deriving DecidableEq

/-- Insertion of a key into a `map[string]struct{}` (key set kept without repetition). -/
def mapInsert (m : List String) (k : String) : List String :=
  if k ∈ m then m else m ++ [k]

/-- Go `encoding/hex.EncodeToString` over a list of bytes. -/
def hexEncodeToString (bs : List UInt8) : List Char :=
  bs.flatMap (fun b => [Nat.digitChar (b.toNat / 16), Nat.digitChar (b.toNat % 16)])

/-- The bytes of a Go string: the UTF-8 encoding of its characters. -/
def utf8Bytes (s : String) : List UInt8 := s.data.flatMap String.utf8EncodeChar

/-- The library functions the code calls, as parameters of the embedding: `sum256` is the
digest function of `crypto/sha256` (a digest has 32 bytes), `durationString` is
`time.Duration.String`, `toLower` is `strings.ToLower`, and `parseDuration` is
`time.ParseDuration` (the duration in nanoseconds, or the text of the error). -/
structure StdLib where
  sum256 : List UInt8 → List UInt8
  sum256_length : ∀ bs, (sum256 bs).length = 32
  durationString : Int → String
  toLower : String → String
  parseDuration : String → Except String Int

/-- The function `newCycleID`: the first 16 hexadecimal characters of the SHA-256 digest of
`name` followed by `dbcollection`. -/
def newCycleID (lib : StdLib) (name dbcollection : String) : String :=
  String.mk ((hexEncodeToString
    (lib.sum256 (utf8Bytes name ++ utf8Bytes dbcollection))).take 16)

/-! ## abstractCycle -/

/-- The struct `abstractCycle`. `coolDown` is the duration in nanoseconds and `CoolDown` its
text. `cancel` is `none` while no cancellation handle is installed (Go's nil func value);
`cancelled` records that the installed handle has been called. -/
structure abstractCycle where
  CycleID : String
  Name : String
  «Type» : String
  CycleMetadata : CycleMetadata
  DBCollection : String
  Origin : String
  CoolDown : String
  coolDown : Int
  cancel : Option CancelFunc
  db : DB
  publishTask : Task
  blacklist : IsBlacklisted
  cancelled : Bool := false

/-- The method `UpdateState(states ...string)`: rebuilds the key set `state` from the given
tags, collects its keys and stores them sorted in `State`. -/
def abstractCycle.UpdateState (a : abstractCycle) (states : List String) : abstractCycle :=
  let keys := states.foldl mapInsert []
  { a with CycleMetadata := { a.CycleMetadata with state := some keys, State := sortStrings keys } }

/-- The constructor `newAbstractCycle`: a cycle with zero metadata (empty key set), no
cancellation handle, and the state set to `stoppedState`. -/
def newAbstractCycle (lib : StdLib) (name cycleType : String) (blist : IsBlacklisted) (database : DB)
    (dbCollection origin : String) (coolDown : Int) (task : Task) : abstractCycle :=
  let cycle : abstractCycle :=
    { CycleID := newCycleID lib name dbCollection
      Name := name
      «Type» := cycleType
      CycleMetadata := { state := some [] }
      db := database
      DBCollection := dbCollection
      Origin := origin
      CoolDown := lib.durationString coolDown
      coolDown := coolDown
      publishTask := task
      blacklist := blist
      cancel := none }
  cycle.UpdateState [stoppedState]

/-- The assignment to `Progress` in `updateProgress` (lines 140 to 145 of `cycle.go`), for a
given arithmetic: `zero` when `Total == 0`, and else the quotient of the two counters. -/
def assignProgress {F : Type} (zero : F) (quotient : Int → Int → F) (completed total : Int) : F :=
  if total = 0 then zero else quotient completed total

/-- The method `updateProgress(uuid, txId, err)`. The field `Progress` of the embedding holds
the exact ratio of the two counters; the `float64` that the code stores is `progressStored`. -/
def abstractCycle.updateProgress (a : abstractCycle) (uuid txId : String) (err : GoError) :
    abstractCycle :=
  let m := a.CycleMetadata
  let m : PublishCarousel.CycleMetadata :=
    match err with
    | none => { m with CurrentPublishError := "" }
    | some msg => { m with Errors := intIncr m.Errors, CurrentPublishError := msg }
  let m : PublishCarousel.CycleMetadata :=
    { m with Completed := intIncr m.Completed, CurrentPublishUUID := uuid, CurrentPublishRef := txId }
  let m : PublishCarousel.CycleMetadata :=
    { m with Progress := assignProgress 0 (fun c t => (c : ℚ) / (t : ℚ)) m.Completed m.Total }
  { a with CycleMetadata := m }

/-- The method `ID()`. -/
def abstractCycle.ID (a : abstractCycle) : String := a.CycleID

/-- The method `Stop()`: calls the cancellation handle, then sets the state to `stoppedState`.
Calling a nil func value is a run-time panic: the result is `none` when no handle is
installed. -/
def abstractCycle.Stop (a : abstractCycle) : Option abstractCycle :=
  match a.cancel with
  | none => none
  | some _ => some ({ a with cancelled := true }.UpdateState [stoppedState])

/-- The method `Metadata()`. -/
def abstractCycle.Metadata (a : abstractCycle) : PublishCarousel.CycleMetadata := a.CycleMetadata

/-- The method `SetMetadata(metadata)`: installs the given metadata, with an empty key set in
place of a nil one. -/
def abstractCycle.SetMetadata (a : abstractCycle) (metadata : PublishCarousel.CycleMetadata) :
    abstractCycle :=
  let metadata : PublishCarousel.CycleMetadata :=
    if metadata.state = none then { metadata with state := some [] } else metadata
  { a with CycleMetadata := metadata }

/-- The method `Reset()`: `Stop`, then `SetMetadata` of a zero metadata with an empty key set. -/
def abstractCycle.Reset (a : abstractCycle) : Option abstractCycle :=
  match a.Stop with
  | none => none
  | some a1 =>
    let metadata : PublishCarousel.CycleMetadata := { state := some [] }
    some (a1.SetMetadata metadata)

/-- The method `PublishedItems()`. -/
def abstractCycle.PublishedItems (a : abstractCycle) : Int := a.CycleMetadata.Completed

/-- The method `State()`. -/
def abstractCycle.State (a : abstractCycle) : List String := a.CycleMetadata.State

/-! ## publishCollection -/

/-- A call made by `publishCollection` on one of its collaborators, with the arguments. -/
inductive Call where
  | Queue
  | Err
  | Next
  | Prepare (collection uuid : String)
  | Execute (uuid : String) (content : Content) (origin txID : String)
deriving DecidableEq, Repr

/-- What the collaborators answer during one pass through the loop of `publishCollection`,
with the signatures of the call sites: `Queue` is the result of `t.Queue()`, `Err` of
`ctx.Err()`, `Next` of `collection.Next()` (finished, uuid, err), `Prepare` and `Execute` the
answers of the publish task as functions of the arguments it is called with. An answer is
read only if the call is made. -/
structure Turn where
  Queue : GoError := none
  Err : GoError := none
  Next : Bool × String × GoError := (true, "", none)
  Prepare : String → String → Content × String × GoError := fun _ _ => ({}, "", none)
  Execute : String → Content → String → String → GoError := fun _ _ _ _ => none

/-- State of a run of `publishCollection`: the cycle, the calls made so far (in order), and
the returned pair `(stopped, err)` once the function has returned. -/
structure Run where
  cycle : abstractCycle
  calls : List Call
  result : Option (Bool × GoError)

/-- One pass through the loop body of `publishCollection`. `result` is `none` when the pass
ends in the next pass (end of body or `continue`), and the returned pair otherwise. -/
def abstractCycle.publishTurn (a : abstractCycle) (w : Turn) : Run :=
  match w.Err with
  | some e => { cycle := a, calls := [Call.Queue, Call.Err], result := some (true, some e) }
  | none =>
    let (finished, uuid, err) := w.Next
    if finished then
      { cycle := a.updateProgress "" "" err
        calls := [Call.Queue, Call.Err, Call.Next]
        result := some (false, err) }
    else if TrimSpace uuid = "" then
      { cycle := a.updateProgress uuid "" (some "Empty uuid")
        calls := [Call.Queue, Call.Err, Call.Next]
        result := none }
    else
      let (content, txID, err) := w.Prepare a.DBCollection uuid
      match err with
      | none =>
        let err := w.Execute uuid content a.Origin txID
        { cycle := a.updateProgress uuid txID err
          calls := [Call.Queue, Call.Err, Call.Next, Call.Prepare a.DBCollection uuid,
            Call.Execute uuid content a.Origin txID]
          result := none }
      | some e =>
        { cycle := a.updateProgress uuid txID (some e)
          calls := [Call.Queue, Call.Err, Call.Next, Call.Prepare a.DBCollection uuid]
          result := none }

/-- The method `publishCollection(ctx, collection, t)`, driven by the answers of its
collaborators, one `Turn` per pass. The loop has no exit of its own: with the answers used
up before a pass returns, `result` is `none` (the function has not returned). -/
def abstractCycle.publishCollection (a : abstractCycle) : List Turn → Run
  | [] => { cycle := a, calls := [], result := none }
  | w :: ws =>
    let r := a.publishTurn w
    match r.result with
    | some res => { cycle := r.cycle, calls := r.calls, result := some res }
    | none =>
      let r1 := abstractCycle.publishCollection r.cycle ws
      { cycle := r1.cycle, calls := r.calls ++ r1.calls, result := r1.result }

/-- An item of a pass counts as failed when its uuid is blank, or `Prepare` answers an
error, or `Execute` does (`collection` and `origin` are the arguments the cycle passes). -/
def itemFailed (collection origin : String) (w : Turn) : Bool :=
  if TrimSpace w.Next.2.1 = "" then true
  else
    match w.Prepare collection w.Next.2.1 with
    | (content, txID, none) => (w.Execute w.Next.2.1 content origin txID).isSome
    | (_, _, some _) => true

/-- The metadata invariant of the data model: `completed ≤ total` whenever `total > 0`, and
`0 ≤ progress ≤ 1`. -/
def MetadataInvariant (m : CycleMetadata) : Prop :=
  (0 < m.Total → m.Completed ≤ m.Total) ∧ 0 ≤ m.Progress ∧ m.Progress ≤ 1

instance (m : CycleMetadata) : Decidable (MetadataInvariant m) := by
  unfold MetadataInvariant
  infer_instance

/-- A sequence of progress updates `(uuid, txId, err)` applied in order. -/
def abstractCycle.updateProgressAll (a : abstractCycle) (us : List (String × String × GoError)) :
    abstractCycle :=
  us.foldl (fun c u => c.updateProgress u.1 u.2.1 u.2.2) a

/-! ## The `float64` in `Progress` -/

/-- A `float64`: a finite value (a rational number; the two zeros are not told apart), an
infinity, or NaN. -/
inductive Float64 where
  | finite (q : ℚ)
  | inf (negative : Bool)
  | nan
deriving DecidableEq

/-- Rounding of a rational to the nearest integer, ties to the even one. -/
def roundHalfEven (m : ℚ) : Int :=
  if m - ⌊m⌋ < 1 / 2 then ⌊m⌋
  else if 1 / 2 < m - ⌊m⌋ then ⌊m⌋ + 1
  else if ⌊m⌋ % 2 = 0 then ⌊m⌋ else ⌊m⌋ + 1

/-- The `float64` nearest to a rational, ties to even: the value is scaled to a significand of
53 bits, which is rounded. (The exponent is not bounded: a 64-bit integer and the quotient of
two of them, when not 0, lie in the normal range of `float64`.) -/
def roundFloat64 (q : ℚ) : ℚ :=
  if q = 0 then 0
  else (if q < 0 then -1 else 1) * (roundHalfEven (|q| / 2 ^ (Int.log 2 |q| - 52)) : ℚ)
    * 2 ^ (Int.log 2 |q| - 52)

/-- Go `float64(n)` of an `int`. -/
def float64 (n : Int) : Float64 := .finite (roundFloat64 n)

/-- Go `x / y` of two `float64` (IEEE 754): a value that is not 0 divided by 0 is an infinity,
0 divided by 0 is NaN; no case panics. -/
def Float64.div : Float64 → Float64 → Float64
  | .nan, _ => .nan
  | _, .nan => .nan
  | .inf _, .inf _ => .nan
  | .inf s, .finite y => .inf (s != decide (y < 0))
  | .finite _, .inf _ => .finite 0
  | .finite x, .finite y =>
    if y = 0 then (if x = 0 then .nan else .inf (decide (x < 0)))
    else .finite (roundFloat64 (x / y))

/-- The `float64` that `updateProgress` stores in `Progress` (lines 137 to 145 of `cycle.go`):
`Completed` is incremented first; then `Progress` is 0 when `Total` is 0, and else the quotient
of the two counters converted to `float64`. The field `Progress` of the embedding holds the
exact ratio in its place. -/
def abstractCycle.progressStored (a : abstractCycle) : Float64 :=
  assignProgress (.finite 0) (fun c t => (float64 c).div (float64 t))
    (intIncr a.CycleMetadata.Completed) a.CycleMetadata.Total

/-! ## Scheduler (`scheduler/scheduler.go`) -/

/-- The value `m[k]` of a Go `map[string]V` (comma-ok form): the map is the list of its
entries, each key at most once, and the result is the value under `k`, if any. -/
def mapGet {V : Type} : List (String × V) → String → Option V
  | [], _ => none
  | (k1, v1) :: rest, k => if k1 = k then some v1 else mapGet rest k

/-- The assignment `m[k] = v` of a Go map: replaces the value under `k` or adds the entry. -/
def mapSet {V : Type} : List (String × V) → String → V → List (String × V)
  | [], k, v => [(k, v)]
  | (k1, v1) :: rest, k, v => if k1 = k then (k, v) :: rest else (k1, v1) :: mapSet rest k v

/-- Go `delete(m, k)`: removes the entry under `k`, if any. -/
def mapDelete {V : Type} (m : List (String × V)) (k : String) : List (String × V) :=
  m.filter (fun p => decide (p.1 ≠ k))

/-- Modelled from the spec: the interface `Throttle` and its constructor `NewThrottle` are
declared outside these sources; a throttle of the data model has an interval (here in
nanoseconds) and a burst (default 1). -/
structure Throttle where
  interval : Int
  burst : Int := 1
deriving DecidableEq, Repr

/-- Modelled from the spec: the constructor `NewThrottle(interval, burst)` is declared outside
these sources; it gives the throttle with that interval and burst (its second result is
discarded by the caller). -/
def NewThrottle (interval burst : Int) : Throttle := { interval := interval, burst := burst }

/-- Modelled from the spec: the struct `CycleConfig` is declared outside these sources; its
fields are those of the data model, as texts. -/
structure CycleConfig where
  Name : String := ""
  «Type» : String := ""
  Origin : String := ""
  Collection : String := ""
  CoolDown : String := ""
  Throttle : String := ""
  TimeWindow : String := ""
  MinimumThrottle : String := ""
  MaximumThrottle : String := ""
deriving DecidableEq, Repr

/-- Modelled from the spec: the cycle types `LongTermCycle` and `ShortTermCycle` are declared
outside these sources. Each embeds an `abstractCycle`; a LongTerm cycle holds its throttle
and a ShortTerm cycle its time window (nanoseconds). -/
inductive Cycle where
  | LongTermCycle (base : abstractCycle) (throttle : Throttle)
  | ShortTermCycle (base : abstractCycle) (duration : Int)

/-- The `abstractCycle` embedded in a cycle. -/
def Cycle.base : Cycle → abstractCycle
  | .LongTermCycle base _ => base
  | .ShortTermCycle base _ => base

/-- The method `ID()` of a cycle, promoted from the embedded `abstractCycle`. -/
def Cycle.ID (c : Cycle) : String := c.base.ID

/-- Modelled from the spec: the constructor `NewLongTermCycle(name, db, collection, throttle,
task)` is declared outside these sources. It builds the embedded cycle with
`newAbstractCycle` from its arguments (type `LongTerm`, a blacklist that excludes nothing, no
origin, no cool-down) and keeps the throttle. -/
def NewLongTermCycle (lib : StdLib) (name : String) (database : DB) (dbCollection : String)
    (throttle : Throttle) (task : Task) : Cycle :=
  .LongTermCycle
    (newAbstractCycle lib name "LongTerm" (fun _ _ => (false, none)) database dbCollection "" 0 task)
    throttle

/-- Modelled from the spec: the constructor `NewShortTermCycle(name, db, collection, duration,
task)` is declared outside these sources. It builds the embedded cycle with
`newAbstractCycle` from its arguments (type `ShortTerm`, a blacklist that excludes nothing, no
origin, no cool-down) and keeps the time window. -/
def NewShortTermCycle (lib : StdLib) (name : String) (database : DB) (dbCollection : String)
    (duration : Int) (task : Task) : Cycle :=
  .ShortTermCycle
    (newAbstractCycle lib name "ShortTerm" (fun _ _ => (false, none)) database dbCollection "" 0 task)
    duration

/-- The interface `StateReadWriter` of the scheduler (declared outside these sources), with
the signature of its call site: `LoadState(id)` answers a metadata and an error. -/
structure StateReadWriter where
  LoadState : String → CycleMetadata × GoError

/-- The struct `defaultScheduler`. The two maps are initialised by `NewScheduler`; the locks
serialise the methods. -/
structure defaultScheduler where
  publishTask : Task
  database : DB
  cycles : List (String × Cycle)
  throttles : List (String × Throttle)
  stateReadWriter : StateReadWriter

/-- The constructor `NewScheduler`. -/
def NewScheduler (database : DB) (publishTask : Task) (stateReadWriter : StateReadWriter) :
    defaultScheduler :=
  { database := database
    publishTask := publishTask
    cycles := []
    throttles := []
    stateReadWriter := stateReadWriter }

/-- The method `Cycles()`. -/
def defaultScheduler.Cycles (s : defaultScheduler) : List (String × Cycle) := s.cycles

/-- The method `Throttles()`. -/
def defaultScheduler.Throttles (s : defaultScheduler) : List (String × Throttle) := s.throttles

/-- The cycle variable `c` of `AddCycle` after its `switch`: an error text when the function
returns inside the switch, `none` (the nil interface value) when no case matches. -/
def defaultScheduler.materialize (lib : StdLib) (s : defaultScheduler) (config : CycleConfig) :
    Except String (Option Cycle) :=
  if lib.toLower config.Type = "longterm" then
    match mapGet s.Throttles config.Throttle with
    | none => .error ("Throttle not found for cycle " ++ config.Name)
    | some t =>
      .ok (some (NewLongTermCycle lib config.Name s.database config.Collection t s.publishTask))
  else if lib.toLower config.Type = "shortterm" then
    let interval : Int :=
      match lib.parseDuration config.TimeWindow with
      | .ok d => d
      | .error _ => 0
    .ok (some (NewShortTermCycle lib config.Name s.database config.Collection interval
      s.publishTask))
  else .ok none

/-- The method `AddCycle(config)`: the returned error and the scheduler afterwards. The method
`config.Validate()` is declared outside these sources and is the parameter `validate`.
The result is `none` for a run-time panic: with no case of the switch matching, `c` is the nil
interface value and `c.ID()` dereferences it. -/
def defaultScheduler.AddCycle (lib : StdLib) (validate : CycleConfig → GoError)
    (s : defaultScheduler) (config : CycleConfig) : Option (GoError × defaultScheduler) :=
  match validate config with
  | some err => some (some err, s)
  | none =>
    match s.materialize lib config with
    | .error msg => some (some msg, s)
    | .ok none => none
    | .ok (some c) =>
      if (mapGet s.cycles c.ID).isSome then
        some (some ("Conflicting ID found for cycle " ++ config.Name), s)
      else some (none, { s with cycles := mapSet s.cycles c.ID c })

/-- The method `AddThrottle(name, throttleInterval)`: the returned error and the scheduler
afterwards. -/
def defaultScheduler.AddThrottle (lib : StdLib) (s : defaultScheduler)
    (name throttleInterval : String) : GoError × defaultScheduler :=
  if TrimSpace name = "" then (some "Invalid throttle name", s)
  else
    match lib.parseDuration throttleInterval with
    | .error err =>
      (some ("Error parsing throttle interval for " ++ name ++ ": " ++ err), s)
    | .ok interval =>
      if (mapGet s.throttles name).isSome then
        (some ("Conflicting throttle name: " ++ name ++ " "), s)
      else (none, { s with throttles := mapSet s.throttles name (NewThrottle interval 1) })

/-- The method `Stop()` of a cycle, promoted from the embedded `abstractCycle`: `none` when
that `Stop` panics. -/
def Cycle.Stop : Cycle → Option Cycle
  | .LongTermCycle base throttle => (base.Stop).map (fun b => .LongTermCycle b throttle)
  | .ShortTermCycle base duration => (base.Stop).map (fun b => .ShortTermCycle b duration)

/-- Modelled from the spec: the method `RestoreMetadata(state)` of a cycle is declared outside
these sources; restoring installs the loaded metadata in the cycle, which is what `SetMetadata`
of the embedded `abstractCycle` does. -/
def Cycle.RestoreMetadata : Cycle → CycleMetadata → Cycle
  | .LongTermCycle base throttle, state => .LongTermCycle (base.SetMetadata state) throttle
  | .ShortTermCycle base duration, state => .ShortTermCycle (base.SetMetadata state) duration

/-- What `DeleteCycle` does to the directory, in order. -/
inductive DirectoryEvent where
  | stopped (id : String)
  | removed (id : String)
deriving DecidableEq, Repr

/-- The method `DeleteCycle(cycleID)`: the returned error, the scheduler afterwards and what
was done, in order. The result is `none` when `c.Stop()` panics. -/
def defaultScheduler.DeleteCycle (s : defaultScheduler) (cycleID : String) :
    Option (GoError × defaultScheduler × List DirectoryEvent) :=
  match mapGet s.cycles cycleID with
  | none => some (some ("Cannot stop cycle: cycle with id " ++ cycleID ++ " not found"), s, [])
  | some c =>
    match c.Stop with
    | none => none
    | some _ =>
      some (none, { s with cycles := mapDelete s.cycles cycleID },
        [DirectoryEvent.stopped cycleID, DirectoryEvent.removed cycleID])

/-- The body of the loop of `RestorePreviousState` for the entry `(id, cycle)`: the entry
afterwards. -/
def defaultScheduler.restoreEntry (s : defaultScheduler) (id : String) (cycle : Cycle) : Cycle :=
  match cycle with
  | .LongTermCycle _ _ =>
    match s.stateReadWriter.LoadState id with
    | (_, some _) => cycle
    | (state, none) => cycle.RestoreMetadata state
  | .ShortTermCycle _ _ => cycle

/-- The method `RestorePreviousState()`: the scheduler afterwards. -/
def defaultScheduler.RestorePreviousState (s : defaultScheduler) : defaultScheduler :=
  { s with cycles := s.cycles.map (fun p => (p.1, s.restoreEntry p.1 p.2)) }

/-- Two metadata agree on every exported (persisted) field. -/
def sameExported (m1 m2 : CycleMetadata) : Prop :=
  m1.CurrentPublishUUID = m2.CurrentPublishUUID ∧
  m1.CurrentPublishRef = m2.CurrentPublishRef ∧
  m1.CurrentPublishError = m2.CurrentPublishError ∧
  m1.Errors = m2.Errors ∧
  m1.Progress = m2.Progress ∧
  m1.State = m2.State ∧
  m1.Completed = m2.Completed ∧
  m1.Total = m2.Total ∧
  m1.Iteration = m2.Iteration ∧
  m1.Attempts = m2.Attempts ∧
  m1.Start = m2.Start ∧
  m1.End = m2.End

/-- The call is a throttle wait `t.Queue()`. -/
def Call.isQueue : Call → Bool
  | .Queue => true
  | _ => false

/-- The call is a producer fetch `collection.Next()`. -/
def Call.isNext : Call → Bool
  | .Next => true
  | _ => false

/-- The call is a `Prepare` of the publish task. -/
def Call.isPrepare : Call → Bool
  | .Prepare _ _ => true
  | _ => false

/-- The call is an `Execute` of the publish task. -/
def Call.isExecute : Call → Bool
  | .Execute _ _ _ _ => true
  | _ => false

/-! ## Metadata checkpoints (`scheduler/metadata_rw.go`) -/

/-- An instant as `time.Now().UTC()` gives it: the calendar fields in UTC, nanoseconds
included. -/
structure UTCTime where
  year : Nat
  month : Nat
  day : Nat
  hour : Nat
  minute : Nat
  second : Nat
  nanosecond : Nat
deriving DecidableEq, Repr

/-- The fields of an instant are in their calendar ranges, the year in 0000 to 9999. -/
def UTCTime.valid (t : UTCTime) : Prop :=
  t.year ≤ 9999 ∧ 1 ≤ t.month ∧ t.month ≤ 12 ∧ 1 ≤ t.day ∧ t.day ≤ 31 ∧ t.hour ≤ 23 ∧
    t.minute ≤ 59 ∧ t.second ≤ 59 ∧ t.nanosecond ≤ 999999999

instance (t : UTCTime) : Decidable t.valid := by
  unfold UTCTime.valid
  infer_instance

/-- Chronological order of two instants in UTC: `t1` is earlier than `t2`. -/
def UTCTime.before (t1 t2 : UTCTime) : Prop :=
  t1.year < t2.year ∨ (t1.year = t2.year ∧
    (t1.month < t2.month ∨ (t1.month = t2.month ∧
      (t1.day < t2.day ∨ (t1.day = t2.day ∧
        (t1.hour < t2.hour ∨ (t1.hour = t2.hour ∧
          (t1.minute < t2.minute ∨ (t1.minute = t2.minute ∧
            (t1.second < t2.second ∨ (t1.second = t2.second ∧
              t1.nanosecond < t2.nanosecond)))))))))))

instance (t1 t2 : UTCTime) : Decidable (t1.before t2) := by
  unfold UTCTime.before
  infer_instance

/-- Two decimal digits of a number below 100, as `time.Format` writes the elements `01`, `02`,
`15`, `04` and `05`. -/
def pad2 (n : Nat) : List Char := [Nat.digitChar (n / 10), Nat.digitChar (n % 10)]

/-- Four decimal digits of a number below 10000, as `time.Format` writes the element `2006`. -/
def pad4 (n : Nat) : List Char := pad2 (n / 100) ++ pad2 (n % 100)

/-- Go `t.Format("20060102T15040599")`, the key expression of `WriteMetadata`: year, month,
day, the letter `T`, hour, minute and second; the final `99` is no element of a `time` layout
(a fraction of a second needs a leading `.` or `,`) and is copied as it is. -/
def formatKey (t : UTCTime) : String :=
  String.mk (pad4 t.year ++ (pad2 t.month ++ (pad2 t.day ++ ('T' :: (pad2 t.hour ++
    (pad2 t.minute ++ (pad2 t.second ++ ['9', '9'])))))))

/-- The strict lexicographic order of Go strings: `a < b`. -/
def charsLT (a b : List Char) : Bool := !charsLE b a

/-- A JSON value: the text that `json.Marshal` writes and a decoder reads is taken as the value
it spells. Of a number literal `num q plain` keeps the value `q` and whether the literal is
written as an integer (digits after an optional minus sign, without fraction or exponent). -/
inductive JSON where
  | null
  | bool (b : Bool)
  | num (q : ℚ) (plain : Bool)
  | str (s : String)
  | arr (xs : List JSON)
  | obj (fields : List (String × JSON))

/-- Bytes of a body: the JSON value they spell, or `none` when they spell none. -/
abbrev Bytes := Option JSON

/-- The JSON methods of `time.Time`, library functions kept as parameters: `marshalTime` is
the text `MarshalJSON` writes between the quotes (RFC 3339), or its error for a year outside
0 to 9999; `parseTime` is what `UnmarshalJSON` reads from such a text; `zeroTime` is the instant
of the zero `time.Time`. A written instant is read back. -/
structure TimeLib where
  marshalTime : Int → Except String String
  parseTime : String → Option Int
  zeroTime : Int
  parse_marshal : ∀ (t : Int) (s : String), marshalTime t = .ok s → parseTime s = some t

/-- The member of a JSON object for a `*time.Time` field with `omitempty`: none for a nil
pointer. -/
def marshalTimeField (lib : TimeLib) (tag : String) :
    Option Int → Except String (List (String × JSON))
  | none => .ok []
  | some t =>
    match lib.marshalTime t with
    | .ok s => .ok [(tag, .str s)]
    | .error err => .error err

/-- Go `json.Marshal(state)` for a `CycleMetadata`, by its field tags, in the order of the
fields: `currentPublishError`, `windowStart` and `windowEnd` are left out when empty
(`omitempty`), the unexported `state` is never written, an `int` is written as an integer
literal and a `float64` as one when it is a whole number below 10^21. `stateIsNil` tells a nil
`State` slice, written `null`, from an empty one, written as an empty array (the empty list
stands for both). The only errors are those of `MarshalJSON` of the two times. (Marshalling
also fails for a `progress` that is an infinity or NaN, which `ℚ` does not contain.) -/
def marshalMetadata (lib : TimeLib) (stateIsNil : Bool) (m : CycleMetadata) :
    Except String JSON :=
  match marshalTimeField lib "windowStart" m.Start with
  | .error err => .error err
  | .ok start =>
    match marshalTimeField lib "windowEnd" m.End with
    | .error err => .error err
    | .ok stop =>
      .ok (.obj ([("currentPublishUuid", .str m.CurrentPublishUUID),
          ("currentPublishReference", .str m.CurrentPublishRef)]
        ++ (if m.CurrentPublishError = "" then []
            else [("currentPublishError", .str m.CurrentPublishError)])
        ++ [("errors", .num m.Errors true),
          ("progress", .num m.Progress (decide (m.Progress.den = 1 ∧ |m.Progress| < 10 ^ 21))),
          ("state", if stateIsNil && m.State.isEmpty then .null else .arr (m.State.map JSON.str)),
          ("completed", .num m.Completed true), ("total", .num m.Total true),
          ("iteration", .num m.Iteration true), ("attempts", .num m.Attempts true)]
        ++ start ++ stop))

/-- Case folding of one character of an object key, as far as it can meet an ASCII letter:
an upper-case ASCII letter folds to its lower case, the Kelvin sign to `k` and the long s to
`s`. -/
def foldRune (c : Char) : Char :=
  if 65 ≤ c.toNat ∧ c.toNat ≤ 90 then Char.ofNat (c.toNat + 32)
  else if c.toNat = 0x212A then 'k'
  else if c.toNat = 0x17F then 's'
  else c

/-- The match of an object key with a field tag of ASCII letters: `encoding/json` takes the
field whose tag is the key, or else one whose tag equals the key under Unicode case folding
(the tags of `CycleMetadata` stay pairwise different under folding). -/
def equalFold (tag key : String) : Bool :=
  tag.data.map foldRune == key.data.map foldRune

/-- Decoding of a JSON value into a `string` field holding `old`: the new value, or `none`
when the value is of another kind. `null` changes nothing. -/
def decodeString (old : String) : JSON → Option String
  | .null => some old
  | .str s => some s
  | _ => none

/-- Decoding of a JSON value into an `int` field holding `old`: only an integer literal in the
range of `int` is taken. -/
def decodeInt (old : Int) : JSON → Option Int
  | .null => some old
  | .num q plain =>
    if plain ∧ q.den = 1 ∧ minInt ≤ q.num ∧ q.num ≤ maxInt then some q.num else none
  | _ => none

/-- Decoding of a JSON value into a `float64` field holding `old`. -/
def decodeFloat (old : ℚ) : JSON → Option ℚ
  | .null => some old
  | .num q _ => some q
  | _ => none

/-- Decoding of the elements of a JSON array into a `[]string` holding `old`: element by
element; a `null` or an element of another kind leaves what the slice holds at that index (the
empty string past its length), and the second result says whether some element was of another
kind. -/
def decodeStrings : List String → List JSON → List String × Bool
  | _, [] => ([], false)
  | old, x :: xs =>
    match x with
    | .str s => (s :: (decodeStrings old.tail xs).1, (decodeStrings old.tail xs).2)
    | .null => (old.head?.getD "" :: (decodeStrings old.tail xs).1, (decodeStrings old.tail xs).2)
    | _ => (old.head?.getD "" :: (decodeStrings old.tail xs).1, true)

/-- Decoding of a JSON value into a `[]string` field holding `old`: `null` gives the nil slice;
the second result says whether a type error is to be reported. -/
def decodeSlice (old : List String) : JSON → List String × Bool
  | .null => ([], false)
  | .arr xs => decodeStrings old xs
  | _ => (old, true)

/-- Decoding of a JSON value into a `*time.Time` field holding `old`: `null` gives the nil
pointer; any other value goes to `UnmarshalJSON` of a `time.Time` (the one pointed to, or a new
zero value), which takes only a string that parses; its failure is the second result. -/
def decodeTime (lib : TimeLib) (old : Option Int) : JSON → Option Int × Bool
  | .null => (none, false)
  | .str s =>
    match lib.parseTime s with
    | some t => (some t, false)
    | none => (some (old.getD lib.zeroTime), true)
  | _ => (some (old.getD lib.zeroTime), true)

/-- The state of `dec.Decode(state)` inside an object: the metadata so far, the first type
error (which does not end decoding: the member is skipped), and the error of an
`UnmarshalJSON`, which ends it. -/
structure Decoding where
  m : CycleMetadata
  saved : GoError := none
  failed : GoError := none

/-- A type error: `encoding/json` keeps the first one and goes on. (The text of the error
names the kind of the value and the field; here it names the field.) -/
def Decoding.typeError (d : Decoding) (tag : String) : Decoding :=
  { d with saved := if d.saved.isSome then d.saved
                    else some ("json: cannot unmarshal value into Go struct field CycleMetadata."
                      ++ tag) }

/-- One member `kv` of the object: the field with the matching tag is decoded, a member with
no matching tag is skipped, and nothing is decoded once an `UnmarshalJSON` has failed. -/
def decodeMember (lib : TimeLib) (d : Decoding) (kv : String × JSON) : Decoding :=
  if d.failed.isSome then d
  else if equalFold "currentPublishUuid" kv.1 then
    match decodeString d.m.CurrentPublishUUID kv.2 with
    | some x => { d with m := { d.m with CurrentPublishUUID := x } }
    | none => d.typeError "currentPublishUuid"
  else if equalFold "currentPublishReference" kv.1 then
    match decodeString d.m.CurrentPublishRef kv.2 with
    | some x => { d with m := { d.m with CurrentPublishRef := x } }
    | none => d.typeError "currentPublishReference"
  else if equalFold "currentPublishError" kv.1 then
    match decodeString d.m.CurrentPublishError kv.2 with
    | some x => { d with m := { d.m with CurrentPublishError := x } }
    | none => d.typeError "currentPublishError"
  else if equalFold "errors" kv.1 then
    match decodeInt d.m.Errors kv.2 with
    | some x => { d with m := { d.m with Errors := x } }
    | none => d.typeError "errors"
  else if equalFold "progress" kv.1 then
    match decodeFloat d.m.Progress kv.2 with
    | some x => { d with m := { d.m with Progress := x } }
    | none => d.typeError "progress"
  else if equalFold "state" kv.1 then
    if (decodeSlice d.m.State kv.2).2 then
      Decoding.typeError { d with m := { d.m with State := (decodeSlice d.m.State kv.2).1 } } "state"
    else { d with m := { d.m with State := (decodeSlice d.m.State kv.2).1 } }
  else if equalFold "completed" kv.1 then
    match decodeInt d.m.Completed kv.2 with
    | some x => { d with m := { d.m with Completed := x } }
    | none => d.typeError "completed"
  else if equalFold "total" kv.1 then
    match decodeInt d.m.Total kv.2 with
    | some x => { d with m := { d.m with Total := x } }
    | none => d.typeError "total"
  else if equalFold "iteration" kv.1 then
    match decodeInt d.m.Iteration kv.2 with
    | some x => { d with m := { d.m with Iteration := x } }
    | none => d.typeError "iteration"
  else if equalFold "attempts" kv.1 then
    match decodeInt d.m.Attempts kv.2 with
    | some x => { d with m := { d.m with Attempts := x } }
    | none => d.typeError "attempts"
  else if equalFold "windowStart" kv.1 then
    if (decodeTime lib d.m.Start kv.2).2 then
      { d with m := { d.m with Start := (decodeTime lib d.m.Start kv.2).1 },
               failed := some "parsing time: cannot parse as RFC 3339" }
    else { d with m := { d.m with Start := (decodeTime lib d.m.Start kv.2).1 } }
  else if equalFold "windowEnd" kv.1 then
    if (decodeTime lib d.m.End kv.2).2 then
      { d with m := { d.m with End := (decodeTime lib d.m.End kv.2).1 },
               failed := some "parsing time: cannot parse as RFC 3339" }
    else { d with m := { d.m with End := (decodeTime lib d.m.End kv.2).1 } }
  else d

/-- Go `dec.Decode(state)` into a zero `CycleMetadata`: the members of an object are decoded
in order; the error is that of a failed `UnmarshalJSON`, or else the first type error; `null`
changes nothing, and a value that is no object is a type error. -/
def decodeMetadata (lib : TimeLib) : Bytes → CycleMetadata × GoError
  | none => ({}, some "invalid character looking for beginning of value")
  | some (.obj fields) =>
    ((fields.foldl (decodeMember lib) { m := {} }).m,
      if (fields.foldl (decodeMember lib) { m := {} }).failed.isSome
      then (fields.foldl (decodeMember lib) { m := {} }).failed
      else (fields.foldl (decodeMember lib) { m := {} }).saved)
  | some .null => ({}, none)
  | some _ => ({}, some "json: cannot unmarshal value into Go value of type scheduler.CycleMetadata")

/-- The `int` fields of a metadata are in the range of a Go `int`. -/
def CycleMetadata.intsInRange (m : CycleMetadata) : Prop :=
  (minInt ≤ m.Errors ∧ m.Errors ≤ maxInt) ∧ (minInt ≤ m.Completed ∧ m.Completed ≤ maxInt) ∧
    (minInt ≤ m.Total ∧ m.Total ≤ maxInt) ∧ (minInt ≤ m.Iteration ∧ m.Iteration ≤ maxInt) ∧
    (minInt ≤ m.Attempts ∧ m.Attempts ≤ maxInt)

instance (m : CycleMetadata) : Decidable m.intsInRange := by
  unfold CycleMetadata.intsInRange
  infer_instance

/-- The constant `defaultContentType`. -/
def defaultContentType : String := "application/json"

/-- The interface `s3.ReadWriter` (declared outside these sources), with the signatures of its
call sites, over a store state `σ`: `GetLatestKeyForID(id)` answers a key and an error,
`Read(key)` answers found, body, content type (a `*string`) and an error, and
`Write(id, key, b, contentType)` answers an error and changes the store. -/
structure S3ReadWriter (σ : Type) where
  GetLatestKeyForID : σ → String → String × GoError
  Read : σ → String → Bool × Bytes × Option String × GoError
  Write : σ → String → String → Bytes → String → GoError × σ

/-- The store returns the object just written as the latest for `id`: after any successful
`Write` for `id` in the state `st`, `GetLatestKeyForID(id)` answers a key that is not blank, and
`Read` of that key finds the body and the content type that were written. -/
def S3ReadWriter.returnsWritten {σ : Type} (rw : S3ReadWriter σ) (st : σ) (id : String) : Prop :=
  ∀ (key : String) (b : Bytes) (contentType : String) (st1 : σ),
    rw.Write st id key b contentType = (none, st1) →
    ∃ latest, rw.GetLatestKeyForID st1 id = (latest, none) ∧ TrimSpace latest ≠ "" ∧
      rw.Read st1 latest = (true, b, some contentType, none)

/-- The method `LoadMetadata(id)`: the metadata (a nil pointer is `none`) and the error. The
message about the content type prints the pointer `contentType`: `<nil>`, or an address, of
which `0x` stands for the digits. -/
def LoadMetadata {σ : Type} (lib : TimeLib) (rw : S3ReadWriter σ) (st : σ) (id : String) :
    Option CycleMetadata × GoError :=
  match rw.GetLatestKeyForID st id with
  | (_, some err) => (none, some err)
  | (key, none) =>
    if TrimSpace key = "" then (none, some ("No key found for id \"" ++ id ++ "\""))
    else
      match rw.Read st key with
      | (_, _, _, some err) => (none, some err)
      | (found, body, contentType, none) =>
        if !found then (none, some ("No state found for \"" ++ id ++ "\""))
        else
          match contentType with
          | none =>
            (none, some ("Failed to load state for \"" ++ id
              ++ "\". Content was in an unexpected Content-Type \"<nil>\""))
          | some ct =>
            if TrimSpace ct ≠ "application/json" then
              (none, some ("Failed to load state for \"" ++ id
                ++ "\". Content was in an unexpected Content-Type \"0x\""))
            else
              let r := decodeMetadata lib body
              (some r.1, r.2)

/-- The method `WriteMetadata(id, state)` called at the instant `now`: the returned error and
the store afterwards. An error of `json.Marshal` is returned without a write. -/
def WriteMetadata {σ : Type} (lib : TimeLib) (rw : S3ReadWriter σ) (now : UTCTime) (st : σ)
    (id : String) (state : CycleMetadata) (stateIsNil : Bool) : GoError × σ :=
  match marshalMetadata lib stateIsNil state with
  | .error err => (some err, st)
  | .ok b =>
    let key := formatKey now
    rw.Write st id key (some b) defaultContentType

/-! ## Blacklists (`blacklist/blacklist.go`) -/

/-- The function type `blacklistFilter`: for a uuid and its content, valid or not, and an
error. -/
abbrev blacklistFilter := String → Content → Bool × GoError

/-- The struct `chainedBlacklist`. -/
structure chainedBlacklist where
  filter : blacklistFilter

/-- The struct `Builder`: the filters collected so far and the errors collected so far (their
messages), both in the order of the calls. -/
structure Builder where
  chain : List blacklistFilter := []
  errs : List String := []

/-- The function `NewBuilder`. -/
def NewBuilder : Builder := {}

/-- The method `ValidForPublish`. -/
def chainedBlacklist.ValidForPublish (c : chainedBlacklist) (uuid : String) (content : Content) :
    Bool × GoError :=
  c.filter uuid content

/-- The files a blacklist reads: for a file name either the error of `os.Open`, or the lines a
`bufio.Scanner` gives and the error `scanner.Err()` reports after the last of them. -/
abbrev Files := String → Except String (List String × GoError)

/-- Go `bytes.HasPrefix(line, sub)`. -/
def startsWith : List Char → List Char → Bool
  | _, [] => true
  | [], _ :: _ => false
  | a :: as, b :: bs => a == b && startsWith as bs

/-- Go `bytes.Contains(line, sub)`: `sub` occurs in `line` as a contiguous block. -/
def containsChars : List Char → List Char → Bool
  | [], sub => startsWith [] sub
  | a :: as, sub => startsWith (a :: as) sub || containsChars as sub

/-- The function `fileBasedBlacklist(file)`: the error of opening the file, or a filter that
opens the file again at every call, answers `(false, nil)` at the first line that contains the
uuid and `(true, scanner.Err())` when no line does. -/
def fileBasedBlacklist (files : Files) (file : String) : Except String blacklistFilter :=
  match files file with
  | .error err => .error err
  | .ok _ =>
    .ok (fun uuid _ =>
      match files file with
      | .error err => (false, some err)
      | .ok (lines, scanErr) =>
        if lines.any (fun line => containsChars line.data uuid.data) then (false, none)
        else (true, scanErr))

/-- The method `FileBasedBlacklist(file)` of the builder. -/
def Builder.FileBasedBlacklist (files : Files) (b : Builder) (file : String) : Builder :=
  match fileBasedBlacklist files file with
  | .error err => { b with errs := b.errs ++ [err] }
  | .ok filter => { b with chain := b.chain ++ [filter] }

/-- The loop of the filter that `Build` returns, over the chain: the result, and the number of
filters of the chain that were called. -/
def runChain : List blacklistFilter → String → Content → (Bool × GoError) × Nat
  | [], _, _ => ((true, none), 0)
  | filter :: rest, uuid, content =>
    let r := filter uuid content
    if !r.1 || r.2.isSome then (r, 1)
    else ((runChain rest uuid content).1, (runChain rest uuid content).2 + 1)

/-- The message `Build` puts together in its loop over the collected errors: every pass
assigns `msg`, it does not append to it. -/
def buildMessage (errs : List String) : String :=
  errs.foldl (fun _ err => "\"" ++ err ++ "\", ") ""

/-- The method `Build`: the blacklist (`none` is the nil interface) and the error. -/
def Builder.Build (b : Builder) : Option chainedBlacklist × GoError :=
  if b.errs.length > 0 then (none, some (buildMessage b.errs))
  else (some { filter := fun uuid content => (runChain b.chain uuid content).1 }, none)

/-! ## HTTP handlers of the cycles (`resources/cycles.go`) -/

/-- An `http.ResponseWriter`: `header` is the map that `w.Header()` gives to the handler,
`status` the status code once the header is written, `sent` the headers written with it (the
header map as it was at that moment; a later change of the map is not sent), `body` the bytes
written. -/
structure ResponseWriter where
  header : List (String × List String) := []
  status : Option Nat := none
  sent : List (String × List String) := []
  body : String := ""
deriving DecidableEq, Repr

/-- Go `w.Header().Add(key, value)`. -/
def ResponseWriter.HeaderAdd (w : ResponseWriter) (key value : String) : ResponseWriter :=
  { w with header := mapSet w.header key (((mapGet w.header key).getD []) ++ [value]) }

/-- Go `w.Header().Set(key, value)`. -/
def ResponseWriter.HeaderSet (w : ResponseWriter) (key value : String) : ResponseWriter :=
  { w with header := mapSet w.header key [value] }

/-- Go `w.WriteHeader(code)`: the first call fixes the status and sends the header map as it
is; a later call changes nothing. -/
def ResponseWriter.WriteHeader (w : ResponseWriter) (code : Nat) : ResponseWriter :=
  match w.status with
  | some _ => w
  | none => { w with status := some code, sent := w.header }

/-- Go `w.Write(data)`: writes the header with status 200 when it is not yet written, then the
data. -/
def ResponseWriter.Write (w : ResponseWriter) (data : String) : ResponseWriter :=
  { w.WriteHeader 200 with body := (w.WriteHeader 200).body ++ data }

/-- Go `http.Error(w, msg, code)`. -/
def httpError (w : ResponseWriter) (msg : String) (code : Nat) : ResponseWriter :=
  (((w.HeaderSet "Content-Type" "text/plain; charset=utf-8").HeaderSet
    "X-Content-Type-Options" "nosniff").WriteHeader code).Write (msg ++ "\n")

/-- Go `http.Redirect(w, r, url, code)` for a request that is neither GET nor HEAD. -/
def httpRedirect (w : ResponseWriter) (url : String) (code : Nat) : ResponseWriter :=
  (w.HeaderSet "Location" url).WriteHeader code

/-- Modelled from the spec: a value of the interface `scheduler.Cycle` as the handlers use it.
The type `ThrottledWholeCollectionCycle` is declared outside these sources: such a cycle has an
id, the exported field `Throttle` and the config `TransformToConfig()` gives; of any other
cycle the handlers use the id only. -/
inductive ApiCycle where
  | throttled (id : String) (throttle : Throttle) (config : CycleConfig)
  | other (id : String)
deriving DecidableEq, Repr

/-- The method `ID()` of a cycle. -/
def ApiCycle.ID : ApiCycle → String
  | .throttled id _ _ => id
  | .other id => id

/-- The methods of the interface `scheduler.Scheduler` that the handlers call, over a scheduler
state `σ`, with the signatures of the call sites: `Cycles()`, `NewCycle(config)`,
`AddCycle(cycle)` and `DeleteCycle(cycleID)`. -/
structure Scheduler (σ : Type) where
  Cycles : σ → List (String × ApiCycle)
  NewCycle : σ → CycleConfig → Except String ApiCycle
  AddCycle : σ → ApiCycle → GoError × σ
  DeleteCycle : σ → String → GoError × σ

/-- A call of a handler to the scheduler. -/
inductive SchedulerCall where
  | Cycles
  | NewCycle (config : CycleConfig)
  | AddCycle (id : String)
  | DeleteCycle (id : String)
deriving DecidableEq, Repr

/-- The functions of `encoding/json` the handlers use on a request body: decoding into a
`CycleConfig`, decoding into a `DefaultThrottle`, and `json.Marshal` of a throttle. -/
structure JsonLib where
  decodeConfig : String → CycleConfig × GoError
  decodeThrottle : String → Throttle × GoError
  marshalThrottle : Throttle → Except String String

/-- An `*http.Request`: the route variables `mux.Vars(r)` and the body. -/
structure Request where
  vars : List (String × String) := []
  body : String := ""
deriving DecidableEq, Repr

/-- What a handler leaves behind: the scheduler state, the response writer, and its calls to
the scheduler in order. -/
structure Handled (σ : Type) where
  sched : σ
  w : ResponseWriter
  calls : List SchedulerCall

/-- The function `cycleURL`. -/
def cycleURL (cycle : ApiCycle) : String := "/cycles/" ++ cycle.ID

/-- The function `createCycle`: the cycle or the error, with what it leaves behind. -/
def createCycle {σ : Type} (sched : Scheduler σ) (st : σ) (cycleConfig : CycleConfig)
    (w : ResponseWriter) : Except String ApiCycle × Handled σ :=
  match sched.NewCycle st cycleConfig with
  | .error err =>
    (.error err, { sched := st, w := httpError w err 500, calls := [.NewCycle cycleConfig] })
  | .ok cycle =>
    match sched.AddCycle st cycle with
    | (some err, st1) =>
      (.error err, { sched := st1, w := httpError w err 500,
                     calls := [.NewCycle cycleConfig, .AddCycle cycle.ID] })
    | (none, st1) =>
      (.ok cycle, { sched := st1, w := w, calls := [.NewCycle cycleConfig, .AddCycle cycle.ID] })

/-- The function `findCycle`: the cycle under the route variable `id`, or the error after a
404 response. -/
def findCycle {σ : Type} (sched : Scheduler σ) (st : σ) (w : ResponseWriter) (r : Request) :
    Except String ApiCycle × ResponseWriter :=
  let cycleID := (mapGet r.vars "id").getD ""
  match mapGet (sched.Cycles st) cycleID with
  | none =>
    (.error ("Cycle not found with ID: " ++ cycleID),
      httpError w ("Cycle not found with ID: " ++ cycleID) 404)
  | some cycle => (.ok cycle, w)

/-- The handler `CreateCycle`; `validate` is `cycleConfig.Validate()`. -/
def CreateCycle {σ : Type} (json : JsonLib) (validate : CycleConfig → GoError)
    (sched : Scheduler σ) (st : σ) (w : ResponseWriter) (r : Request) : Handled σ :=
  match json.decodeConfig r.body with
  | (_, some err) => { sched := st, w := httpError w err 400, calls := [] }
  | (cycleConfig, none) =>
    match validate cycleConfig with
    | some err => { sched := st, w := httpError w err 400, calls := [] }
    | none =>
      match createCycle sched st cycleConfig w with
      | (.ok cycle, h) =>
        { h with w := (h.w.WriteHeader 201).HeaderSet "Location" (cycleURL cycle) }
      | (.error _, h) => h

/-- The handler `GetCycleThrottle`. -/
def GetCycleThrottle {σ : Type} (json : JsonLib) (sched : Scheduler σ) (st : σ)
    (w : ResponseWriter) (r : Request) : Handled σ :=
  let w1 := w.HeaderAdd "Content-Type" "application/json"
  match findCycle sched st w1 r with
  | (.error _, w2) => { sched := st, w := w2, calls := [.Cycles] }
  | (.ok cycle, w2) =>
    match cycle with
    | .other id =>
      { sched := st, w := httpError w2 ("Cycle is not throttled: " ++ id) 404, calls := [.Cycles] }
    | .throttled _ throttle _ =>
      match json.marshalThrottle throttle with
      | .error err => { sched := st, w := httpError w2 err 500, calls := [.Cycles] }
      | .ok data => { sched := st, w := w2.Write data, calls := [.Cycles] }

/-- The handler `SetCycleThrottle`. -/
def SetCycleThrottle {σ : Type} (lib : StdLib) (json : JsonLib) (sched : Scheduler σ) (st : σ)
    (w : ResponseWriter) (r : Request) : Handled σ :=
  let w1 := w.HeaderAdd "Content-Type" "application/json"
  match findCycle sched st w1 r with
  | (.error _, w2) => { sched := st, w := w2, calls := [.Cycles] }
  | (.ok cycle, w2) =>
    let cycleID := cycle.ID
    match cycle with
    | .other _ =>
      { sched := st, w := httpError w2 ("Cycle is not throttled: " ++ cycleID) 405,
        calls := [.Cycles] }
    | .throttled _ _ oldConfig =>
      match json.decodeThrottle r.body with
      | (_, some err) => { sched := st, w := httpError w2 err 400, calls := [.Cycles] }
      | (newThrottle, none) =>
        let st1 := (sched.DeleteCycle st cycleID).2
        let config := { oldConfig with Throttle := lib.durationString newThrottle.interval }
        match createCycle sched st1 config w2 with
        | (.ok newCycle, h) =>
          { h with w := httpRedirect h.w (cycleURL newCycle) 303,
                   calls := [.Cycles, .DeleteCycle cycleID] ++ h.calls }
        | (.error _, h) => { h with calls := [.Cycles, .DeleteCycle cycleID] ++ h.calls }

/-! ## Example values -/

/-- Library functions used in the examples: a constant digest, a constant duration text,
lower-casing of ASCII letters, and a duration parser that knows `"1s"` and `"1m"`. -/
def exampleLib : StdLib :=
  { sum256 := fun _ => List.replicate 32 0
    sum256_length := fun _ => List.length_replicate 32 0
    durationString := fun _ => "1s"
    toLower := fun s => String.mk (s.data.map Char.toLower)
    parseDuration := fun s =>
      if s = "1s" then .ok 1000000000
      else if s = "1m" then .ok 60000000000
      else .error ("time: invalid duration " ++ s) }

/-- A cycle as `newAbstractCycle` builds it, with a blacklist that excludes every item. -/
def exampleCycle : abstractCycle :=
  newAbstractCycle exampleLib "name" "ThrottledWholeCollection" (fun _ _ => (true, none)) {}
    "collection" "origin" 1000000000 {}

/-- The example cycle with a cancellation handle installed, as on a started cycle. -/
def startedCycle : abstractCycle := { exampleCycle with cancel := some {} }

/-- The example cycle with a restored metadata that has no room left: `completed = total = 1`. -/
def fullCycle : abstractCycle :=
  exampleCycle.SetMetadata { Completed := 1, Total := 1, Progress := 1 }

/-- A turn in which the collection yields `uuid` and the task succeeds with a transaction id. -/
def itemTurn (uuid : String) : Turn :=
  { Next := (false, uuid, none), Prepare := fun _ _ => ({}, "tid_1234", none) }

/-- A turn in which the collection yields `uuid` and `Execute` fails with `msg`. -/
def failingTurn (uuid msg : String) : Turn :=
  { Next := (false, uuid, none), Prepare := fun _ _ => ({}, "tid_1234", none),
    Execute := fun _ _ _ _ => some msg }

/-- A turn in which the collection yields `uuid` and `Prepare` fails with `msg`. -/
def prepareFailingTurn (uuid msg : String) : Turn :=
  { Next := (false, uuid, none), Prepare := fun _ _ => ({}, "tid_1234", some msg) }

/-- A turn in which the collection reports finished without error. -/
def finishedTurn : Turn := { Next := (true, "", none) }

/-- Modelled from the spec: a validation of configs by the data model: name and collection
not blank and the type one of `LongTerm`, `ShortTerm`, `ThrottledWholeCollection`. -/
def exampleValidate (config : CycleConfig) : GoError :=
  if TrimSpace config.Name = "" then some "Please provide a cycle name"
  else if TrimSpace config.Collection = "" then some "Please provide a valid collection"
  else if exampleLib.toLower config.Type ∈ ["longterm", "shortterm", "throttledwholecollection"]
  then none
  else some "Please provide a valid type"

/-- A scheduler with the throttle `default` registered and no cycle. -/
def exampleScheduler : defaultScheduler :=
  (defaultScheduler.AddThrottle exampleLib
    (NewScheduler {} {} { LoadState := fun _ => ({}, some "not found") }) "default" "1m").2

/-- The LongTerm config of the examples. -/
def longTermConfig : CycleConfig :=
  { Name := "x", «Type» := "LongTerm", Collection := "c", Throttle := "default" }

/-- A ShortTerm config with the name and collection of `longTermConfig`. -/
def shortTermConfig : CycleConfig :=
  { Name := "x", «Type» := "ShortTerm", Collection := "c", TimeWindow := "1m" }

/-- The config of the first scenario of the spec, of type `ThrottledWholeCollection`. -/
def throttledConfig : CycleConfig :=
  { Name := "x", «Type» := "ThrottledWholeCollection", Collection := "c", Origin := "o",
    Throttle := "1s", CoolDown := "1s" }

/-- Library functions with a digest that depends on its input: the first 32 bytes of the
input, filled up with zero bytes. -/
def prefixLib : StdLib :=
  { exampleLib with
    sum256 := fun bs => (bs ++ List.replicate 32 0).take 32
    sum256_length := fun bs => by simp }

/-- A scheduler holding a started LongTerm cycle under `"id1"` and a never started ShortTerm
cycle under `"id2"`; the state store has a checkpoint for `"id1"` only. -/
def directoryScheduler : defaultScheduler :=
  { exampleScheduler with
    cycles := [("id1", .LongTermCycle startedCycle (NewThrottle 60000000000 1)),
      ("id2", .ShortTermCycle exampleCycle 60000000000)]
    stateReadWriter :=
      { LoadState := fun id =>
          if id = "id1" then ({ Completed := 500, Iteration := 1 }, none)
          else ({}, some "not found") } }

/-- An object of the example store. -/
structure StoredObject where
  id : String
  key : String
  body : Bytes
  contentType : String

/-- An example store: the objects in the order they were written; the latest key for an id is
the key of the object written last for it, stored as `id/key`. -/
def exampleStore : S3ReadWriter (List StoredObject) :=
  { Write := fun st id key b ct =>
      (none, st ++ [{ id := id, key := id ++ "/" ++ key, body := b, contentType := ct }])
    GetLatestKeyForID := fun st id =>
      match (st.filter (fun o => decide (o.id = id))).getLast? with
      | some o => (o.key, none)
      | none => ("", none)
    Read := fun st key =>
      match (st.filter (fun o => decide (o.key = key))).getLast? with
      | some o => (true, o.body, some o.contentType, none)
      | none => (false, none, none, none) }

/-- The decimal digits of a number, as text. -/
def decimalText (n : Nat) : String :=
  String.mk ((Nat.digits 10 n).reverse.map Nat.digitChar)

/-- The number that a text of decimal digits spells; no number for any other text. -/
def parseDecimal (s : String) : Option Nat :=
  if s.data.all (fun c => decide (48 ≤ c.toNat ∧ c.toNat ≤ 57)) then
    some (Nat.ofDigits 10 (s.data.reverse.map (fun c => c.toNat - 48)))
  else none

/-- An example of the JSON methods of `time.Time`: an instant is a number of seconds counted
from the zero time, its text is that number in decimal digits, and an instant before the zero
time cannot be written. -/
def exampleTimeLib : TimeLib :=
  { marshalTime := fun t =>
      if 0 ≤ t then .ok (decimalText t.toNat)
      else .error "Time.MarshalJSON: year outside of range [0,9999]"
    parseTime := fun s => (parseDecimal s).map Int.ofNat
    zeroTime := 0
    parse_marshal := by
      intro t s h
      have key : ∀ d, d < 10 → (Nat.digitChar d).toNat = 48 + d := by
        intro d hd
        interval_cases d <;> rfl
      have hl : ∀ l : List Nat, (∀ d ∈ l, d < 10) →
          (l.map Nat.digitChar).all (fun c => decide (48 ≤ c.toNat ∧ c.toNat ≤ 57)) = true ∧
          (l.map Nat.digitChar).map (fun c => c.toNat - 48) = l := by
        intro l
        induction l with
        | nil => intro _; simp
        | cons d rest ih =>
          intro hd
          have h1 := key d (hd d (List.mem_cons_self _ _))
          have h2 := ih (fun x hx => hd x (List.mem_cons_of_mem _ hx))
          have h3 : d < 10 := hd d (List.mem_cons_self _ _)
          refine ⟨?_, ?_⟩
          · simp only [List.map_cons, List.all_cons, h2.1, Bool.and_true, h1]
            simp
            omega
          · simp only [List.map_cons, h2.2, h1]
            simp
      by_cases ht : 0 ≤ t
      · simp only [if_pos ht] at h
        have hs : s = decimalText t.toNat := by
          injection h with h
          exact h.symm
        have hdig : ∀ d ∈ (Nat.digits 10 t.toNat).reverse, d < 10 := by
          intro d hd
          exact Nat.digits_lt_base (by norm_num) (List.mem_reverse.mp hd)
        have h4 := hl _ hdig
        simp only [hs, parseDecimal, decimalText, h4.1, if_true, Option.map_some']
        rw [← List.map_reverse, List.reverse_reverse]
        have h5 := hl (Nat.digits 10 t.toNat)
          (fun d hd => Nat.digits_lt_base (by norm_num) hd)
        rw [h5.2, Nat.ofDigits_digits]
        simp [Int.toNat_of_nonneg ht]
      · simp only [if_neg ht] at h
        cases h }

/-- The instant 2017-06-12 14:30:22.000000001 UTC. -/
def instant1 : UTCTime :=
  { year := 2017, month := 6, day := 12, hour := 14, minute := 30, second := 22, nanosecond := 1 }

/-- The instant 2017-06-12 14:30:22.000000002 UTC, one nanosecond after `instant1`. -/
def instant2 : UTCTime :=
  { year := 2017, month := 6, day := 12, hour := 14, minute := 30, second := 22, nanosecond := 2 }

/-- The instant 2017-06-12 14:30:23 UTC, in the second after `instant1`. -/
def instant3 : UTCTime :=
  { year := 2017, month := 6, day := 12, hour := 14, minute := 30, second := 23, nanosecond := 0 }

/-- A metadata of a running cycle, as it is written to a checkpoint. -/
def checkpointMetadata : CycleMetadata :=
  { CurrentPublishUUID := "u2", CurrentPublishRef := "tid_1234", CurrentPublishError := "i fail soz",
    Errors := 1, Progress := 2 / 15, State := ["running"], Completed := 2, Total := 15,
    Iteration := 1, Attempts := 0, Start := some 1497277822, End := none, state := some ["running"] }

/-- Example files: `blacklist.txt` holds two uuids, any other file does not exist. -/
def exampleFiles : Files := fun file =>
  if file = "blacklist.txt" then .ok (["u1 removed", "u7"], none)
  else .error ("open " ++ file ++ ": no such file or directory")

/-- A builder after two calls of `FileBasedBlacklist` with files that do not exist. -/
def failedBuilder : Builder :=
  (NewBuilder.FileBasedBlacklist exampleFiles "a.txt").FileBasedBlacklist exampleFiles "b.txt"

/-- A chain of three filters: the first accepts everything, the second rejects the uuid `u1`
with an error, the third rejects everything. -/
def exampleChain : List blacklistFilter :=
  [fun _ _ => (true, none),
   fun uuid _ => if uuid = "u1" then (false, some "lookup failed") else (true, none),
   fun _ _ => (false, none)]

/-- An example JSON library: every body decodes to `throttledConfig` and to a throttle of one
minute. -/
def exampleJson : JsonLib :=
  { decodeConfig := fun _ => (throttledConfig, none)
    decodeThrottle := fun _ => (NewThrottle 60000000000 1, none)
    marshalThrottle := fun t => .ok (toString t.interval) }

/-- An example scheduler for the handlers, over the list of its cycles: a new cycle gets its
name as id, and adding a cycle fails when its id is taken. -/
def exampleApiScheduler : Scheduler (List (String × ApiCycle)) :=
  { Cycles := fun st => st
    NewCycle := fun _ config =>
      if exampleLib.toLower config.Type = "throttledwholecollection" then
        .ok (.throttled config.Name (NewThrottle 1000000000 1) config)
      else .ok (.other config.Name)
    AddCycle := fun st cycle =>
      match mapGet st cycle.ID with
      | some _ => (some ("Conflicting ID found for cycle " ++ cycle.ID), st)
      | none => (none, mapSet st cycle.ID cycle)
    DeleteCycle := fun st id =>
      match mapGet st id with
      | some _ => (none, mapDelete st id)
      | none => (some "Cannot stop cycle", st) }

/-- A scheduler state with one cycle that is not a ThrottledWholeCollection cycle. -/
def apiCycles : List (String × ApiCycle) := [("id1", .other "id1")]

/-- A request for the cycle `id1`. -/
def requestId1 : Request := { vars := [("id", "id1")] }

/-! # Theorems -/

/-! ## Arithmetic of Go `int` -/

theorem wrapInt_of_range (x : Int) (hlo : minInt ≤ x) (hhi : x ≤ maxInt) : wrapInt x = x := by
  unfold wrapInt
  unfold minInt at hlo
  unfold maxInt at hhi
  omega

theorem intIncr_of_lt (x : Int) (hlo : minInt ≤ x) (hhi : x < maxInt) : intIncr x = x + 1 := by
  unfold intIncr
  apply wrapInt_of_range
  · unfold minInt at *; omega
  · unfold maxInt at *; omega

theorem wrapInt_add_wrapInt (x y : Int) : wrapInt (wrapInt x + y) = wrapInt (x + y) := by
  unfold wrapInt
  omega

theorem intIncr_wrapInt (x : Int) : intIncr (wrapInt x) = wrapInt (x + 1) := by
  unfold intIncr
  exact wrapInt_add_wrapInt x 1

theorem intIncr_maxInt : intIncr maxInt = minInt := by decide

/-! ## Fields after `updateProgress` -/

theorem updateProgress_Completed (a : abstractCycle) (uuid txId : String) (err : GoError) :
    (a.updateProgress uuid txId err).CycleMetadata.Completed = intIncr a.CycleMetadata.Completed := by
  cases err <;> rfl

theorem updateProgress_Errors (a : abstractCycle) (uuid txId : String) (err : GoError) :
    (a.updateProgress uuid txId err).CycleMetadata.Errors =
      if err.isSome then intIncr a.CycleMetadata.Errors else a.CycleMetadata.Errors := by
  cases err <;> rfl

theorem updateProgress_CurrentPublishError (a : abstractCycle) (uuid txId : String) (err : GoError) :
    (a.updateProgress uuid txId err).CycleMetadata.CurrentPublishError = errorText err := by
  cases err <;> rfl

theorem updateProgress_State (a : abstractCycle) (uuid txId : String) (err : GoError) :
    (a.updateProgress uuid txId err).CycleMetadata.State = a.CycleMetadata.State := by
  cases err <;> rfl

theorem updateProgress_Iteration (a : abstractCycle) (uuid txId : String) (err : GoError) :
    (a.updateProgress uuid txId err).CycleMetadata.Iteration = a.CycleMetadata.Iteration := by
  cases err <;> rfl

theorem updateProgress_Total (a : abstractCycle) (uuid txId : String) (err : GoError) :
    (a.updateProgress uuid txId err).CycleMetadata.Total = a.CycleMetadata.Total := by
  cases err <;> rfl

theorem updateProgress_Progress (a : abstractCycle) (uuid txId : String) (err : GoError) :
    (a.updateProgress uuid txId err).CycleMetadata.Progress =
      if a.CycleMetadata.Total = 0 then 0
      else (intIncr a.CycleMetadata.Completed : ℚ) / (a.CycleMetadata.Total : ℚ) := by
  cases err <;> rfl

theorem updateProgress_DBCollection (a : abstractCycle) (uuid txId : String) (err : GoError) :
    (a.updateProgress uuid txId err).DBCollection = a.DBCollection := rfl

theorem updateProgress_Origin (a : abstractCycle) (uuid txId : String) (err : GoError) :
    (a.updateProgress uuid txId err).Origin = a.Origin := rfl

/-! ## Blank uuids -/

theorem TrimSpace_eq_empty_iff (s : String) :
    TrimSpace s = "" ↔ ∀ c ∈ s.data, isSpace c = true := by
  unfold TrimSpace
  constructor
  · intro h
    have h1 : ((s.data.dropWhile isSpace).reverse.dropWhile isSpace).reverse = [] := by
      have := congrArg String.data h
      simpa using this
    have h2 : (s.data.dropWhile isSpace).reverse.dropWhile isSpace = [] := by
      simpa using h1
    rw [List.dropWhile_eq_nil_iff] at h2
    have h3 : s.data.dropWhile isSpace = [] := by
      cases hd : s.data.dropWhile isSpace with
      | nil => rfl
      | cons x xs =>
        exfalso
        have hx : isSpace x = true := by
          apply h2
          rw [hd]
          simp
        have := List.head_dropWhile_not isSpace s.data (by rw [hd]; simp)
        simp [hd] at this
        rw [hx] at this
        exact Bool.noConfusion this
    exact List.dropWhile_eq_nil_iff.mp h3
  · intro h
    have h3 : s.data.dropWhile isSpace = [] := List.dropWhile_eq_nil_iff.mpr h
    rw [h3]
    rfl

/-! ## One pass through the loop -/

theorem publishTurn_cancelled (a : abstractCycle) (w : Turn) (e : String) (hErr : w.Err = some e) :
    a.publishTurn w = { cycle := a, calls := [Call.Queue, Call.Err], result := some (true, some e) } := by
  simp [abstractCycle.publishTurn, hErr]

theorem publishTurn_finished (a : abstractCycle) (w : Turn) (hErr : w.Err = none)
    (hFin : w.Next.1 = true) :
    a.publishTurn w = { cycle := a.updateProgress "" "" w.Next.2.2
                        calls := [Call.Queue, Call.Err, Call.Next]
                        result := some (false, w.Next.2.2) } := by
  rcases hN : w.Next with ⟨fin, uuid, err⟩
  rw [hN] at hFin
  simp only at hFin
  simp [abstractCycle.publishTurn, hErr, hN, hFin]

theorem publishTurn_blank (a : abstractCycle) (w : Turn) (hErr : w.Err = none)
    (hFin : w.Next.1 = false) (hBlank : TrimSpace w.Next.2.1 = "") :
    a.publishTurn w = { cycle := a.updateProgress w.Next.2.1 "" (some "Empty uuid")
                        calls := [Call.Queue, Call.Err, Call.Next]
                        result := none } := by
  rcases hN : w.Next with ⟨fin, uuid, err⟩
  rw [hN] at hFin hBlank
  simp only at hFin hBlank
  simp [abstractCycle.publishTurn, hErr, hN, hFin, hBlank]

theorem publishTurn_prepare_failed (a : abstractCycle) (w : Turn) (content : Content)
    (txID e : String) (hErr : w.Err = none) (hFin : w.Next.1 = false)
    (hBlank : TrimSpace w.Next.2.1 ≠ "")
    (hPrep : w.Prepare a.DBCollection w.Next.2.1 = (content, txID, some e)) :
    a.publishTurn w = { cycle := a.updateProgress w.Next.2.1 txID (some e)
                        calls := [Call.Queue, Call.Err, Call.Next,
                          Call.Prepare a.DBCollection w.Next.2.1]
                        result := none } := by
  rcases hN : w.Next with ⟨fin, uuid, err⟩
  rw [hN] at hFin hBlank hPrep
  simp only at hFin hBlank hPrep
  simp [abstractCycle.publishTurn, hErr, hN, hFin, hBlank, hPrep]

theorem publishTurn_executed (a : abstractCycle) (w : Turn) (content : Content)
    (txID : String) (hErr : w.Err = none) (hFin : w.Next.1 = false)
    (hBlank : TrimSpace w.Next.2.1 ≠ "")
    (hPrep : w.Prepare a.DBCollection w.Next.2.1 = (content, txID, none)) :
    a.publishTurn w = { cycle := a.updateProgress w.Next.2.1 txID
                          (w.Execute w.Next.2.1 content a.Origin txID)
                        calls := [Call.Queue, Call.Err, Call.Next,
                          Call.Prepare a.DBCollection w.Next.2.1,
                          Call.Execute w.Next.2.1 content a.Origin txID]
                        result := none } := by
  rcases hN : w.Next with ⟨fin, uuid, err⟩
  rw [hN] at hFin hBlank hPrep
  simp only at hFin hBlank hPrep
  simp [abstractCycle.publishTurn, hErr, hN, hFin, hBlank, hPrep]

/-- A pass that is neither cancelled nor the last one ends in exactly one progress update,
with an error exactly when the item failed, and does not return. -/
theorem publishTurn_item (a : abstractCycle) (w : Turn) (hErr : w.Err = none)
    (hFin : w.Next.1 = false) :
    (a.publishTurn w).result = none ∧
      ∃ uuid txId err, (a.publishTurn w).cycle = a.updateProgress uuid txId err ∧
        err.isSome = itemFailed a.DBCollection a.Origin w := by
  by_cases hBlank : TrimSpace w.Next.2.1 = ""
  · rw [publishTurn_blank a w hErr hFin hBlank]
    refine ⟨rfl, w.Next.2.1, "", some "Empty uuid", rfl, ?_⟩
    simp [itemFailed, hBlank]
  · rcases hP : w.Prepare a.DBCollection w.Next.2.1 with ⟨content, txID, perr⟩
    cases perr with
    | none =>
      rw [publishTurn_executed a w content txID hErr hFin hBlank hP]
      refine ⟨rfl, w.Next.2.1, txID, w.Execute w.Next.2.1 content a.Origin txID, rfl, ?_⟩
      simp [itemFailed, hBlank, hP]
    | some e =>
      rw [publishTurn_prepare_failed a w content txID e hErr hFin hBlank hP]
      refine ⟨rfl, w.Next.2.1, txID, some e, rfl, ?_⟩
      simp [itemFailed, hBlank, hP]

theorem publishCollection_cons_continue (a : abstractCycle) (w : Turn) (ws : List Turn)
    (h : (a.publishTurn w).result = none) :
    a.publishCollection (w :: ws) =
      { cycle := ((a.publishTurn w).cycle.publishCollection ws).cycle
        calls := (a.publishTurn w).calls ++ ((a.publishTurn w).cycle.publishCollection ws).calls
        result := ((a.publishTurn w).cycle.publishCollection ws).result } := by
  simp [abstractCycle.publishCollection, h]

theorem publishCollection_cons_return (a : abstractCycle) (w : Turn) (ws : List Turn)
    (res : Bool × GoError) (h : (a.publishTurn w).result = some res) :
    a.publishCollection (w :: ws) =
      { cycle := (a.publishTurn w).cycle, calls := (a.publishTurn w).calls, result := some res } := by
  simp [abstractCycle.publishCollection, h]

/-! ## Repeated increments -/

theorem iterate_intIncr_succ (k : Nat) (x : Int) :
    intIncr^[k + 1] x = wrapInt (x + (k + 1 : Nat)) := by
  induction k generalizing x with
  | zero => simp [intIncr]
  | succ n ih =>
    rw [Function.iterate_succ_apply, ih]
    unfold intIncr
    rw [wrapInt_add_wrapInt]
    congr 1
    push_cast
    ring

theorem iterate_intIncr_of_range (k : Nat) (x : Int) (hlo : minInt ≤ x)
    (hhi : x + (k : Int) ≤ maxInt) : intIncr^[k] x = x + (k : Int) := by
  cases k with
  | zero => simp
  | succ n =>
    rw [iterate_intIncr_succ]
    apply wrapInt_of_range
    · have : (0 : Int) ≤ ((n + 1 : Nat) : Int) := Int.ofNat_nonneg _
      omega
    · exact hhi

/-! ## A whole pass: items, then the turn that reports finished -/

theorem publishCollection_pass (f : Turn) (hfErr : f.Err = none) (hfFin : f.Next.1 = true)
    (ws : List Turn) :
    ∀ a : abstractCycle, (∀ w ∈ ws, w.Err = none ∧ w.Next.1 = false) →
      (a.publishCollection (ws ++ [f])).result = some (false, f.Next.2.2) ∧
      (a.publishCollection (ws ++ [f])).cycle.CycleMetadata.Completed =
        intIncr^[ws.length + 1] a.CycleMetadata.Completed ∧
      (a.publishCollection (ws ++ [f])).cycle.CycleMetadata.Errors =
        intIncr^[ws.countP (fun w => itemFailed a.DBCollection a.Origin w) +
          (if f.Next.2.2.isSome then 1 else 0)] a.CycleMetadata.Errors := by
  induction ws with
  | nil =>
    intro a _
    have h := publishTurn_finished a f hfErr hfFin
    have hr : (a.publishTurn f).result = some (false, f.Next.2.2) := by rw [h]
    rw [List.nil_append, publishCollection_cons_return a f [] _ hr, h]
    refine ⟨rfl, ?_, ?_⟩
    · simp [updateProgress_Completed]
    · simp only [updateProgress_Errors, List.countP_nil, Nat.zero_add]
      split <;> simp
  | cons w ws ih =>
    intro a hws
    have hw := hws w (List.mem_cons_self _ _)
    obtain ⟨hres, uuid, txId, err, hcyc, herr⟩ := publishTurn_item a w hw.1 hw.2
    rw [List.cons_append, publishCollection_cons_continue a w _ hres, hcyc]
    have ih1 := ih (a.updateProgress uuid txId err)
      (fun v hv => hws v (List.mem_cons_of_mem _ hv))
    simp only [updateProgress_DBCollection, updateProgress_Origin] at ih1
    obtain ⟨h1, h2, h3⟩ := ih1
    refine ⟨h1, ?_, ?_⟩
    · simp only
      rw [h2, updateProgress_Completed, ← Function.iterate_succ_apply, List.length_cons]
    · simp only
      rw [h3, updateProgress_Errors, List.countP_cons, herr]
      by_cases hf : itemFailed a.DBCollection a.Origin w = true
      · simp only [hf, if_true]
        rw [← Function.iterate_succ_apply]
        congr 1
        omega
      · simp [hf]

/-! ## State tags -/

theorem foldl_mapInsert_ne_nil (l : List String) :
    ∀ acc : List String, acc ≠ [] → l.foldl mapInsert acc ≠ [] := by
  induction l with
  | nil => intro acc h; simpa using h
  | cons k ks ih =>
    intro acc h
    rw [List.foldl_cons]
    apply ih
    unfold mapInsert
    split
    · exact h
    · simp

theorem UpdateState_State_ne_nil (a : abstractCycle) (states : List String) (h : states ≠ []) :
    (a.UpdateState states).State ≠ [] := by
  cases states with
  | nil => exact absurd rfl h
  | cons k ks =>
    intro hnil
    have hlen : (sortStrings (List.foldl mapInsert [] (k :: ks))).length = 0 := by
      have : (a.UpdateState (k :: ks)).State = sortStrings (List.foldl mapInsert [] (k :: ks)) := rfl
      rw [← this, hnil]
      rfl
    unfold sortStrings at hlen
    rw [List.length_insertionSort] at hlen
    have hne : List.foldl mapInsert [] (k :: ks) ≠ [] := by
      rw [List.foldl_cons]
      apply foldl_mapInsert_ne_nil
      simp [mapInsert]
    exact hne (List.length_eq_zero.mp hlen)

theorem UpdateState_stopped (a : abstractCycle) :
    (a.UpdateState [stoppedState]).State = [stoppedState] := by
  simp [abstractCycle.UpdateState, abstractCycle.State, mapInsert, sortStrings]

theorem Stop_of_cancel (a : abstractCycle) (c : CancelFunc) (h : a.cancel = some c) :
    a.Stop = some ({ a with cancelled := true }.UpdateState [stoppedState]) := by
  simp [abstractCycle.Stop, h]

/-! ## C1 -/

/-- C1, as the code behaves: for a producer that yields the N items of `ws` and then reports
finished without error, `publishCollection`, entered with `completed = 0` and never
cancelled, returns `(false, nil)` with `completed = N + 1`, not `N`: the progress update made
on the turn that reports finished counts once more, whether or not items failed. -/
theorem publishCollection_completed_after_pass (a : abstractCycle) (ws : List Turn) (f : Turn)
    (hws : ∀ w ∈ ws, w.Err = none ∧ w.Next.1 = false)
    (hfErr : f.Err = none) (hfFin : f.Next.1 = true) (hfNil : f.Next.2.2 = none)
    (h0 : a.CycleMetadata.Completed = 0) (hN : (ws.length : Int) < maxInt) :
    (a.publishCollection (ws ++ [f])).result = some (false, none) ∧
    (a.publishCollection (ws ++ [f])).cycle.CycleMetadata.Completed = (ws.length : Int) + 1 := by
  obtain ⟨h1, h2, _⟩ := publishCollection_pass f hfErr hfFin ws a hws
  refine ⟨by rw [h1, hfNil], ?_⟩
  rw [h2, h0, iterate_intIncr_of_range]
  · push_cast
    ring
  · decide
  · push_cast
    omega

/-- C1 at a concrete pass: three uuids, the second failing, then finished: `completed = 4`. -/
theorem publishCollection_completed_after_pass_witness :
    (exampleCycle.publishCollection
      ([itemTurn "u1", failingTurn "u2" "i fail soz", itemTurn "u3"] ++ [finishedTurn])).result
        = some (false, none) ∧
    (exampleCycle.publishCollection
      ([itemTurn "u1", failingTurn "u2" "i fail soz", itemTurn "u3"] ++ [finishedTurn])).cycle.CycleMetadata.Completed
        = ((3 : Nat) : Int) + 1 :=
  publishCollection_completed_after_pass exampleCycle
    [itemTurn "u1", failingTurn "u2" "i fail soz", itemTurn "u3"] finishedTurn
    (by decide) rfl rfl rfl rfl (by decide)

/-! ## C2 -/

/-- C2, as the code behaves: `publishCollection` never consults the cycle's blacklist. For an
item with a non-blank uuid whose `Prepare` succeeds, the pass calls `Execute` with that uuid
and content whatever blacklist `b` the cycle holds (one that excludes the item included);
`completed` increases by one and `errors` moves only by what `Execute` answers. -/
theorem publishTurn_executes_blacklisted (a : abstractCycle) (b : IsBlacklisted) (w : Turn)
    (content : Content) (txID : String) (hErr : w.Err = none) (hFin : w.Next.1 = false)
    (hBlank : TrimSpace w.Next.2.1 ≠ "")
    (hPrep : w.Prepare a.DBCollection w.Next.2.1 = (content, txID, none)) :
    Call.Execute w.Next.2.1 content a.Origin txID ∈
      ({ a with blacklist := b }.publishTurn w).calls ∧
    ({ a with blacklist := b }.publishTurn w).cycle.CycleMetadata.Completed =
      intIncr a.CycleMetadata.Completed ∧
    ({ a with blacklist := b }.publishTurn w).cycle.CycleMetadata.Errors =
      (if (w.Execute w.Next.2.1 content a.Origin txID).isSome
        then intIncr a.CycleMetadata.Errors else a.CycleMetadata.Errors) := by
  rw [publishTurn_executed { a with blacklist := b } w content txID hErr hFin hBlank hPrep]
  refine ⟨by simp, ?_, ?_⟩
  · exact updateProgress_Completed _ _ _ _
  · exact updateProgress_Errors _ _ _ _

/-- C2 at a concrete item: with a blacklist that excludes every item, `Execute` is called for
`"u1"` all the same, `completed` becomes 1 and `errors` stays 0. -/
theorem publishTurn_executes_blacklisted_witness :
    (fun _ _ => (true, none) : IsBlacklisted) "u1" {} = (true, none) ∧
    Call.Execute "u1" {} "origin" "tid_1234" ∈
      ({ exampleCycle with blacklist := fun _ _ => (true, none) }.publishTurn (itemTurn "u1")).calls ∧
    ({ exampleCycle with blacklist := fun _ _ => (true, none) }.publishTurn
      (itemTurn "u1")).cycle.CycleMetadata.Completed = 1 ∧
    ({ exampleCycle with blacklist := fun _ _ => (true, none) }.publishTurn
      (itemTurn "u1")).cycle.CycleMetadata.Errors = 0 :=
  ⟨rfl, publishTurn_executes_blacklisted exampleCycle (fun _ _ => (true, none)) (itemTurn "u1") {}
    "tid_1234" rfl rfl (by decide) rfl⟩

/-! ## C3 -/

/-- C3, as the code behaves: on a cycle with a cancellation handle, `Reset()` returns with
`iteration = 0`, `completed = 0`, `errors = 0`, and with an empty state tag list, not
`[stopped]`: the tag that `Stop` has just set is replaced with the zero metadata. -/
theorem Reset_metadata (a : abstractCycle) (c : CancelFunc) (h : a.cancel = some c) :
    ∃ a1, a.Reset = some a1 ∧
      a1.Metadata.Iteration = 0 ∧ a1.Metadata.Completed = 0 ∧ a1.Metadata.Errors = 0 ∧
      a1.State = [] ∧ a1.State ≠ [stoppedState] := by
  refine ⟨({ a with cancelled := true }.UpdateState [stoppedState]).SetMetadata { state := some [] },
    ?_, ?_, ?_, ?_, ?_, ?_⟩
  · simp [abstractCycle.Reset, Stop_of_cancel a c h]
  · rfl
  · rfl
  · rfl
  · rfl
  · simp [abstractCycle.State, abstractCycle.SetMetadata]

/-- C3 at a concrete cycle: a started cycle that is reset has no state tag. -/
theorem Reset_metadata_witness :
    ∃ a1, startedCycle.Reset = some a1 ∧
      a1.Metadata.Iteration = 0 ∧ a1.Metadata.Completed = 0 ∧ a1.Metadata.Errors = 0 ∧
      a1.State = [] ∧ a1.State ≠ [stoppedState] :=
  Reset_metadata startedCycle {} rfl

/-! ## C4 -/

/-- C4, counterexample: a newly built cycle has the state `[stopped]`; after `SetMetadata` of a
metadata that carries no state list (completed 500, iteration 1, as a restored checkpoint is
installed) its state tag list is empty. `UpdateState` without tags empties it as well. -/
theorem SetMetadata_empties_State :
    exampleCycle.State = [stoppedState] ∧
    (exampleCycle.SetMetadata { Completed := 500, Iteration := 1 }).State = [] ∧
    (exampleCycle.UpdateState []).State = [] := by
  decide

/-- C4, amended: the state tag list is non-empty after `newAbstractCycle`; after `UpdateState`
with at least one tag it is non-empty, and after `Stop` it is exactly `[stopped]`, whatever it
was before; `updateProgress` leaves it unchanged; `SetMetadata` installs the list of the given
metadata, so it is non-empty afterwards exactly when the given list is. -/
theorem State_after_operations (lib : StdLib) (name cycleType : String) (blist : IsBlacklisted)
    (database : DB) (dbCollection origin : String) (coolDown : Int) (task : Task)
    (a : abstractCycle) :
    (newAbstractCycle lib name cycleType blist database dbCollection origin coolDown task).State
      = [stoppedState] ∧
    (newAbstractCycle lib name cycleType blist database dbCollection origin coolDown task).State
      ≠ [] ∧
    (∀ states : List String, states ≠ [] → (a.UpdateState states).State ≠ []) ∧
    (∀ c : CancelFunc, a.cancel = some c →
      ∃ a1, a.Stop = some a1 ∧ a1.State = [stoppedState] ∧ a1.State ≠ []) ∧
    (∀ (uuid txId : String) (err : GoError), (a.updateProgress uuid txId err).State = a.State) ∧
    (∀ md : CycleMetadata, (a.SetMetadata md).State = md.State ∧
      ((a.SetMetadata md).State ≠ [] ↔ md.State ≠ [])) := by
  have hnew : (newAbstractCycle lib name cycleType blist database dbCollection origin coolDown
      task).State = [stoppedState] := UpdateState_stopped _
  have hSet : ∀ md : CycleMetadata, (a.SetMetadata md).State = md.State := by
    intro md
    simp only [abstractCycle.State, abstractCycle.SetMetadata]
    split <;> rfl
  refine ⟨hnew, ?_, ?_, ?_, ?_, ?_⟩
  · rw [hnew]; simp
  · exact fun states h => UpdateState_State_ne_nil a states h
  · intro c h
    refine ⟨_, Stop_of_cancel a c h, UpdateState_stopped _, ?_⟩
    rw [UpdateState_stopped]; simp
  · exact fun uuid txId err => updateProgress_State a uuid txId err
  · intro md
    refine ⟨hSet md, ?_⟩
    rw [hSet md]

/-! ## C5 -/

/-- C5, counterexample: with `completed = total = 1` and `progress = 1` the invariant holds;
after one more `updateProgress` `completed = 2` exceeds `total = 1` and `progress = 2`
exceeds 1. -/
theorem updateProgress_breaks_invariant :
    MetadataInvariant fullCycle.CycleMetadata ∧
    ¬ MetadataInvariant (fullCycle.updateProgress "" "" none).CycleMetadata ∧
    (fullCycle.updateProgress "" "" none).CycleMetadata.Completed = 2 ∧
    (fullCycle.updateProgress "" "" none).CycleMetadata.Total = 1 ∧
    (fullCycle.updateProgress "" "" none).CycleMetadata.Progress = 2 := by
  have hC : (fullCycle.updateProgress "" "" none).CycleMetadata.Completed = 2 := by
    rw [updateProgress_Completed]; decide
  have hT : (fullCycle.updateProgress "" "" none).CycleMetadata.Total = 1 := by
    rw [updateProgress_Total]; decide
  have hP : (fullCycle.updateProgress "" "" none).CycleMetadata.Progress = 2 := by
    rw [updateProgress_Progress]
    have h1 : fullCycle.CycleMetadata.Total = 1 := by decide
    have h2 : intIncr fullCycle.CycleMetadata.Completed = 2 := by decide
    rw [h1, h2]
    norm_num
  refine ⟨?_, ?_, hC, hT, hP⟩
  · have h1 : fullCycle.CycleMetadata.Total = 1 := by decide
    have h2 : fullCycle.CycleMetadata.Completed = 1 := by decide
    have h3 : fullCycle.CycleMetadata.Progress = 1 := rfl
    unfold MetadataInvariant
    rw [h1, h2, h3]
    norm_num
  · unfold MetadataInvariant
    rw [hC, hT, hP]
    norm_num

/-- C5, amended: for metadata whose `completed` and `total` are non-negative ints, the
invariant holds after `updateProgress`, for every uuid, reference and error argument, exactly
when `total = 0` or `completed < total` before the update: it is preserved while there is room
for one more item and lost by an update made at `completed ≥ total > 0`. -/
theorem updateProgress_invariant_iff (a : abstractCycle) (uuid txId : String) (err : GoError)
    (hC0 : 0 ≤ a.CycleMetadata.Completed) (hC1 : a.CycleMetadata.Completed ≤ maxInt)
    (hT0 : 0 ≤ a.CycleMetadata.Total) (hT1 : a.CycleMetadata.Total ≤ maxInt) :
    MetadataInvariant (a.updateProgress uuid txId err).CycleMetadata ↔
      (a.CycleMetadata.Total = 0 ∨ a.CycleMetadata.Completed < a.CycleMetadata.Total) := by
  unfold MetadataInvariant
  rw [updateProgress_Completed, updateProgress_Total, updateProgress_Progress]
  by_cases hT : a.CycleMetadata.Total = 0
  · simp [hT]
  · have hTpos : 0 < a.CycleMetadata.Total := lt_of_le_of_ne hT0 (Ne.symm hT)
    have hTq : (0 : ℚ) < (a.CycleMetadata.Total : ℚ) := by exact_mod_cast hTpos
    simp only [hT, if_false, false_or]
    by_cases hlt : a.CycleMetadata.Completed < a.CycleMetadata.Total
    · have hinc : intIncr a.CycleMetadata.Completed = a.CycleMetadata.Completed + 1 :=
        intIncr_of_lt _ (le_trans (by decide) hC0) (lt_of_lt_of_le hlt hT1)
      rw [hinc]
      refine iff_of_true ⟨fun _ => by omega, ?_, ?_⟩ hlt
      · apply div_nonneg
        · exact_mod_cast (by omega : (0 : Int) ≤ a.CycleMetadata.Completed + 1)
        · exact le_of_lt hTq
      · rw [div_le_one hTq]
        exact_mod_cast (by omega : a.CycleMetadata.Completed + 1 ≤ a.CycleMetadata.Total)
    · refine iff_of_false ?_ hlt
      rintro ⟨h1, h2, _⟩
      have h1 := h1 hTpos
      by_cases hmax : a.CycleMetadata.Completed < maxInt
      · rw [intIncr_of_lt _ (le_trans (by decide) hC0) hmax] at h1
        omega
      · have heq : a.CycleMetadata.Completed = maxInt := le_antisymm hC1 (not_lt.mp hmax)
        rw [heq, intIncr_maxInt] at h2
        have hneg : ((minInt : Int) : ℚ) / (a.CycleMetadata.Total : ℚ) < 0 := by
          apply div_neg_of_neg_of_pos _ hTq
          exact_mod_cast (by decide : minInt < 0)
        exact absurd h2 (not_le.mpr hneg)

/-- C5, amended, at a concrete update: from `completed = 0`, `total = 15` the invariant holds
after the update. -/
theorem updateProgress_invariant_iff_witness :
    MetadataInvariant ((exampleCycle.SetMetadata { Total := 15 }).updateProgress "u1" "tid_1234"
      none).CycleMetadata :=
  (updateProgress_invariant_iff (exampleCycle.SetMetadata { Total := 15 }) "u1" "tid_1234" none
    (by decide) (by decide) (by decide) (by decide)).mpr (Or.inr (by decide))

/-! ## C6 -/

/-- C6: for every C and I, a cycle whose metadata is installed with `SetMetadata` of a metadata
with `completed = C` and `iteration = I` reports `completed = C` and `iteration = I` from
`Metadata()`, and one `updateProgress` (the first item it processes) sets `completed` to
`C + 1` (Go's `++`: exactly `C + 1` for every int `C` below the largest) and leaves
`iteration = I`. -/
theorem SetMetadata_first_item (a : abstractCycle) (md : CycleMetadata) (C I : Int)
    (uuid txId : String) (err : GoError) :
    (a.SetMetadata { md with Completed := C, Iteration := I }).Metadata.Completed = C ∧
    (a.SetMetadata { md with Completed := C, Iteration := I }).Metadata.Iteration = I ∧
    ((a.SetMetadata { md with Completed := C, Iteration := I }).updateProgress
      uuid txId err).Metadata.Completed = intIncr C ∧
    (minInt ≤ C → C < maxInt →
      ((a.SetMetadata { md with Completed := C, Iteration := I }).updateProgress
        uuid txId err).Metadata.Completed = C + 1) ∧
    ((a.SetMetadata { md with Completed := C, Iteration := I }).updateProgress
      uuid txId err).Metadata.Iteration = I := by
  have hC : (a.SetMetadata { md with Completed := C, Iteration := I }).CycleMetadata.Completed
      = C := by
    simp only [abstractCycle.SetMetadata]
    split <;> rfl
  have hI : (a.SetMetadata { md with Completed := C, Iteration := I }).CycleMetadata.Iteration
      = I := by
    simp only [abstractCycle.SetMetadata]
    split <;> rfl
  have hC1 : ((a.SetMetadata { md with Completed := C, Iteration := I }).updateProgress
      uuid txId err).Metadata.Completed = intIncr C := by
    unfold abstractCycle.Metadata
    rw [updateProgress_Completed, hC]
  refine ⟨hC, hI, hC1, ?_, ?_⟩
  · intro hlo hhi
    rw [hC1, intIncr_of_lt C hlo hhi]
  · unfold abstractCycle.Metadata
    rw [updateProgress_Iteration, hI]

/-- C6 at the values of the restore test: installed `completed = 500`, `iteration = 1`; after
the first item `completed = 501`, `iteration = 1`. -/
theorem SetMetadata_first_item_witness :
    (exampleCycle.SetMetadata { Completed := 500, Iteration := 1 }).Metadata.Completed = 500 ∧
    (exampleCycle.SetMetadata { Completed := 500, Iteration := 1 }).Metadata.Iteration = 1 ∧
    ((exampleCycle.SetMetadata { Completed := 500, Iteration := 1 }).updateProgress
      "u1" "tid_1234" none).Metadata.Completed = 500 + 1 ∧
    ((exampleCycle.SetMetadata { Completed := 500, Iteration := 1 }).updateProgress
      "u1" "tid_1234" none).Metadata.Iteration = 1 :=
  have h := SetMetadata_first_item exampleCycle {} 500 1 "u1" "tid_1234" none
  ⟨h.1, h.2.1, h.2.2.2.1 (by decide) (by decide), h.2.2.2.2⟩

/-! ## C7 -/

/-- C7: for every uuid that is empty or consists only of white space, the pass of
`publishCollection` that receives it calls neither `Prepare` nor `Execute` (its calls are
`Queue`, `ctx.Err` and `Next` only), increases `errors` by exactly 1 (Go's `++`), records
`"Empty uuid"` as `currentPublishError`, does not return, and the run continues with the
answers of the next turns. -/
theorem publishCollection_blank_uuid (a : abstractCycle) (w : Turn) (ws : List Turn)
    (hErr : w.Err = none) (hFin : w.Next.1 = false)
    (hBlank : ∀ c ∈ w.Next.2.1.data, isSpace c = true) :
    (a.publishTurn w).calls = [Call.Queue, Call.Err, Call.Next] ∧
    (∀ collection uuid, Call.Prepare collection uuid ∉ (a.publishTurn w).calls) ∧
    (∀ uuid content origin txID, Call.Execute uuid content origin txID ∉ (a.publishTurn w).calls) ∧
    (a.publishTurn w).cycle.CycleMetadata.Errors = intIncr a.CycleMetadata.Errors ∧
    (minInt ≤ a.CycleMetadata.Errors → a.CycleMetadata.Errors < maxInt →
      (a.publishTurn w).cycle.CycleMetadata.Errors = a.CycleMetadata.Errors + 1) ∧
    (a.publishTurn w).cycle.CycleMetadata.CurrentPublishError = "Empty uuid" ∧
    (a.publishTurn w).result = none ∧
    a.publishCollection (w :: ws) =
      { cycle := ((a.publishTurn w).cycle.publishCollection ws).cycle
        calls := [Call.Queue, Call.Err, Call.Next] ++
          ((a.publishTurn w).cycle.publishCollection ws).calls
        result := ((a.publishTurn w).cycle.publishCollection ws).result } := by
  have hT := publishTurn_blank a w hErr hFin ((TrimSpace_eq_empty_iff _).mpr hBlank)
  have hres : (a.publishTurn w).result = none := by rw [hT]
  have hcalls : (a.publishTurn w).calls = [Call.Queue, Call.Err, Call.Next] := by rw [hT]
  have hE : (a.publishTurn w).cycle.CycleMetadata.Errors = intIncr a.CycleMetadata.Errors := by
    rw [hT]
    simp [updateProgress_Errors]
  refine ⟨hcalls, ?_, ?_, hE, ?_, ?_, hres, ?_⟩
  · intro collection uuid
    rw [hcalls]
    simp
  · intro uuid content origin txID
    rw [hcalls]
    simp
  · intro hlo hhi
    rw [hE, intIncr_of_lt _ hlo hhi]
  · rw [hT]
    simp [updateProgress_CurrentPublishError, errorText]
  · rw [publishCollection_cons_continue a w ws hres, hcalls]

/-- C7 at a concrete run: a white-space uuid, then `"u2"`: the first turn leaves `errors = 1`
and `"Empty uuid"`, and `"u2"` is prepared and executed after it. -/
theorem publishCollection_blank_uuid_witness :
    (exampleCycle.publishTurn (itemTurn " \t")).calls = [Call.Queue, Call.Err, Call.Next] ∧
    (exampleCycle.publishTurn (itemTurn " \t")).cycle.CycleMetadata.Errors = 0 + 1 ∧
    (exampleCycle.publishTurn (itemTurn " \t")).cycle.CycleMetadata.CurrentPublishError
      = "Empty uuid" ∧
    (exampleCycle.publishCollection (itemTurn " \t" :: [itemTurn "u2"])).calls =
      [Call.Queue, Call.Err, Call.Next] ++
        [Call.Queue, Call.Err, Call.Next, Call.Prepare "collection" "u2",
          Call.Execute "u2" {} "origin" "tid_1234"] :=
  have h := publishCollection_blank_uuid exampleCycle (itemTurn " \t") [itemTurn "u2"] rfl rfl
    (by decide)
  ⟨h.1, h.2.2.2.2.1 (by decide) (by decide), h.2.2.2.2.2.1,
    by rw [h.2.2.2.2.2.2.2]; rfl⟩

/-! ## C8 -/

/-- C8: for a pass of `publishCollection` over a finite producer (the items of `ws`, at most
`maxInt` of them) that then reports finished without error, never cancelled and entered with
`errors = 0`, the function returns `(false, nil)` and the final `errors` is the number of items
that failed (blank uuid, or an error from `Prepare` or from `Execute`); in particular 0 when
every item succeeds and 1 when exactly one fails. -/
theorem publishCollection_errors_count (a : abstractCycle) (ws : List Turn) (f : Turn)
    (hws : ∀ w ∈ ws, w.Err = none ∧ w.Next.1 = false)
    (hfErr : f.Err = none) (hfFin : f.Next.1 = true) (hfNil : f.Next.2.2 = none)
    (h0 : a.CycleMetadata.Errors = 0) (hN : (ws.length : Int) ≤ maxInt) :
    (a.publishCollection (ws ++ [f])).result = some (false, none) ∧
    (a.publishCollection (ws ++ [f])).cycle.CycleMetadata.Errors =
      ((ws.countP (fun w => itemFailed a.DBCollection a.Origin w) : Nat) : Int) ∧
    ((∀ w ∈ ws, itemFailed a.DBCollection a.Origin w = false) →
      (a.publishCollection (ws ++ [f])).cycle.CycleMetadata.Errors = 0) ∧
    (ws.countP (fun w => itemFailed a.DBCollection a.Origin w) = 1 →
      (a.publishCollection (ws ++ [f])).cycle.CycleMetadata.Errors = 1) := by
  obtain ⟨h1, _, h3⟩ := publishCollection_pass f hfErr hfFin ws a hws
  have hcount : (a.publishCollection (ws ++ [f])).cycle.CycleMetadata.Errors =
      ((ws.countP (fun w => itemFailed a.DBCollection a.Origin w) : Nat) : Int) := by
    rw [h3, h0, hfNil]
    simp only [Option.isSome_none, Bool.false_eq_true, if_false, Nat.add_zero]
    rw [iterate_intIncr_of_range _ _ (by decide)]
    · simp
    · have hle : ws.countP (fun w => itemFailed a.DBCollection a.Origin w) ≤ ws.length :=
        List.countP_le_length _
      have : ((ws.countP (fun w => itemFailed a.DBCollection a.Origin w) : Nat) : Int)
          ≤ (ws.length : Int) := by exact_mod_cast hle
      omega
  refine ⟨by rw [h1, hfNil], hcount, ?_, ?_⟩
  · intro hall
    rw [hcount]
    have : ws.countP (fun w => itemFailed a.DBCollection a.Origin w) = 0 := by
      rw [List.countP_eq_zero]
      intro w hw
      simp [hall w hw]
    rw [this]
    rfl
  · intro hone
    rw [hcount, hone]
    rfl

/-- C8 at a concrete pass: three uuids of which the task fails on `"u2"` only: `errors = 1`. -/
theorem publishCollection_errors_count_witness :
    (exampleCycle.publishCollection
      ([itemTurn "u1", failingTurn "u2" "i fail soz", itemTurn "u3"] ++ [finishedTurn])).result
        = some (false, none) ∧
    (exampleCycle.publishCollection
      ([itemTurn "u1", failingTurn "u2" "i fail soz", itemTurn "u3"] ++
        [finishedTurn])).cycle.CycleMetadata.Errors = 1 :=
  have h := publishCollection_errors_count exampleCycle
    [itemTurn "u1", failingTurn "u2" "i fail soz", itemTurn "u3"] finishedTurn
    (by decide) rfl rfl rfl rfl (by decide)
  ⟨h.1, h.2.2.2 (by decide)⟩

/-! ## C9 -/

theorem updateProgressAll_append (a : abstractCycle) (us : List (String × String × GoError))
    (u : String × String × GoError) :
    a.updateProgressAll (us ++ [u]) = (a.updateProgressAll us).updateProgress u.1 u.2.1 u.2.2 := by
  simp [abstractCycle.updateProgressAll, List.foldl_append]

/-- C9: `updateProgress` with no error sets `currentPublishError` to the empty string and
leaves `errors` unchanged; with an error `e` it sets `currentPublishError` to `e`'s message and
increases `errors` by exactly 1 (Go's `++`); so after any sequence of progress updates
`currentPublishError` is the text of the last update's error (empty when it had none),
whatever the cycle and the earlier updates were. -/
theorem updateProgress_currentPublishError (a : abstractCycle) (uuid txId : String) :
    (a.updateProgress uuid txId none).CycleMetadata.CurrentPublishError = "" ∧
    (a.updateProgress uuid txId none).CycleMetadata.Errors = a.CycleMetadata.Errors ∧
    (∀ e : String,
      (a.updateProgress uuid txId (some e)).CycleMetadata.CurrentPublishError = e ∧
      (a.updateProgress uuid txId (some e)).CycleMetadata.Errors = intIncr a.CycleMetadata.Errors ∧
      (minInt ≤ a.CycleMetadata.Errors → a.CycleMetadata.Errors < maxInt →
        (a.updateProgress uuid txId (some e)).CycleMetadata.Errors = a.CycleMetadata.Errors + 1)) ∧
    (∀ (us : List (String × String × GoError)) (u : String × String × GoError),
      (a.updateProgressAll (us ++ [u])).CycleMetadata.CurrentPublishError = errorText u.2.2) ∧
    (∀ (b : abstractCycle) (us vs : List (String × String × GoError))
      (u : String × String × GoError),
      (a.updateProgressAll (us ++ [u])).CycleMetadata.CurrentPublishError =
        (b.updateProgressAll (vs ++ [u])).CycleMetadata.CurrentPublishError) := by
  have hlast : ∀ (c : abstractCycle) (us : List (String × String × GoError))
      (u : String × String × GoError),
      (c.updateProgressAll (us ++ [u])).CycleMetadata.CurrentPublishError = errorText u.2.2 := by
    intro c us u
    rw [updateProgressAll_append, updateProgress_CurrentPublishError]
  refine ⟨?_, ?_, ?_, hlast a, ?_⟩
  · rw [updateProgress_CurrentPublishError]; rfl
  · rw [updateProgress_Errors]; rfl
  · intro e
    have hE : (a.updateProgress uuid txId (some e)).CycleMetadata.Errors
        = intIncr a.CycleMetadata.Errors := by
      rw [updateProgress_Errors]; rfl
    refine ⟨?_, hE, ?_⟩
    · rw [updateProgress_CurrentPublishError]; rfl
    · intro hlo hhi
      rw [hE, intIncr_of_lt _ hlo hhi]
  · intro b us vs u
    rw [hlast a, hlast b]

/-- C9 at the second scenario of the spec: `"u1"` succeeds, `"u2"` fails, `"u3"` succeeds: the
error text is cleared and `errors` is 1; stopping after `"u2"` the text is that of its error. -/
theorem updateProgress_currentPublishError_witness :
    (exampleCycle.updateProgressAll
      ([("u1", "tid_1", none), ("u2", "tid_2", some "i fail soz")] ++
        [("u3", "tid_3", none)])).CycleMetadata.CurrentPublishError = "" ∧
    (exampleCycle.updateProgressAll
      ([("u1", "tid_1", none)] ++
        [("u2", "tid_2", some "i fail soz")])).CycleMetadata.CurrentPublishError = "i fail soz" ∧
    (exampleCycle.updateProgress "u2" "tid_2" (some "i fail soz")).CycleMetadata.Errors = 0 + 1 :=
  have h := updateProgress_currentPublishError exampleCycle "u2" "tid_2"
  ⟨h.2.2.2.1 [("u1", "tid_1", none), ("u2", "tid_2", some "i fail soz")] ("u3", "tid_3", none),
    h.2.2.2.1 [("u1", "tid_1", none)] ("u2", "tid_2", some "i fail soz"),
    (h.2.2.1 "i fail soz").2.2 (by decide) (by decide)⟩

/-! ## C10 -/

/-- C10: when `Prepare` fails for a (non-blank) uuid, the pass of `publishCollection` does not
call `Execute` (its calls end with `Prepare`), updates progress with `Prepare`'s error
(`errors + 1`, `currentPublishError` = that error's message, `completed + 1`, in Go's `++`),
does not return, and the run continues with the next turn; a failing `Execute` is recorded
the same way and does not make `publishCollection` return either. -/
theorem publishCollection_task_failure (a : abstractCycle) (w : Turn) (ws : List Turn)
    (content : Content) (txID e : String)
    (hErr : w.Err = none) (hFin : w.Next.1 = false) (hBlank : TrimSpace w.Next.2.1 ≠ "") :
    (w.Prepare a.DBCollection w.Next.2.1 = (content, txID, some e) →
      (a.publishTurn w).calls =
        [Call.Queue, Call.Err, Call.Next, Call.Prepare a.DBCollection w.Next.2.1] ∧
      (∀ uuid c origin t, Call.Execute uuid c origin t ∉ (a.publishTurn w).calls)) ∧
    (w.Prepare a.DBCollection w.Next.2.1 = (content, txID, none) →
      w.Execute w.Next.2.1 content a.Origin txID = some e →
      (a.publishTurn w).calls =
        [Call.Queue, Call.Err, Call.Next, Call.Prepare a.DBCollection w.Next.2.1,
          Call.Execute w.Next.2.1 content a.Origin txID]) ∧
    ((w.Prepare a.DBCollection w.Next.2.1 = (content, txID, some e) ∨
      (w.Prepare a.DBCollection w.Next.2.1 = (content, txID, none) ∧
        w.Execute w.Next.2.1 content a.Origin txID = some e)) →
      (a.publishTurn w).cycle = a.updateProgress w.Next.2.1 txID (some e) ∧
      (a.publishTurn w).cycle.CycleMetadata.CurrentPublishError = e ∧
      (a.publishTurn w).cycle.CycleMetadata.Errors = intIncr a.CycleMetadata.Errors ∧
      (minInt ≤ a.CycleMetadata.Errors → a.CycleMetadata.Errors < maxInt →
        (a.publishTurn w).cycle.CycleMetadata.Errors = a.CycleMetadata.Errors + 1) ∧
      (a.publishTurn w).cycle.CycleMetadata.Completed = intIncr a.CycleMetadata.Completed ∧
      (minInt ≤ a.CycleMetadata.Completed → a.CycleMetadata.Completed < maxInt →
        (a.publishTurn w).cycle.CycleMetadata.Completed = a.CycleMetadata.Completed + 1) ∧
      (a.publishTurn w).result = none ∧
      a.publishCollection (w :: ws) =
        { cycle := ((a.publishTurn w).cycle.publishCollection ws).cycle
          calls := (a.publishTurn w).calls ++ ((a.publishTurn w).cycle.publishCollection ws).calls
          result := ((a.publishTurn w).cycle.publishCollection ws).result }) := by
  refine ⟨?_, ?_, ?_⟩
  · intro hP
    rw [publishTurn_prepare_failed a w content txID e hErr hFin hBlank hP]
    exact ⟨rfl, by simp⟩
  · intro hP _
    rw [publishTurn_executed a w content txID hErr hFin hBlank hP]
  · intro h
    have hcyc : (a.publishTurn w).cycle = a.updateProgress w.Next.2.1 txID (some e) ∧
        (a.publishTurn w).result = none := by
      rcases h with hP | ⟨hP, hX⟩
      · rw [publishTurn_prepare_failed a w content txID e hErr hFin hBlank hP]
        exact ⟨rfl, rfl⟩
      · rw [publishTurn_executed a w content txID hErr hFin hBlank hP, hX]
        exact ⟨rfl, rfl⟩
    obtain ⟨hc, hres⟩ := hcyc
    have hE : (a.publishTurn w).cycle.CycleMetadata.Errors = intIncr a.CycleMetadata.Errors := by
      rw [hc, updateProgress_Errors]; rfl
    have hC : (a.publishTurn w).cycle.CycleMetadata.Completed
        = intIncr a.CycleMetadata.Completed := by
      rw [hc, updateProgress_Completed]
    refine ⟨hc, ?_, hE, ?_, hC, ?_, hres, publishCollection_cons_continue a w ws hres⟩
    · rw [hc, updateProgress_CurrentPublishError]; rfl
    · intro hlo hhi
      rw [hE, intIncr_of_lt _ hlo hhi]
    · intro hlo hhi
      rw [hC, intIncr_of_lt _ hlo hhi]

/-- C10 at a concrete run: `Prepare` fails for `"u1"`: no `Execute` for it, `errors = 1`,
`completed = 1`, the error text recorded, and `"u2"` is processed next. -/
theorem publishCollection_task_failure_witness :
    (exampleCycle.publishTurn (prepareFailingTurn "u1" "not found")).calls =
      [Call.Queue, Call.Err, Call.Next, Call.Prepare "collection" "u1"] ∧
    (exampleCycle.publishTurn (prepareFailingTurn "u1" "not found")).cycle.CycleMetadata.CurrentPublishError
      = "not found" ∧
    (exampleCycle.publishTurn (prepareFailingTurn "u1" "not found")).cycle.CycleMetadata.Errors
      = 0 + 1 ∧
    (exampleCycle.publishTurn (prepareFailingTurn "u1" "not found")).cycle.CycleMetadata.Completed
      = 0 + 1 ∧
    (exampleCycle.publishTurn (prepareFailingTurn "u1" "not found")).result = none :=
  have h := publishCollection_task_failure exampleCycle (prepareFailingTurn "u1" "not found")
    [itemTurn "u2"] {} "tid_1234" "not found" rfl rfl (by decide)
  have h3 := h.2.2 (Or.inl rfl)
  ⟨(h.1 rfl).1, h3.2.1, h3.2.2.2.1 (by decide) (by decide),
    h3.2.2.2.2.2.1 (by decide) (by decide), h3.2.2.2.2.2.2.1⟩

/-! ## C11 -/

/-- C11: if the context is cancelled (`ctx.Err()` answers an error) when the throttle wait of a
turn has returned, `publishCollection` returns `(true, that error)`: the calls of the turn are
`Queue` and `ctx.Err` only (no `Next`, no `Prepare`, no `Execute`), the answers of later turns
are not read, and the cycle with its metadata is unchanged. -/
theorem publishCollection_cancelled (a : abstractCycle) (w : Turn) (ws : List Turn) (e : String)
    (hErr : w.Err = some e) :
    (a.publishCollection (w :: ws)).result = some (true, some e) ∧
    (a.publishCollection (w :: ws)).calls = [Call.Queue, Call.Err] ∧
    Call.Next ∉ (a.publishCollection (w :: ws)).calls ∧
    (∀ collection uuid, Call.Prepare collection uuid ∉ (a.publishCollection (w :: ws)).calls) ∧
    (∀ uuid content origin txID,
      Call.Execute uuid content origin txID ∉ (a.publishCollection (w :: ws)).calls) ∧
    (a.publishCollection (w :: ws)).cycle = a ∧
    (a.publishCollection (w :: ws)).cycle.CycleMetadata = a.CycleMetadata := by
  have hT := publishTurn_cancelled a w e hErr
  have hr : (a.publishTurn w).result = some (true, some e) := by rw [hT]
  have hP := publishCollection_cons_return a w ws _ hr
  rw [hT] at hP
  rw [hP]
  simp

/-- C11 at a concrete run: the context is cancelled in the second turn, after `"u1"`: the run
returns `(true, context canceled)` and `"u2"` is never fetched. -/
theorem publishCollection_cancelled_witness :
    ((exampleCycle.publishTurn (itemTurn "u1")).cycle.publishCollection
      ({ itemTurn "u2" with Err := some "context canceled" } :: [itemTurn "u3"])).result
        = some (true, some "context canceled") ∧
    ((exampleCycle.publishTurn (itemTurn "u1")).cycle.publishCollection
      ({ itemTurn "u2" with Err := some "context canceled" } :: [itemTurn "u3"])).calls
        = [Call.Queue, Call.Err] ∧
    ((exampleCycle.publishTurn (itemTurn "u1")).cycle.publishCollection
      ({ itemTurn "u2" with Err := some "context canceled" } :: [itemTurn "u3"])).cycle.CycleMetadata
        = (exampleCycle.publishTurn (itemTurn "u1")).cycle.CycleMetadata :=
  have h := publishCollection_cancelled (exampleCycle.publishTurn (itemTurn "u1")).cycle
    { itemTurn "u2" with Err := some "context canceled" } [itemTurn "u3"] "context canceled" rfl
  ⟨h.1, h.2.1, h.2.2.2.2.2.2⟩

/-! ## C12 -/

/-- C12, as the code behaves: the result of `t.Queue()` is dropped. A turn in which `Queue`
answers an error runs exactly as the same turn with a nil answer; with the context not
cancelled the uuid is fetched, and a non-blank uuid whose `Prepare` succeeds is executed. -/
theorem publishTurn_ignores_Queue (a : abstractCycle) (w : Turn) (e : String) :
    a.publishTurn { w with Queue := some e } = a.publishTurn { w with Queue := none } ∧
    (w.Err = none → Call.Next ∈ (a.publishTurn { w with Queue := some e }).calls) ∧
    (∀ (content : Content) (txID : String), w.Err = none → w.Next.1 = false →
      TrimSpace w.Next.2.1 ≠ "" →
      w.Prepare a.DBCollection w.Next.2.1 = (content, txID, none) →
      Call.Execute w.Next.2.1 content a.Origin txID ∈
        (a.publishTurn { w with Queue := some e }).calls ∧
      (a.publishTurn { w with Queue := some e }).result = none) := by
  refine ⟨rfl, ?_, ?_⟩
  · intro hErr
    have h1 : a.publishTurn { w with Queue := some e } = a.publishTurn w := rfl
    rw [h1]
    rcases hN : w.Next with ⟨fin, uuid, err⟩
    simp only [abstractCycle.publishTurn, hErr, hN]
    split
    · simp
    · split
      · simp
      · split <;> simp
  · intro content txID hErr hFin hBlank hPrep
    have h1 : a.publishTurn { w with Queue := some e } = a.publishTurn w := rfl
    rw [h1, publishTurn_executed a w content txID hErr hFin hBlank hPrep]
    simp

/-- C12 at a concrete turn: the throttle answers an error, the context is not cancelled:
`"u1"` is fetched, prepared and executed, and the run does not return. -/
theorem publishTurn_ignores_Queue_witness :
    Call.Execute "u1" {} "origin" "tid_1234" ∈
      (exampleCycle.publishTurn { itemTurn "u1" with Queue := some "context canceled" }).calls ∧
    (exampleCycle.publishTurn { itemTurn "u1" with Queue := some "context canceled" }).result
      = none :=
  (publishTurn_ignores_Queue exampleCycle (itemTurn "u1") "context canceled").2.2 {} "tid_1234"
    rfl rfl (by decide) rfl

/-! ## C13 -/

/-- C13: `Stop()` on a started cycle (one with a cancellation handle) returns, sets the state
tag list to exactly `[stopped]` and leaves every other metadata field unchanged: the current
uuid, reference and error text, `errors`, `completed`, `total`, `progress`, `iteration`,
`attempts`, and the window start and end. -/
theorem Stop_metadata (a : abstractCycle) (c : CancelFunc) (h : a.cancel = some c) :
    ∃ a1, a.Stop = some a1 ∧
      a1.State = [stoppedState] ∧
      a1.Metadata.CurrentPublishUUID = a.Metadata.CurrentPublishUUID ∧
      a1.Metadata.CurrentPublishRef = a.Metadata.CurrentPublishRef ∧
      a1.Metadata.CurrentPublishError = a.Metadata.CurrentPublishError ∧
      a1.Metadata.Errors = a.Metadata.Errors ∧
      a1.Metadata.Completed = a.Metadata.Completed ∧
      a1.Metadata.Total = a.Metadata.Total ∧
      a1.Metadata.Progress = a.Metadata.Progress ∧
      a1.Metadata.Iteration = a.Metadata.Iteration ∧
      a1.Metadata.Attempts = a.Metadata.Attempts ∧
      a1.Metadata.Start = a.Metadata.Start ∧
      a1.Metadata.End = a.Metadata.End :=
  ⟨{ a with cancelled := true }.UpdateState [stoppedState], Stop_of_cancel a c h,
    UpdateState_stopped _, rfl, rfl, rfl, rfl, rfl, rfl, rfl, rfl, rfl, rfl, rfl⟩

/-- C13 at a concrete cycle: a started cycle in state `running` with 501 items completed is
stopped: the state is `[stopped]` and the counters stay. -/
theorem Stop_metadata_witness :
    ∃ a1, ((startedCycle.SetMetadata { Completed := 501, Iteration := 1, Total := 515 }).UpdateState
        ["running"]).Stop = some a1 ∧
      a1.State = [stoppedState] ∧ a1.Metadata.Completed = 501 ∧ a1.Metadata.Iteration = 1 ∧
      a1.Metadata.Total = 515 :=
  have ⟨a1, h1, h2, _, _, _, _, h7, h8, _, h10, _⟩ :=
    Stop_metadata ((startedCycle.SetMetadata
      { Completed := 501, Iteration := 1, Total := 515 }).UpdateState ["running"]) {} rfl
  ⟨a1, h1, h2, h7, h10, h8⟩

/-! ## C14 -/

/-- C14, as the code behaves: `Stop` calls `a.cancel()` without a nil check. On a cycle built
by `newAbstractCycle` and never started no handle is installed, so `Stop()` panics and so does
`Reset()`. On a cycle with a handle `Stop` can be repeated: the second `Stop` returns and
leaves the metadata exactly as the first left it, and `Reset` after `Stop` returns. -/
theorem Stop_never_started (lib : StdLib) (name cycleType : String) (blist : IsBlacklisted)
    (database : DB) (dbCollection origin : String) (coolDown : Int) (task : Task) :
    (newAbstractCycle lib name cycleType blist database dbCollection origin coolDown task).State
      = [stoppedState] ∧
    (newAbstractCycle lib name cycleType blist database dbCollection origin coolDown task).Stop
      = none ∧
    (newAbstractCycle lib name cycleType blist database dbCollection origin coolDown task).Reset
      = none ∧
    (∀ (a : abstractCycle) (c : CancelFunc), a.cancel = some c →
      ∃ a1 a2 a3, a.Stop = some a1 ∧ a1.Stop = some a2 ∧
        a2.CycleMetadata = a1.CycleMetadata ∧ a1.Reset = some a3) := by
  refine ⟨UpdateState_stopped _, rfl, rfl, ?_⟩
  intro a c h
  let a1 := { a with cancelled := true }.UpdateState [stoppedState]
  have h1 : a.Stop = some a1 := Stop_of_cancel a c h
  have hc1 : a1.cancel = some c := h
  let a2 := { a1 with cancelled := true }.UpdateState [stoppedState]
  have h2 : a1.Stop = some a2 := Stop_of_cancel a1 c hc1
  refine ⟨a1, a2, a2.SetMetadata { state := some [] }, h1, h2, rfl, ?_⟩
  simp only [abstractCycle.Reset, h2]

/-- C14 at a concrete cycle: the example cycle was never started: `Stop` and `Reset` panic. -/
theorem Stop_never_started_witness :
    exampleCycle.State = [stoppedState] ∧ exampleCycle.cancel = none ∧
    exampleCycle.Stop = none ∧ exampleCycle.Reset = none :=
  have h := Stop_never_started exampleLib "name" "ThrottledWholeCollection"
    (fun _ _ => (true, none)) {} "collection" "origin" 1000000000 {}
  ⟨h.1, rfl, h.2.1, h.2.2.1⟩

/-! ## Rounding to `float64` -/

theorem roundHalfEven_error (m : ℚ) : |(roundHalfEven m : ℚ) - m| ≤ 1 / 2 := by
  have h1 : (⌊m⌋ : ℚ) ≤ m := Int.floor_le m
  have h2 : m < ⌊m⌋ + 1 := Int.lt_floor_add_one m
  unfold roundHalfEven
  split_ifs with a b c
  · rw [abs_le]; constructor <;> linarith
  · rw [abs_le]; push_cast; constructor <;> linarith
  · rw [abs_le]; constructor <;> linarith
  · rw [abs_le]; push_cast; constructor <;> linarith

theorem roundHalfEven_pos (m : ℚ) (h : 1 ≤ m) : 0 < roundHalfEven m := by
  have h1 : (1 : Int) ≤ ⌊m⌋ := Int.le_floor.mpr (by simpa using h)
  unfold roundHalfEven
  split_ifs <;> omega

theorem roundHalfEven_intCast (k : Int) : roundHalfEven (k : ℚ) = k := by
  simp [roundHalfEven]

theorem ulp_pos (q : ℚ) : (0 : ℚ) < 2 ^ (Int.log 2 |q| - 52) := by positivity

theorem ulp_le (q : ℚ) (h : q ≠ 0) : (2 : ℚ) ^ (Int.log 2 |q| - 52) ≤ |q| / 2 ^ 52 := by
  have hq : 0 < |q| := abs_pos.mpr h
  have h1 : ((2 : ℕ) : ℚ) ^ Int.log 2 |q| ≤ |q| := Int.zpow_log_le_self (by norm_num) hq
  rw [zpow_sub₀ (by norm_num : (2 : ℚ) ≠ 0)]
  have h2 : ((2 : ℚ) ^ (52 : ℤ)) = 2 ^ 52 := by norm_cast
  rw [h2]
  apply div_le_div_of_nonneg_right _ (by positivity)
  simpa using h1

theorem roundFloat64_ne_zero (q : ℚ) (h : q ≠ 0) : roundFloat64 q ≠ 0 := by
  have hu := ulp_pos q
  have hm : 1 ≤ |q| / 2 ^ (Int.log 2 |q| - 52) := by
    rw [le_div_iff₀ hu]
    have := ulp_le q h
    have h3 : |q| / 2 ^ 52 ≤ |q| := by
      apply div_le_self (abs_nonneg q)
      norm_num
    linarith
  have hr := roundHalfEven_pos _ hm
  have hr2 : (0 : ℚ) < (roundHalfEven (|q| / 2 ^ (Int.log 2 |q| - 52)) : ℚ) := by exact_mod_cast hr
  unfold roundFloat64
  rw [if_neg h]
  apply mul_ne_zero (mul_ne_zero _ hr2.ne') hu.ne'
  split_ifs <;> norm_num

theorem roundFloat64_error (q : ℚ) : |roundFloat64 q - q| ≤ |q| / 2 ^ 53 := by
  by_cases h : q = 0
  · simp [roundFloat64, h]
  · have hu := ulp_pos q
    have hule := ulp_le q h
    have he := roundHalfEven_error (|q| / 2 ^ (Int.log 2 |q| - 52))
    unfold roundFloat64
    rw [if_neg h]
    set u : ℚ := 2 ^ (Int.log 2 |q| - 52) with hudef
    set r : ℚ := (roundHalfEven (|q| / u) : ℚ) with hrdef
    have hmu : |q| / u * u = |q| := div_mul_cancel₀ _ hu.ne'
    have key : abs (r * u - abs q) ≤ |q| / 2 ^ 53 := by
      have e1 : r * u - |q| = (r - |q| / u) * u := by rw [sub_mul, hmu]
      rw [e1, abs_mul, abs_of_pos hu]
      have : abs (r - abs q / u) * u ≤ 1 / 2 * u := mul_le_mul_of_nonneg_right he hu.le
      have h53 : |q| / 2 ^ 53 = 1 / 2 * (|q| / 2 ^ 52) := by ring
      rw [h53]
      have : 1 / 2 * u ≤ 1 / 2 * (|q| / 2 ^ 52) := by linarith
      linarith
    by_cases hneg : q < 0
    · rw [if_pos hneg]
      have hq : |q| = -q := abs_of_neg hneg
      have e2 : -1 * r * u - q = -(r * u - |q|) := by rw [hq]; ring
      rw [e2, abs_neg]
      exact key
    · rw [if_neg hneg]
      have hq : |q| = q := abs_of_nonneg (not_lt.mp hneg)
      have e2 : 1 * r * u - q = r * u - |q| := by rw [hq]; ring
      rw [e2]
      exact key

theorem roundFloat64_intCast (n : Int) (h : |n| < 2 ^ 53) : roundFloat64 (n : ℚ) = n := by
  by_cases h0 : n = 0
  · simp [roundFloat64, h0]
  · have hq0 : (n : ℚ) ≠ 0 := by exact_mod_cast h0
    have hpos : 0 < |(n : ℚ)| := abs_pos.mpr hq0
    have hlt : |(n : ℚ)| < ((2 : ℕ) : ℚ) ^ (53 : ℤ) := by
      have : ((|n| : ℤ) : ℚ) < ((2 ^ 53 : ℤ) : ℚ) := by exact_mod_cast h
      rw [Int.cast_abs] at this
      norm_num at this ⊢
      exact this
    have hlog : Int.log 2 |(n : ℚ)| < 53 := (Int.lt_zpow_iff_log_lt (by norm_num) hpos).mp hlt
    obtain ⟨k, hk⟩ : ∃ k : ℕ, Int.log 2 |(n : ℚ)| - 52 = -(k : ℤ) :=
      ⟨(52 - Int.log 2 |(n : ℚ)|).toNat, by omega⟩
    unfold roundFloat64
    rw [if_neg hq0, hk, zpow_neg, zpow_natCast, div_inv_eq_mul]
    have hm : |(n : ℚ)| * 2 ^ k = ((|n| * 2 ^ k : ℤ) : ℚ) := by push_cast; rfl
    rw [hm, roundHalfEven_intCast]
    have h2 : ((2 : ℚ) ^ k) ≠ 0 := by positivity
    by_cases hneg : (n : ℚ) < 0
    · rw [if_pos hneg]
      have hn : n < 0 := by exact_mod_cast hneg
      rw [abs_of_neg hn]
      push_cast
      field_simp
    · rw [if_neg hneg]
      have hn : 0 ≤ n := by exact_mod_cast (not_lt.mp hneg)
      rw [abs_of_nonneg hn]
      push_cast
      field_simp

theorem float64_ne_zero (n : Int) (h : n ≠ 0) : ∃ q, float64 n = .finite q ∧ q ≠ 0 :=
  ⟨_, rfl, roundFloat64_ne_zero _ (by exact_mod_cast h)⟩

theorem Float64.div_finite (x y : ℚ) (hy : y ≠ 0) :
    (Float64.finite x).div (.finite y) = .finite (roundFloat64 (x / y)) := by
  simp [Float64.div, hy]

theorem roundHalfEven_of_lt (m : ℚ) (z : Int) (h1 : (z : ℚ) ≤ m) (h2 : m < z + 1 / 2) :
    roundHalfEven m = z := by
  have hf : ⌊m⌋ = z := by
    rw [Int.floor_eq_iff]
    constructor
    · exact h1
    · linarith
  unfold roundHalfEven
  rw [hf, if_pos (by linarith)]

theorem roundFloat64_one_fifteenth :
    roundFloat64 (1 / 15) = 4803839602528529 / 72057594037927936 := by
  have hpos : (0 : ℚ) < |1 / 15| := by norm_num
  have hlog : Int.log 2 |(1 / 15 : ℚ)| = -4 := by
    apply le_antisymm
    · have : Int.log 2 |(1 / 15 : ℚ)| < -3 := by
        rw [← Int.lt_zpow_iff_log_lt (by norm_num) hpos]
        norm_num [abs_of_pos]
      omega
    · rw [← Int.zpow_le_iff_le_log (by norm_num) hpos]
      norm_num [abs_of_pos]
  unfold roundFloat64
  rw [if_neg (by norm_num), hlog, if_neg (by norm_num)]
  have hm : roundHalfEven (|(1 / 15 : ℚ)| / 2 ^ ((-4 : ℤ) - 52)) = 4803839602528529 := by
    apply roundHalfEven_of_lt <;> norm_num [abs_of_pos]
  rw [hm]
  norm_num

/-! ## C15 -/

/-- C15: after every `updateProgress` call, `total` is unchanged and `completed` is the
previous one incremented. When `total` is 0 the `float64` stored in `progress` is 0 and no
division is made. When `total` is not 0 the stored `progress` is the `float64` quotient of the
updated `completed` and `total`; it is a finite number (the divisor is not zero, so the result
is neither an infinity nor NaN), and for counters below 2^53 in absolute value it is the
`float64` nearest to the exact ratio, within the relative error 2^-53. -/
theorem updateProgress_progress_ratio (a : abstractCycle) (uuid txId : String) (err : GoError) :
    (a.updateProgress uuid txId err).CycleMetadata.Total = a.CycleMetadata.Total ∧
    (a.updateProgress uuid txId err).CycleMetadata.Completed = intIncr a.CycleMetadata.Completed ∧
    ((a.updateProgress uuid txId err).CycleMetadata.Total = 0 →
      a.progressStored = .finite 0 ∧
      (a.updateProgress uuid txId err).CycleMetadata.Progress = 0) ∧
    ((a.updateProgress uuid txId err).CycleMetadata.Total ≠ 0 →
      a.progressStored = (float64 (a.updateProgress uuid txId err).CycleMetadata.Completed).div
        (float64 (a.updateProgress uuid txId err).CycleMetadata.Total) ∧
      (∃ q, a.progressStored = .finite q) ∧
      (a.updateProgress uuid txId err).CycleMetadata.Progress =
        ((a.updateProgress uuid txId err).CycleMetadata.Completed : ℚ) /
          ((a.updateProgress uuid txId err).CycleMetadata.Total : ℚ) ∧
      (|(a.updateProgress uuid txId err).CycleMetadata.Completed| < 2 ^ 53 →
        |(a.updateProgress uuid txId err).CycleMetadata.Total| < 2 ^ 53 →
        a.progressStored =
          .finite (roundFloat64 (a.updateProgress uuid txId err).CycleMetadata.Progress) ∧
        |roundFloat64 (a.updateProgress uuid txId err).CycleMetadata.Progress -
            (a.updateProgress uuid txId err).CycleMetadata.Progress| ≤
          |(a.updateProgress uuid txId err).CycleMetadata.Progress| / 2 ^ 53)) := by
  refine ⟨updateProgress_Total a uuid txId err, updateProgress_Completed a uuid txId err, ?_, ?_⟩
  · intro h
    rw [updateProgress_Total] at h
    refine ⟨by simp [abstractCycle.progressStored, assignProgress, h], ?_⟩
    rw [updateProgress_Progress, if_pos h]
  · intro h
    rw [updateProgress_Total] at h
    have hst : a.progressStored =
        (float64 (intIncr a.CycleMetadata.Completed)).div (float64 a.CycleMetadata.Total) := by
      simp [abstractCycle.progressStored, assignProgress, h]
    have hT : (roundFloat64 (a.CycleMetadata.Total : ℚ)) ≠ 0 :=
      roundFloat64_ne_zero _ (by exact_mod_cast h)
    rw [updateProgress_Progress, updateProgress_Completed, updateProgress_Total, if_neg h]
    refine ⟨hst, ⟨_, hst.trans (Float64.div_finite _ _ hT)⟩, rfl, ?_⟩
    intro hc ht
    refine ⟨?_, roundFloat64_error _⟩
    rw [hst, float64, float64, Float64.div_finite _ _ hT, roundFloat64_intCast _ hc,
      roundFloat64_intCast _ ht]

/-- C15 at concrete updates: with `total = 15` the first item stores the `float64` nearest to
1/15, which is 4803839602528529 / 2^56 (printed 0.06666666666666667); with `total = 0` it
stores 0, where the quotient of the two counters would be an infinity. -/
theorem updateProgress_progress_ratio_witness :
    (exampleCycle.SetMetadata { Total := 15 }).progressStored =
      .finite (4803839602528529 / 72057594037927936) ∧
    exampleCycle.progressStored = .finite 0 ∧
    (float64 (intIncr exampleCycle.CycleMetadata.Completed)).div
      (float64 exampleCycle.CycleMetadata.Total) = .inf false := by
  have h := updateProgress_progress_ratio (exampleCycle.SetMetadata { Total := 15 }) "u1"
    "tid_1234" none
  have h0 := updateProgress_progress_ratio exampleCycle "u1" "tid_1234" none
  have hT : ((exampleCycle.SetMetadata { Total := 15 }).updateProgress "u1" "tid_1234"
      none).CycleMetadata.Total ≠ 0 := by decide
  have hP : ((exampleCycle.SetMetadata { Total := 15 }).updateProgress "u1" "tid_1234"
      none).CycleMetadata.Progress = 1 / 15 := by
    rw [(h.2.2.2 hT).2.2.1]
    have e1 : ((exampleCycle.SetMetadata { Total := 15 }).updateProgress "u1" "tid_1234"
      none).CycleMetadata.Completed = 1 := by decide
    have e2 : ((exampleCycle.SetMetadata { Total := 15 }).updateProgress "u1" "tid_1234"
      none).CycleMetadata.Total = 15 := by decide
    rw [e1, e2]
    norm_num
  refine ⟨?_, (h0.2.2.1 (by decide)).1, ?_⟩
  · rw [((h.2.2.2 hT).2.2.2 (by decide) (by decide)).1, hP, roundFloat64_one_fifteenth]
  · have e1 : intIncr exampleCycle.CycleMetadata.Completed = 1 := by decide
    have e2 : exampleCycle.CycleMetadata.Total = 0 := by decide
    rw [e1, e2, float64, float64, roundFloat64_intCast 1 (by norm_num)]
    simp [roundFloat64, Float64.div]

/-! ## The order of `sort.Strings` and the key set of `UpdateState` -/

theorem charsLE_total (a : List Char) : ∀ b : List Char, charsLE a b = true ∨ charsLE b a = true := by
  induction a with
  | nil => intro b; left; simp [charsLE]
  | cons x xs ih =>
    intro b
    cases b with
    | nil => right; simp [charsLE]
    | cons y ys =>
      simp only [charsLE]
      by_cases h1 : x.toNat < y.toNat
      · left; simp [h1]
      · by_cases h2 : y.toNat < x.toNat
        · right; simp [h2]
        · simp only [h1, h2, if_false]
          exact ih ys

theorem charsLE_trans (a : List Char) :
    ∀ b c : List Char, charsLE a b = true → charsLE b c = true → charsLE a c = true := by
  induction a with
  | nil => intro b c _ _; simp [charsLE]
  | cons x xs ih =>
    intro b c hab hbc
    cases b with
    | nil => simp [charsLE] at hab
    | cons y ys =>
      cases c with
      | nil => simp [charsLE] at hbc
      | cons z zs =>
        simp only [charsLE] at hab hbc ⊢
        by_cases hxz : x.toNat < z.toNat
        · simp [hxz]
        · simp only [hxz, if_false]
          by_cases hxy : x.toNat < y.toNat
          · by_cases hyz : y.toNat < z.toNat
            · omega
            · simp only [hyz, if_false] at hbc
              by_cases hzy : z.toNat < y.toNat
              · simp [hzy] at hbc
              · omega
          · simp only [hxy, if_false] at hab
            by_cases hyx : y.toNat < x.toNat
            · simp [hyx] at hab
            · simp only [hyx, if_false] at hab
              by_cases hyz : y.toNat < z.toNat
              · omega
              · simp only [hyz, if_false] at hbc
                by_cases hzy : z.toNat < y.toNat
                · simp [hzy] at hbc
                · simp only [hzy, if_false] at hbc
                  have hzx : ¬ z.toNat < x.toNat := by omega
                  simp only [hzx, if_false]
                  exact ih ys zs hab hbc

theorem sorted_sortStrings (l : List String) :
    List.Sorted (fun x y : String => charsLE x.data y.data = true) (sortStrings l) :=
  @List.sorted_insertionSort String (fun x y => charsLE x.data y.data = true) _
    ⟨fun a b => charsLE_total a.data b.data⟩
    ⟨fun a b c => charsLE_trans a.data b.data c.data⟩ l

theorem mem_foldl_mapInsert (l : List String) :
    ∀ (acc : List String) (x : String), x ∈ l.foldl mapInsert acc ↔ x ∈ acc ∨ x ∈ l := by
  induction l with
  | nil => intro acc x; simp
  | cons k ks ih =>
    intro acc x
    rw [List.foldl_cons, ih]
    unfold mapInsert
    by_cases hk : k ∈ acc
    · simp only [hk, if_true, List.mem_cons]
      constructor
      · rintro (h | h)
        · exact Or.inl h
        · exact Or.inr (Or.inr h)
      · rintro (h | h | h)
        · exact Or.inl h
        · exact Or.inl (h ▸ hk)
        · exact Or.inr h
    · simp only [hk, if_false, List.mem_append, List.mem_singleton, List.mem_cons]
      tauto

theorem nodup_foldl_mapInsert (l : List String) :
    ∀ acc : List String, acc.Nodup → (l.foldl mapInsert acc).Nodup := by
  induction l with
  | nil => intro acc h; simpa using h
  | cons k ks ih =>
    intro acc h
    rw [List.foldl_cons]
    apply ih
    unfold mapInsert
    by_cases hk : k ∈ acc
    · simp [hk, h]
    · simp only [hk, if_false]
      rw [List.nodup_append]
      refine ⟨h, List.nodup_singleton k, ?_⟩
      intro x hx hx1
      rw [List.mem_singleton] at hx1
      exact hk (hx1 ▸ hx)

/-! ## C16 -/

/-- C16: for every list of tags passed to `UpdateState`, in any order and with or without
repetitions, the resulting `State` list is sorted in ascending order (the order of
`sort.Strings`), has no duplicates (so it is strictly ascending), and contains exactly the
tags passed. -/
theorem UpdateState_State_sorted (a : abstractCycle) (states : List String) :
    List.Sorted (fun x y : String => charsLE x.data y.data = true) (a.UpdateState states).State ∧
    (a.UpdateState states).State.Nodup ∧
    List.Pairwise (fun x y : String => charsLE x.data y.data = true ∧ x ≠ y)
      (a.UpdateState states).State ∧
    (∀ t : String, t ∈ (a.UpdateState states).State ↔ t ∈ states) := by
  have hS : (a.UpdateState states).State = sortStrings (states.foldl mapInsert []) := rfl
  have hperm : List.Perm (sortStrings (states.foldl mapInsert [])) (states.foldl mapInsert []) :=
    List.perm_insertionSort _ _
  have hsorted := sorted_sortStrings (states.foldl mapInsert [])
  have hnodup : (sortStrings (states.foldl mapInsert [])).Nodup :=
    hperm.nodup_iff.mpr (nodup_foldl_mapInsert states [] List.nodup_nil)
  rw [hS]
  refine ⟨hsorted, hnodup, ?_, ?_⟩
  · exact List.Pairwise.and hsorted hnodup
  · intro t
    rw [hperm.mem_iff, mem_foldl_mapInsert]
    simp

/-- C16 at a concrete call: the tags `stopped`, `unhealthy`, `running`, `stopped` give the
list `running`, `stopped`, `unhealthy`. -/
theorem UpdateState_State_sorted_witness :
    (exampleCycle.UpdateState ["stopped", "unhealthy", "running", "stopped"]).State =
      ["running", "stopped", "unhealthy"] := by
  decide

/-! ## Hexadecimal text -/

theorem length_hexEncodeToString (bs : List UInt8) :
    (hexEncodeToString bs).length = 2 * bs.length := by
  induction bs with
  | nil => rfl
  | cons b bs ih =>
    simp only [hexEncodeToString, List.flatMap_cons, List.length_append, List.length_cons,
      List.length_nil] at ih ⊢
    omega

theorem digitChar_mem_hex : ∀ n : Nat, n < 16 → Nat.digitChar n ∈ "0123456789abcdef".data := by
  decide

theorem mem_hexEncodeToString (bs : List UInt8) (c : Char) (h : c ∈ hexEncodeToString bs) :
    c ∈ "0123456789abcdef".data := by
  simp only [hexEncodeToString, List.mem_flatMap, List.mem_cons, List.mem_singleton,
    List.mem_nil_iff, or_false] at h
  obtain ⟨b, _, hc | hc⟩ := h
  · rw [hc]
    apply digitChar_mem_hex
    have := UInt8.toNat_lt_size b
    simp only [UInt8.size] at this
    omega
  · rw [hc]
    apply digitChar_mem_hex
    omega

theorem utf8Bytes_append (s t : String) : utf8Bytes (s ++ t) = utf8Bytes s ++ utf8Bytes t := by
  simp [utf8Bytes, String.data_append]

/-! ## C17 -/

/-- C17: for every name and collection, `newCycleID` returns a string of exactly 16
characters, each in `0-9a-f`, equal to the first 16 hexadecimal characters of the SHA-256
digest of the bytes of name followed by collection; equal (name, collection) pairs give equal
ids. -/
theorem newCycleID_hex (lib : StdLib) (name dbcollection : String) :
    (newCycleID lib name dbcollection).length = 16 ∧
    (∀ c ∈ (newCycleID lib name dbcollection).data, c ∈ "0123456789abcdef".data) ∧
    newCycleID lib name dbcollection =
      String.mk ((hexEncodeToString (lib.sum256 (utf8Bytes (name ++ dbcollection)))).take 16) ∧
    (∀ name2 dbcollection2 : String, name2 = name → dbcollection2 = dbcollection →
      newCycleID lib name2 dbcollection2 = newCycleID lib name dbcollection) := by
  refine ⟨?_, ?_, ?_, ?_⟩
  · show ((hexEncodeToString
      (lib.sum256 (utf8Bytes name ++ utf8Bytes dbcollection))).take 16).length = 16
    rw [List.length_take, length_hexEncodeToString, lib.sum256_length]
    rfl
  · intro c hc
    have hc1 : c ∈ (hexEncodeToString
        (lib.sum256 (utf8Bytes name ++ utf8Bytes dbcollection))).take 16 := hc
    exact mem_hexEncodeToString _ c (List.mem_of_mem_take hc1)
  · rw [utf8Bytes_append]
    rfl
  · intro name2 dbcollection2 h1 h2
    rw [h1, h2]

/-- C17 at a concrete pair: with the example digest (32 zero bytes) the id of
`("name", "collection")` is sixteen zeros. -/
theorem newCycleID_hex_witness :
    newCycleID exampleLib "name" "collection" = "0000000000000000" ∧
    (newCycleID exampleLib "name" "collection").length = 16 :=
  ⟨by decide, (newCycleID_hex exampleLib "name" "collection").1⟩

/-! ## Maps -/

theorem mapGet_mapSet_self {V : Type} (m : List (String × V)) (k : String) (v : V) :
    mapGet (mapSet m k v) k = some v := by
  induction m with
  | nil => simp [mapSet, mapGet]
  | cons p rest ih =>
    obtain ⟨k1, v1⟩ := p
    by_cases h : k1 = k
    · simp [mapSet, mapGet, h]
    · simp [mapSet, mapGet, h, ih]

theorem mapGet_mapSet_ne {V : Type} (m : List (String × V)) (k k2 : String) (v : V)
    (h2 : k2 ≠ k) : mapGet (mapSet m k v) k2 = mapGet m k2 := by
  induction m with
  | nil => simp [mapSet, mapGet, Ne.symm h2]
  | cons p rest ih =>
    obtain ⟨k1, v1⟩ := p
    by_cases h : k1 = k
    · have h3 : ¬ k1 = k2 := fun h4 => h2 (h4 ▸ h)
      simp [mapSet, mapGet, h, h3, Ne.symm h2]
    · by_cases h3 : k1 = k2
      · subst h3
        simp [mapSet, mapGet, h]
      · simp [mapSet, mapGet, h, h3, ih]

/-! ## AddCycle -/

theorem NewLongTermCycle_ID (lib : StdLib) (name : String) (database : DB) (dbCollection : String)
    (throttle : Throttle) (task : Task) :
    (NewLongTermCycle lib name database dbCollection throttle task).ID
      = newCycleID lib name dbCollection := rfl

theorem NewShortTermCycle_ID (lib : StdLib) (name : String) (database : DB) (dbCollection : String)
    (duration : Int) (task : Task) :
    (NewShortTermCycle lib name database dbCollection duration task).ID
      = newCycleID lib name dbCollection := rfl

/-- What the switch of `AddCycle` leaves in `c` for a type it handles: an error text, or a
cycle with the id of (name, collection), in state `[stopped]` and without cancellation
handle. -/
theorem materialize_handled (lib : StdLib) (s : defaultScheduler) (config : CycleConfig)
    (h : lib.toLower config.Type = "longterm" ∨ lib.toLower config.Type = "shortterm") :
    (∃ msg, s.materialize lib config = .error msg ∧ lib.toLower config.Type = "longterm" ∧
      mapGet s.throttles config.Throttle = none) ∨
    (∃ c, s.materialize lib config = .ok (some c) ∧
      c.ID = newCycleID lib config.Name config.Collection ∧
      c.base.State = [stoppedState] ∧ c.base.cancel = none) := by
  by_cases hl : lib.toLower config.Type = "longterm"
  · cases ht : mapGet s.throttles config.Throttle with
    | none =>
      left
      refine ⟨"Throttle not found for cycle " ++ config.Name, ?_, hl, rfl⟩
      unfold defaultScheduler.materialize defaultScheduler.Throttles
      rw [if_pos hl, ht]
    | some t =>
      right
      refine ⟨NewLongTermCycle lib config.Name s.database config.Collection t s.publishTask,
        ?_, NewLongTermCycle_ID _ _ _ _ _ _, UpdateState_stopped _, rfl⟩
      unfold defaultScheduler.materialize defaultScheduler.Throttles
      rw [if_pos hl, ht]
  · have hs : lib.toLower config.Type = "shortterm" := h.resolve_left hl
    right
    refine ⟨_, ?_, NewShortTermCycle_ID lib config.Name s.database config.Collection
      (match lib.parseDuration config.TimeWindow with
        | .ok d => d
        | .error _ => 0) s.publishTask, UpdateState_stopped _, rfl⟩
    unfold defaultScheduler.materialize
    rw [if_neg hl, if_pos hs]

theorem materialize_unhandled (lib : StdLib) (s : defaultScheduler) (config : CycleConfig)
    (hl : lib.toLower config.Type ≠ "longterm") (hs : lib.toLower config.Type ≠ "shortterm") :
    s.materialize lib config = .ok none := by
  simp [defaultScheduler.materialize, hl, hs]

theorem AddCycle_unhandled (lib : StdLib) (validate : CycleConfig → GoError)
    (s : defaultScheduler) (config : CycleConfig) (hValid : validate config = none)
    (hl : lib.toLower config.Type ≠ "longterm") (hs : lib.toLower config.Type ≠ "shortterm") :
    s.AddCycle lib validate config = none := by
  simp [defaultScheduler.AddCycle, hValid, materialize_unhandled lib s config hl hs]

/-- A config of a type without case in the switch is never added, whatever the validation
answers. -/
theorem AddCycle_unhandled_not_added (lib : StdLib) (validate : CycleConfig → GoError)
    (s s1 : defaultScheduler) (config : CycleConfig)
    (hl : lib.toLower config.Type ≠ "longterm") (hs : lib.toLower config.Type ≠ "shortterm") :
    s.AddCycle lib validate config ≠ some (none, s1) := by
  cases hv : validate config with
  | some err => simp [defaultScheduler.AddCycle, hv]
  | none => simp [AddCycle_unhandled lib validate s config hv hl hs]

/-- A successful `AddCycle` stores a cycle under the id of the config's (name, collection). -/
theorem AddCycle_success (lib : StdLib) (validate : CycleConfig → GoError)
    (s s1 : defaultScheduler) (config : CycleConfig)
    (h : s.AddCycle lib validate config = some (none, s1)) :
    ∃ c, c.ID = newCycleID lib config.Name config.Collection ∧
      mapGet s.cycles c.ID = none ∧
      s1 = { s with cycles := mapSet s.cycles c.ID c } := by
  unfold defaultScheduler.AddCycle at h
  cases hv : validate config with
  | some err => simp [hv] at h
  | none =>
    simp only [hv] at h
    by_cases hl : lib.toLower config.Type = "longterm"
    · rcases materialize_handled lib s config (Or.inl hl) with ⟨msg, hm, _⟩ | ⟨c, hm, hid, _⟩
      · simp [hm] at h
      · simp only [hm] at h
        by_cases hex : (mapGet s.cycles c.ID).isSome = true
        · simp [hex] at h
        · simp only [hex] at h
          refine ⟨c, hid, by simpa using hex, ?_⟩
          simpa using h.symm
    · by_cases hs : lib.toLower config.Type = "shortterm"
      · rcases materialize_handled lib s config (Or.inr hs) with ⟨msg, hm, _⟩ | ⟨c, hm, hid, _⟩
        · simp [hm] at h
        · simp only [hm] at h
          by_cases hex : (mapGet s.cycles c.ID).isSome = true
          · simp [hex] at h
          · simp only [hex] at h
            refine ⟨c, hid, by simpa using hex, ?_⟩
            simpa using h.symm
      · rw [materialize_unhandled lib s config hl hs] at h
        simp at h

/-- `AddCycle` of a config that passes validation and whose type the switch handles: an error
with the scheduler unchanged when the throttle is missing or the id is in use, and otherwise
success with the new cycle stored under the id. -/
theorem AddCycle_handled (lib : StdLib) (validate : CycleConfig → GoError)
    (s : defaultScheduler) (config : CycleConfig) (hValid : validate config = none)
    (h : lib.toLower config.Type = "longterm" ∨ lib.toLower config.Type = "shortterm") :
    (∃ msg, s.AddCycle lib validate config = some (some msg, s) ∧
      ((lib.toLower config.Type = "longterm" ∧ mapGet s.throttles config.Throttle = none) ∨
        (mapGet s.cycles (newCycleID lib config.Name config.Collection)).isSome = true)) ∨
    (∃ c, s.AddCycle lib validate config
        = some (none, { s with cycles := mapSet s.cycles c.ID c }) ∧
      c.ID = newCycleID lib config.Name config.Collection ∧
      mapGet s.cycles (newCycleID lib config.Name config.Collection) = none ∧
      c.base.State = [stoppedState] ∧ c.base.cancel = none) := by
  rcases materialize_handled lib s config h with ⟨msg, hm, hl, ht⟩ | ⟨c, hm, hid, hst, hc⟩
  · left
    refine ⟨msg, ?_, Or.inl ⟨hl, ht⟩⟩
    simp [defaultScheduler.AddCycle, hValid, hm]
  · by_cases hex : (mapGet s.cycles c.ID).isSome = true
    · left
      refine ⟨"Conflicting ID found for cycle " ++ config.Name, ?_, Or.inr (hid ▸ hex)⟩
      simp [defaultScheduler.AddCycle, hValid, hm, hex]
    · right
      refine ⟨c, ?_, hid, ?_, hst, hc⟩
      · simp [defaultScheduler.AddCycle, hValid, hm, hex]
      · rw [← hid]
        simpa using hex

/-! ## C18 -/

/-- C19, counterexample: the config of type `ThrottledWholeCollection` (name `x`, collection
`c`) is not added to the example scheduler, where its id is not in use, whatever `Validate()`
answers for it: no validation function makes `AddCycle` return success, because the switch has
no case for the type. -/
theorem AddCycle_throttled_never_added :
    throttledConfig.Type = "ThrottledWholeCollection" ∧
    mapGet exampleScheduler.cycles
      (newCycleID exampleLib throttledConfig.Name throttledConfig.Collection) = none ∧
    ¬ ∃ (validate : CycleConfig → GoError) (s1 : defaultScheduler),
      exampleScheduler.AddCycle exampleLib validate throttledConfig = some (none, s1) :=
  ⟨rfl, rfl, fun ⟨validate, s1, h⟩ =>
    AddCycle_unhandled_not_added exampleLib validate exampleScheduler s1 throttledConfig
      (by decide) (by decide) h⟩

/-- C19, amended: for every config that passes validation, of type LongTerm (its named
throttle registered) or ShortTerm (the type compared in lower case), and whose id is not in
use, `AddCycle` returns success: the scheduler afterwards holds, under
`newCycleID(name, collection)`, a cycle in state `[stopped]` without cancellation handle (not
started), with every other entry and the throttles unchanged. For a config of any other type,
`ThrottledWholeCollection` included, `AddCycle` never returns success, whatever the validation
answers: the switch has no case for it. -/
theorem AddCycle_valid_config (lib : StdLib) (validate : CycleConfig → GoError)
    (s : defaultScheduler) (config : CycleConfig) :
    (validate config = none →
      mapGet s.cycles (newCycleID lib config.Name config.Collection) = none →
      ((lib.toLower config.Type = "longterm" ∧
          ∃ t, mapGet s.throttles config.Throttle = some t) ∨
        lib.toLower config.Type = "shortterm") →
      ∃ s1 c, s.AddCycle lib validate config = some (none, s1) ∧
        mapGet s1.cycles (newCycleID lib config.Name config.Collection) = some c ∧
        c.base.State = [stoppedState] ∧ c.base.cancel = none ∧
        (∀ k, k ≠ newCycleID lib config.Name config.Collection →
          mapGet s1.cycles k = mapGet s.cycles k) ∧
        s1.throttles = s.throttles) ∧
    (lib.toLower config.Type ≠ "longterm" → lib.toLower config.Type ≠ "shortterm" →
      ∀ s1, s.AddCycle lib validate config ≠ some (none, s1)) := by
  refine ⟨?_, fun hl hs s1 => AddCycle_unhandled_not_added lib validate s s1 config hl hs⟩
  intro hValid hFree hType
  have hh : lib.toLower config.Type = "longterm" ∨ lib.toLower config.Type = "shortterm" :=
    hType.elim (fun h1 => Or.inl h1.1) Or.inr
  rcases AddCycle_handled lib validate s config hValid hh with
    ⟨msg, _, ⟨hl, ht⟩ | hex⟩ | ⟨c, hadd, hid, _, hst, hc⟩
  · rcases hType with ⟨_, t, ht2⟩ | hs
    · rw [ht] at ht2
      exact Option.noConfusion ht2
    · rw [hs] at hl
      exact absurd hl (by decide)
  · rw [hFree] at hex
    exact Bool.noConfusion hex
  · refine ⟨_, c, hadd, ?_, hst, hc, ?_, rfl⟩
    · show mapGet (mapSet s.cycles c.ID c) _ = some c
      rw [← hid]
      exact mapGet_mapSet_self _ _ _
    · intro k hk
      show mapGet (mapSet s.cycles c.ID c) k = _
      rw [hid]
      exact mapGet_mapSet_ne _ _ _ _ hk

/-- C19, amended, at concrete configs: the LongTerm config, whose throttle `default` is
registered, is added to the example scheduler and stored in state `[stopped]`; the ShortTerm
config is added as well. -/
theorem AddCycle_valid_config_witness :
    (∃ s1 c, exampleScheduler.AddCycle exampleLib exampleValidate longTermConfig
        = some (none, s1) ∧
      mapGet s1.cycles (newCycleID exampleLib longTermConfig.Name longTermConfig.Collection)
        = some c ∧
      c.base.State = [stoppedState] ∧ c.base.cancel = none ∧
      (∀ k, k ≠ newCycleID exampleLib longTermConfig.Name longTermConfig.Collection →
        mapGet s1.cycles k = mapGet exampleScheduler.cycles k) ∧
      s1.throttles = exampleScheduler.throttles) ∧
    (∃ s1, exampleScheduler.AddCycle exampleLib exampleValidate shortTermConfig
        = some (none, s1)) :=
  have h2 := (AddCycle_valid_config exampleLib exampleValidate exampleScheduler
    shortTermConfig).1 rfl rfl (Or.inr (by decide))
  ⟨(AddCycle_valid_config exampleLib exampleValidate exampleScheduler longTermConfig).1 rfl rfl
    (Or.inl ⟨by decide, _, rfl⟩), h2.elim (fun s1 h => ⟨s1, h.elim (fun _ hc => hc.1)⟩)⟩

/-! ## C20 -/

/-- C20: `AddThrottle(name, interval)` returns an error exactly when `name` is empty or
consists of white space only, or `interval` does not parse as a duration, or `name` is already
registered; on error the scheduler (its throttle directory included) is unchanged, so an
existing throttle is not replaced; on success the directory holds an entry for `name` (a
throttle of the parsed interval), every other entry is unchanged, and so are the cycles. -/
theorem AddThrottle_result (lib : StdLib) (s : defaultScheduler) (name throttleInterval : String) :
    ((s.AddThrottle lib name throttleInterval).1.isSome = true ↔
      ((∀ c ∈ name.data, isSpace c = true) ∨
        (∃ err, lib.parseDuration throttleInterval = .error err) ∨
        (∃ t, mapGet s.throttles name = some t))) ∧
    ((s.AddThrottle lib name throttleInterval).1.isSome = true →
      (s.AddThrottle lib name throttleInterval).2 = s) ∧
    ((s.AddThrottle lib name throttleInterval).1 = none →
      (∃ interval, lib.parseDuration throttleInterval = .ok interval ∧
        mapGet (s.AddThrottle lib name throttleInterval).2.throttles name
          = some (NewThrottle interval 1)) ∧
      (∀ k, k ≠ name →
        mapGet (s.AddThrottle lib name throttleInterval).2.throttles k = mapGet s.throttles k) ∧
      (s.AddThrottle lib name throttleInterval).2.cycles = s.cycles) := by
  by_cases hb : TrimSpace name = ""
  · have hR : s.AddThrottle lib name throttleInterval = (some "Invalid throttle name", s) := by
      simp [defaultScheduler.AddThrottle, hb]
    rw [hR]
    refine ⟨?_, fun _ => rfl, fun h => Option.noConfusion h⟩
    simp only [Option.isSome_some, true_iff]
    exact Or.inl ((TrimSpace_eq_empty_iff name).mp hb)
  · have hb1 : ¬ ∀ c ∈ name.data, isSpace c = true :=
      fun h => hb ((TrimSpace_eq_empty_iff name).mpr h)
    cases hp : lib.parseDuration throttleInterval with
    | error err =>
      have hR : s.AddThrottle lib name throttleInterval =
          (some ("Error parsing throttle interval for " ++ name ++ ": " ++ err), s) := by
        simp [defaultScheduler.AddThrottle, hb, hp]
      rw [hR]
      refine ⟨?_, fun _ => rfl, fun h => Option.noConfusion h⟩
      simp only [Option.isSome_some, true_iff]
      exact Or.inr (Or.inl ⟨err, rfl⟩)
    | ok interval =>
      cases hg : mapGet s.throttles name with
      | some t =>
        have hR : s.AddThrottle lib name throttleInterval =
            (some ("Conflicting throttle name: " ++ name ++ " "), s) := by
          simp [defaultScheduler.AddThrottle, hb, hp, hg]
        rw [hR]
        refine ⟨?_, fun _ => rfl, fun h => Option.noConfusion h⟩
        simp only [Option.isSome_some, true_iff]
        exact Or.inr (Or.inr ⟨t, rfl⟩)
      | none =>
        have hR : s.AddThrottle lib name throttleInterval =
            (none, { s with throttles := mapSet s.throttles name (NewThrottle interval 1) }) := by
          simp [defaultScheduler.AddThrottle, hb, hp, hg]
        rw [hR]
        refine ⟨?_, fun h => Bool.noConfusion h, fun _ => ⟨⟨interval, rfl, ?_⟩, ?_, rfl⟩⟩
        · simp only [Option.isSome_none, Bool.false_eq_true, false_iff]
          rintro (h | ⟨err, h⟩ | ⟨t, h⟩)
          · exact hb1 h
          · exact Except.noConfusion h
          · exact Option.noConfusion h
        · exact mapGet_mapSet_self _ _ _
        · intro k hk
          exact mapGet_mapSet_ne _ _ _ _ hk

/-- C20 at concrete calls on the example scheduler, which holds the throttle `default` of one
minute: a new name with a good interval is added beside it; the name `default`, a blank name
and an interval that does not parse are refused and leave the scheduler as it was. -/
theorem AddThrottle_result_witness :
    (exampleScheduler.AddThrottle exampleLib "fast" "1s").1 = none ∧
    mapGet (exampleScheduler.AddThrottle exampleLib "fast" "1s").2.throttles "fast"
      = some (NewThrottle 1000000000 1) ∧
    mapGet (exampleScheduler.AddThrottle exampleLib "fast" "1s").2.throttles "default"
      = some (NewThrottle 60000000000 1) ∧
    (exampleScheduler.AddThrottle exampleLib "default" "1s").1.isSome = true ∧
    (exampleScheduler.AddThrottle exampleLib "default" "1s").2 = exampleScheduler ∧
    (exampleScheduler.AddThrottle exampleLib " " "1s").1.isSome = true ∧
    (exampleScheduler.AddThrottle exampleLib "fast" "soon").1.isSome = true :=
  have h1 := AddThrottle_result exampleLib exampleScheduler "fast" "1s"
  have h2 := AddThrottle_result exampleLib exampleScheduler "default" "1s"
  have h3 := AddThrottle_result exampleLib exampleScheduler " " "1s"
  have h4 := AddThrottle_result exampleLib exampleScheduler "fast" "soon"
  have hd : (exampleScheduler.AddThrottle exampleLib "default" "1s").1.isSome = true :=
    h2.1.mpr (Or.inr (Or.inr ⟨_, rfl⟩))
  ⟨rfl, rfl, ((h1.2.2 rfl).2.1 "default" (by decide)).trans rfl, hd, h2.2.1 hd,
    h3.1.mpr (Or.inl (by decide)), h4.1.mpr (Or.inr (Or.inl ⟨_, rfl⟩))⟩

/-! ## Removal from a map -/

theorem mapDelete_cons {V : Type} (k1 : String) (v1 : V) (rest : List (String × V)) (k : String) :
    mapDelete ((k1, v1) :: rest) k
      = if k1 = k then mapDelete rest k else (k1, v1) :: mapDelete rest k := by
  unfold mapDelete
  by_cases h : k1 = k <;> simp [List.filter_cons, h]

theorem mapGet_mapDelete_self {V : Type} (m : List (String × V)) (k : String) :
    mapGet (mapDelete m k) k = none := by
  induction m with
  | nil => rfl
  | cons p rest ih =>
    obtain ⟨k1, v1⟩ := p
    rw [mapDelete_cons]
    by_cases h : k1 = k
    · rw [if_pos h]
      exact ih
    · rw [if_neg h]
      simp [mapGet, h, ih]

theorem mapGet_mapDelete_ne {V : Type} (m : List (String × V)) (k k2 : String) (h2 : k2 ≠ k) :
    mapGet (mapDelete m k) k2 = mapGet m k2 := by
  induction m with
  | nil => rfl
  | cons p rest ih =>
    obtain ⟨k1, v1⟩ := p
    rw [mapDelete_cons]
    by_cases h : k1 = k
    · have h3 : ¬ k1 = k2 := fun h4 => h2 (h4 ▸ h)
      rw [if_pos h, ih]
      simp [mapGet, h3]
    · rw [if_neg h]
      by_cases h3 : k1 = k2
      · simp [mapGet, h3]
      · simp [mapGet, h3, ih]

theorem mapGet_map {V : Type} (m : List (String × V)) (g : String → V → V) (k : String) :
    mapGet (m.map (fun p => (p.1, g p.1 p.2))) k = (mapGet m k).map (g k) := by
  induction m with
  | nil => rfl
  | cons p rest ih =>
    obtain ⟨k1, v1⟩ := p
    by_cases h : k1 = k
    · subst h
      simp [mapGet]
    · simp [mapGet, h, ih]

/-! ## C21 -/

/-- C21, as the code behaves: for an id that is not in the directory `DeleteCycle` returns an
error, stops no cycle and leaves the scheduler unchanged. For an id in the directory it calls
`Stop` on that cycle first: when the cycle has a cancellation handle (it was started), `Stop`
returns, then exactly that entry is removed and `DeleteCycle` returns success; when the cycle
was never started, `Stop` panics on the nil handle and nothing is removed. -/
theorem DeleteCycle_result (s : defaultScheduler) (cycleID : String) :
    (mapGet s.cycles cycleID = none →
      ∃ msg, s.DeleteCycle cycleID = some (some msg, s, [])) ∧
    (∀ c handle, mapGet s.cycles cycleID = some c → c.base.cancel = some handle →
      ∃ s1, s.DeleteCycle cycleID = some (none, s1,
          [DirectoryEvent.stopped cycleID, DirectoryEvent.removed cycleID]) ∧
        mapGet s1.cycles cycleID = none ∧
        (∀ k, k ≠ cycleID → mapGet s1.cycles k = mapGet s.cycles k) ∧
        s1.throttles = s.throttles) ∧
    (∀ c, mapGet s.cycles cycleID = some c → c.base.cancel = none →
      s.DeleteCycle cycleID = none) := by
  refine ⟨?_, ?_, ?_⟩
  · intro h
    refine ⟨"Cannot stop cycle: cycle with id " ++ cycleID ++ " not found", ?_⟩
    simp [defaultScheduler.DeleteCycle, h]
  · intro c handle hc hh
    have hstop : c.Stop ≠ none := by
      cases c with
      | LongTermCycle base throttle =>
        have hb := Stop_of_cancel base handle hh
        simp [Cycle.Stop, hb]
      | ShortTermCycle base duration =>
        have hb := Stop_of_cancel base handle hh
        simp [Cycle.Stop, hb]
    refine ⟨{ s with cycles := mapDelete s.cycles cycleID }, ?_, mapGet_mapDelete_self _ _,
      fun k hk => mapGet_mapDelete_ne _ _ _ hk, rfl⟩
    cases hs : c.Stop with
    | none => exact absurd hs hstop
    | some c1 => simp [defaultScheduler.DeleteCycle, hc, hs]
  · intro c hc hn
    have hstop : c.Stop = none := by
      cases c with
      | LongTermCycle base throttle =>
        have hb : base.cancel = none := hn
        simp [Cycle.Stop, abstractCycle.Stop, hb]
      | ShortTermCycle base duration =>
        have hb : base.cancel = none := hn
        simp [Cycle.Stop, abstractCycle.Stop, hb]
    simp [defaultScheduler.DeleteCycle, hc, hstop]

/-- C21 at a concrete directory: the started cycle `"id1"` is stopped and removed, the unknown
id `"id3"` gives an error, and deleting the never started cycle `"id2"` panics. -/
theorem DeleteCycle_result_witness :
    (∃ s1, directoryScheduler.DeleteCycle "id1" = some (none, s1,
        [DirectoryEvent.stopped "id1", DirectoryEvent.removed "id1"]) ∧
      mapGet s1.cycles "id1" = none) ∧
    (∃ msg, directoryScheduler.DeleteCycle "id3" = some (some msg, directoryScheduler, [])) ∧
    directoryScheduler.DeleteCycle "id2" = none :=
  have h1 := DeleteCycle_result directoryScheduler "id1"
  have h2 := DeleteCycle_result directoryScheduler "id2"
  have h3 := DeleteCycle_result directoryScheduler "id3"
  have ⟨s1, ha, hb, _⟩ := h1.2.1 _ {} rfl rfl
  ⟨⟨s1, ha, hb⟩, h3.1 rfl, h2.2.2 _ rfl rfl⟩

/-! ## C22 -/

theorem SetMetadata_sameExported (a : abstractCycle) (md : CycleMetadata) :
    sameExported (a.SetMetadata md).Metadata md := by
  unfold abstractCycle.Metadata abstractCycle.SetMetadata sameExported
  by_cases h : md.state = none
  · simp [h]
  · simp [h]

/-- C22: after `RestorePreviousState` the directory has the same ids in the same places;
every LongTerm cycle whose `LoadState` succeeded is the cycle it was with the loaded metadata
installed (equal to the loaded one on every persisted field); every LongTerm cycle whose load
failed and every ShortTerm cycle is exactly the cycle it was; an id without cycle still has
none. Each entry is decided by its own load alone, so a failed load for one cycle does not
prevent restoring another. -/
theorem RestorePreviousState_result (s : defaultScheduler) :
    s.RestorePreviousState.cycles.map Prod.fst = s.cycles.map Prod.fst ∧
    s.RestorePreviousState.throttles = s.throttles ∧
    (∀ id, mapGet s.cycles id = none → mapGet s.RestorePreviousState.cycles id = none) ∧
    (∀ id base throttle state, mapGet s.cycles id = some (.LongTermCycle base throttle) →
      s.stateReadWriter.LoadState id = (state, none) →
      mapGet s.RestorePreviousState.cycles id
        = some (.LongTermCycle (base.SetMetadata state) throttle) ∧
      sameExported (base.SetMetadata state).Metadata state) ∧
    (∀ id base throttle state e, mapGet s.cycles id = some (.LongTermCycle base throttle) →
      s.stateReadWriter.LoadState id = (state, some e) →
      mapGet s.RestorePreviousState.cycles id = some (.LongTermCycle base throttle)) ∧
    (∀ id base duration, mapGet s.cycles id = some (.ShortTermCycle base duration) →
      mapGet s.RestorePreviousState.cycles id = some (.ShortTermCycle base duration)) := by
  have hget : ∀ id, mapGet s.RestorePreviousState.cycles id
      = (mapGet s.cycles id).map (s.restoreEntry id) :=
    fun id => mapGet_map s.cycles s.restoreEntry id
  refine ⟨?_, rfl, ?_, ?_, ?_, ?_⟩
  · simp [defaultScheduler.RestorePreviousState, List.map_map, Function.comp_def]
  · intro id h
    rw [hget, h]
    rfl
  · intro id base throttle state h hl
    refine ⟨?_, SetMetadata_sameExported base state⟩
    rw [hget, h]
    simp [defaultScheduler.restoreEntry, hl, Cycle.RestoreMetadata]
  · intro id base throttle state e h hl
    rw [hget, h]
    simp [defaultScheduler.restoreEntry, hl]
  · intro id base duration h
    rw [hget, h]
    simp [defaultScheduler.restoreEntry]

/-- C22 at a concrete directory: the LongTerm cycle `"id1"` gets the checkpoint (completed 500,
iteration 1); the ShortTerm cycle `"id2"` stays as it was. -/
theorem RestorePreviousState_result_witness :
    (∃ c, mapGet directoryScheduler.RestorePreviousState.cycles "id1" = some c ∧
      c.base.Metadata.Completed = 500 ∧ c.base.Metadata.Iteration = 1) ∧
    mapGet directoryScheduler.RestorePreviousState.cycles "id2"
      = some (.ShortTermCycle exampleCycle 60000000000) :=
  have h := RestorePreviousState_result directoryScheduler
  have h1 := h.2.2.2.1 "id1" startedCycle (NewThrottle 60000000000 1)
    { Completed := 500, Iteration := 1 } rfl rfl
  ⟨⟨_, h1.1, h1.2.2.2.2.2.2.2.1, h1.2.2.2.2.2.2.2.2.2.1⟩,
    h.2.2.2.2.2 "id2" exampleCycle 60000000000 rfl⟩

/-! ## The order of checkpoint keys -/

theorem digitChar_toNat (d : Nat) (h : d < 10) : (Nat.digitChar d).toNat = 48 + d := by
  interval_cases d <;> rfl

theorem charsLE_refl (l : List Char) : charsLE l l = true := by
  induction l with
  | nil => simp [charsLE]
  | cons c cs ih => simp [charsLE, ih]

theorem charsLE_cons (c d : Char) (r1 r2 : List Char) :
    charsLE (c :: r1) (d :: r2) =
      if c.toNat < d.toNat then true else if d.toNat < c.toNat then false else charsLE r1 r2 := by
  simp [charsLE]

theorem pad2_cmp (a b : Nat) (ha : a < 100) (hb : b < 100) (r1 r2 : List Char) :
    charsLE (pad2 a ++ r1) (pad2 b ++ r2) =
      if a < b then true else if b < a then false else charsLE r1 r2 := by
  have h1 : a / 10 < 10 := by omega
  have h2 : b / 10 < 10 := by omega
  have h3 : a % 10 < 10 := by omega
  have h4 : b % 10 < 10 := by omega
  simp only [pad2, List.cons_append, List.nil_append, charsLE_cons, digitChar_toNat _ h1,
    digitChar_toNat _ h2, digitChar_toNat _ h3, digitChar_toNat _ h4]
  split_ifs <;> first | rfl | omega

theorem pad4_cmp (a b : Nat) (ha : a < 10000) (hb : b < 10000) (r1 r2 : List Char) :
    charsLE (pad4 a ++ r1) (pad4 b ++ r2) =
      if a < b then true else if b < a then false else charsLE r1 r2 := by
  have h1 : a / 100 < 100 := by omega
  have h2 : b / 100 < 100 := by omega
  have h3 : a % 100 < 100 := by omega
  have h4 : b % 100 < 100 := by omega
  simp only [pad4, List.append_assoc, pad2_cmp _ _ h1 h2, pad2_cmp _ _ h3 h4]
  split_ifs <;> first | rfl | omega

theorem lexStep (a b : Nat) (p : Prop) (c : Bool) (hc : c = true ↔ p) :
    ((if a < b then true else if b < a then false else c) = true) ↔ (a < b ∨ (a = b ∧ p)) := by
  by_cases h1 : a < b
  · simp [h1]
  · by_cases h2 : b < a
    · simp [h1, h2]
      omega
    · have e : a = b := by omega
      simp [e, hc]

theorem formatKey_cmp (t1 t2 : UTCTime) (h1 : t1.valid) (h2 : t2.valid) :
    charsLE (formatKey t1).data (formatKey t2).data = true ↔
      (t1.year < t2.year ∨ (t1.year = t2.year ∧
        (t1.month < t2.month ∨ (t1.month = t2.month ∧
          (t1.day < t2.day ∨ (t1.day = t2.day ∧
            (t1.hour < t2.hour ∨ (t1.hour = t2.hour ∧
              (t1.minute < t2.minute ∨ (t1.minute = t2.minute ∧
                (t1.second < t2.second ∨ (t1.second = t2.second ∧ True)))))))))))) := by
  obtain ⟨a1, a2, a3, a4, a5, a6, a7, a8, a9⟩ := h1
  obtain ⟨b1, b2, b3, b4, b5, b6, b7, b8, b9⟩ := h2
  simp only [formatKey]
  rw [pad4_cmp _ _ (by omega) (by omega), pad2_cmp _ _ (by omega) (by omega),
    pad2_cmp _ _ (by omega) (by omega), charsLE_cons, pad2_cmp _ _ (by omega) (by omega),
    pad2_cmp _ _ (by omega) (by omega), pad2_cmp _ _ (by omega) (by omega), charsLE_refl]
  have hT : ¬ ('T'.toNat < 'T'.toNat) := by decide
  simp only [hT, if_false]
  exact lexStep _ _ _ _ (lexStep _ _ _ _ (lexStep _ _ _ _ (lexStep _ _ _ _
    (lexStep _ _ _ _ (lexStep _ _ _ _ (by simp))))))

/-! ## C23 -/

/-- C23, counterexample: two instants one nanosecond apart, the first before the second, get
the same key, so the key of the earlier one is not strictly smaller. -/
theorem formatKey_same_second :
    instant1.valid ∧ instant2.valid ∧ instant1.before instant2 ∧
      formatKey instant1 = "20170612T14302299" ∧ formatKey instant2 = "20170612T14302299" ∧
      charsLT (formatKey instant1).data (formatKey instant2).data = false := by
  decide

/-- C23, amended: for instants `t1` before `t2` in UTC with years in 0000 to 9999 the key of
`WriteMetadata` at `t1` is lexicographically smaller than or equal to the key at `t2`, and when
it is not smaller the two keys are the same key. So a lexicographically greatest key for an id
is the key of the most recent checkpoint. -/
theorem formatKey_order (t1 t2 : UTCTime) (h1 : t1.valid) (h2 : t2.valid)
    (hOrder : t1.before t2) :
    charsLE (formatKey t1).data (formatKey t2).data = true ∧
      (charsLE (formatKey t2).data (formatKey t1).data = true →
        formatKey t1 = formatKey t2) := by
  refine ⟨?_, ?_⟩
  · rw [formatKey_cmp t1 t2 h1 h2]
    unfold UTCTime.before at hOrder
    simp only [and_true]
    rcases hOrder with h | ⟨e1, h | ⟨e2, h | ⟨e3, h | ⟨e4, h | ⟨e5, h | ⟨e6, h⟩⟩⟩⟩⟩⟩ <;>
      simp [*]
  · intro hle
    rw [formatKey_cmp t2 t1 h2 h1] at hle
    unfold UTCTime.before at hOrder
    simp only [and_true] at hle
    have hs : t1.year = t2.year ∧ t1.month = t2.month ∧ t1.day = t2.day ∧ t1.hour = t2.hour ∧
        t1.minute = t2.minute ∧ t1.second = t2.second := by
      rcases hOrder with h | ⟨e1, h | ⟨e2, h | ⟨e3, h | ⟨e4, h | ⟨e5, h | ⟨e6, h⟩⟩⟩⟩⟩⟩ <;>
        omega
    obtain ⟨e1, e2, e3, e4, e5, e6⟩ := hs
    simp [formatKey, e1, e2, e3, e4, e5, e6]

/-- C23, amended, at concrete instants: the key of 14:30:22.000000001 is smaller than or equal
to the key of 14:30:23 of the same day, and is not the same key. -/
theorem formatKey_order_witness :
    instant1.valid ∧ instant3.valid ∧ instant1.before instant3 ∧
      formatKey instant1 ≠ formatKey instant3 ∧
      (charsLE (formatKey instant1).data (formatKey instant3).data = true ∧
        (charsLE (formatKey instant3).data (formatKey instant1).data = true →
          formatKey instant1 = formatKey instant3)) :=
  ⟨by decide, by decide, by decide, by decide,
    formatKey_order instant1 instant3 (by decide) (by decide) (by decide)⟩

/-! ## Decoding a marshalled metadata -/

theorem decodeStrings_map_str (old l : List String) :
    decodeStrings old (l.map JSON.str) = (l, false) := by
  induction l generalizing old with
  | nil => rfl
  | cons s rest ih => simp [decodeStrings, ih]

theorem decodeInt_num (old x : Int) (h1 : minInt ≤ x) (h2 : x ≤ maxInt) :
    decodeInt old (.num x true) = some x := by
  simp [decodeInt, h1, h2]

theorem decodeMember_uuid (lib : TimeLib) (m : CycleMetadata) (x : String) :
    decodeMember lib { m := m } ("currentPublishUuid", .str x) =
      { m := { m with CurrentPublishUUID := x } } := rfl

theorem decodeMember_ref (lib : TimeLib) (m : CycleMetadata) (x : String) :
    decodeMember lib { m := m } ("currentPublishReference", .str x) =
      { m := { m with CurrentPublishRef := x } } := rfl

theorem decodeMember_error (lib : TimeLib) (m : CycleMetadata) (x : String) :
    decodeMember lib { m := m } ("currentPublishError", .str x) =
      { m := { m with CurrentPublishError := x } } := rfl

theorem decodeMember_errors (lib : TimeLib) (m : CycleMetadata) (x : Int) (h1 : minInt ≤ x)
    (h2 : x ≤ maxInt) :
    decodeMember lib { m := m } ("errors", .num x true) = { m := { m with Errors := x } } := by
  have h : decodeMember lib { m := m } ("errors", .num x true) =
      (match decodeInt m.Errors (.num x true) with
      | some x => ({ m := { m with Errors := x } } : Decoding)
      | none => Decoding.typeError { m := m } "errors") := rfl
  rw [h, decodeInt_num _ _ h1 h2]

theorem decodeMember_progress (lib : TimeLib) (m : CycleMetadata) (x : ℚ) (p : Bool) :
    decodeMember lib { m := m } ("progress", .num x p) = { m := { m with Progress := x } } := rfl

theorem decodeMember_state (lib : TimeLib) (m : CycleMetadata) (x : List String) :
    decodeMember lib { m := m } ("state", .arr (x.map JSON.str)) =
      { m := { m with State := x } } := by
  have h : decodeMember lib { m := m } ("state", .arr (x.map JSON.str)) =
      (if (decodeStrings m.State (x.map JSON.str)).2 then
        Decoding.typeError { m := { m with State := (decodeStrings m.State (x.map JSON.str)).1 } }
          "state"
      else { m := { m with State := (decodeStrings m.State (x.map JSON.str)).1 } }) := rfl
  rw [h, decodeStrings_map_str]
  rfl

theorem decodeMember_state_null (lib : TimeLib) (m : CycleMetadata) :
    decodeMember lib { m := m } ("state", .null) = { m := { m with State := [] } } := rfl

theorem decodeMember_completed (lib : TimeLib) (m : CycleMetadata) (x : Int) (h1 : minInt ≤ x)
    (h2 : x ≤ maxInt) :
    decodeMember lib { m := m } ("completed", .num x true) =
      { m := { m with Completed := x } } := by
  have h : decodeMember lib { m := m } ("completed", .num x true) =
      (match decodeInt m.Completed (.num x true) with
      | some x => ({ m := { m with Completed := x } } : Decoding)
      | none => Decoding.typeError { m := m } "completed") := rfl
  rw [h, decodeInt_num _ _ h1 h2]

theorem decodeMember_total (lib : TimeLib) (m : CycleMetadata) (x : Int) (h1 : minInt ≤ x)
    (h2 : x ≤ maxInt) :
    decodeMember lib { m := m } ("total", .num x true) = { m := { m with Total := x } } := by
  have h : decodeMember lib { m := m } ("total", .num x true) =
      (match decodeInt m.Total (.num x true) with
      | some x => ({ m := { m with Total := x } } : Decoding)
      | none => Decoding.typeError { m := m } "total") := rfl
  rw [h, decodeInt_num _ _ h1 h2]

theorem decodeMember_iteration (lib : TimeLib) (m : CycleMetadata) (x : Int) (h1 : minInt ≤ x)
    (h2 : x ≤ maxInt) :
    decodeMember lib { m := m } ("iteration", .num x true) =
      { m := { m with Iteration := x } } := by
  have h : decodeMember lib { m := m } ("iteration", .num x true) =
      (match decodeInt m.Iteration (.num x true) with
      | some x => ({ m := { m with Iteration := x } } : Decoding)
      | none => Decoding.typeError { m := m } "iteration") := rfl
  rw [h, decodeInt_num _ _ h1 h2]

theorem decodeMember_attempts (lib : TimeLib) (m : CycleMetadata) (x : Int) (h1 : minInt ≤ x)
    (h2 : x ≤ maxInt) :
    decodeMember lib { m := m } ("attempts", .num x true) =
      { m := { m with Attempts := x } } := by
  have h : decodeMember lib { m := m } ("attempts", .num x true) =
      (match decodeInt m.Attempts (.num x true) with
      | some x => ({ m := { m with Attempts := x } } : Decoding)
      | none => Decoding.typeError { m := m } "attempts") := rfl
  rw [h, decodeInt_num _ _ h1 h2]

theorem decodeMember_start (lib : TimeLib) (m : CycleMetadata) (s : String) (t : Int)
    (hp : lib.parseTime s = some t) :
    decodeMember lib { m := m } ("windowStart", .str s) =
      { m := { m with Start := some t } } := by
  have h : decodeMember lib { m := m } ("windowStart", .str s) =
      (if (decodeTime lib m.Start (.str s)).2 then
        ({ m := { m with Start := (decodeTime lib m.Start (.str s)).1 },
           failed := some "parsing time: cannot parse as RFC 3339" } : Decoding)
      else { m := { m with Start := (decodeTime lib m.Start (.str s)).1 } }) := rfl
  rw [h]
  simp [decodeTime, hp]

theorem decodeMember_end (lib : TimeLib) (m : CycleMetadata) (s : String) (t : Int)
    (hp : lib.parseTime s = some t) :
    decodeMember lib { m := m } ("windowEnd", .str s) = { m := { m with End := some t } } := by
  have h : decodeMember lib { m := m } ("windowEnd", .str s) =
      (if (decodeTime lib m.End (.str s)).2 then
        ({ m := { m with End := (decodeTime lib m.End (.str s)).1 },
           failed := some "parsing time: cannot parse as RFC 3339" } : Decoding)
      else { m := { m with End := (decodeTime lib m.End (.str s)).1 } }) := rfl
  rw [h]
  simp [decodeTime, hp]

theorem marshalTimeField_ok (lib : TimeLib) (tag : String) (o : Option Int)
    (l : List (String × JSON)) (h : marshalTimeField lib tag o = .ok l) :
    (o = none ∧ l = []) ∨ ∃ t s, o = some t ∧ lib.parseTime s = some t ∧ l = [(tag, .str s)] := by
  cases o with
  | none =>
    left
    simp only [marshalTimeField] at h
    injection h with h
    exact ⟨rfl, h.symm⟩
  | some t =>
    right
    simp only [marshalTimeField] at h
    cases hs : lib.marshalTime t with
    | error e =>
      rw [hs] at h
      cases h
    | ok s =>
      rw [hs] at h
      injection h with h
      exact ⟨t, s, rfl, lib.parse_marshal t s hs, h.symm⟩

theorem decodeMetadata_marshalMetadata (lib : TimeLib) (stateIsNil : Bool) (m : CycleMetadata)
    (b : JSON) (hInts : m.intsInRange) (h : marshalMetadata lib stateIsNil m = .ok b) :
    ∃ m1, decodeMetadata lib (some b) = (m1, none) ∧ sameExported m1 m := by
  rcases m with ⟨uuid, ref, perr, errs, prog, st, comp, tot, iter, att, start, stop, internal⟩
  obtain ⟨⟨a1, a2⟩, ⟨a3, a4⟩, ⟨a5, a6⟩, ⟨a7, a8⟩, a9, a10⟩ := hInts
  simp only [marshalMetadata] at h
  cases h1 : marshalTimeField lib "windowStart" start with
  | error e =>
    rw [h1] at h
    cases h
  | ok l1 =>
    rw [h1] at h
    cases h2 : marshalTimeField lib "windowEnd" stop with
    | error e =>
      rw [h2] at h
      cases h
    | ok l2 =>
      rw [h2] at h
      injection h with h
      subst h
      have hst : (stateIsNil && st.isEmpty) = true → st = [] := by
        intro hc
        have := (Bool.and_eq_true _ _).mp hc
        exact List.isEmpty_iff.mp this.2
      dsimp only at a1 a2 a3 a4 a5 a6 a7 a8 a9 a10
      rcases marshalTimeField_ok lib _ _ _ h1 with ⟨hs1, hl1⟩ | ⟨t1, s1, hs1, hp1, hl1⟩
      · rcases marshalTimeField_ok lib _ _ _ h2 with ⟨hs2, hl2⟩ | ⟨t2, s2, hs2, hp2, hl2⟩
        · subst hs1 hl1 hs2 hl2
          by_cases hp : perr = "" <;>
          by_cases hc : (stateIsNil && st.isEmpty) = true <;>
          simp only [decodeMetadata, hp, hc, if_true, if_false, List.foldl_append,
            List.foldl_cons, List.foldl_nil, decodeMember_uuid, decodeMember_ref,
            decodeMember_error, decodeMember_errors _ _ _ a1 a2, decodeMember_progress,
            decodeMember_state, decodeMember_state_null, decodeMember_completed _ _ _ a3 a4,
            decodeMember_total _ _ _ a5 a6, decodeMember_iteration _ _ _ a7 a8,
            decodeMember_attempts _ _ _ a9 a10, Bool.false_eq_true, List.append_nil,
            List.nil_append] <;>
          refine ⟨_, rfl, ?_⟩ <;>
          simp [sameExported, hp] <;>
          exact hst hc
        · subst hs1 hl1 hs2 hl2
          by_cases hp : perr = "" <;>
          by_cases hc : (stateIsNil && st.isEmpty) = true <;>
          simp only [decodeMetadata, hp, hc, if_true, if_false, List.foldl_append,
            List.foldl_cons, List.foldl_nil, decodeMember_uuid, decodeMember_ref,
            decodeMember_error, decodeMember_errors _ _ _ a1 a2, decodeMember_progress,
            decodeMember_state, decodeMember_state_null, decodeMember_completed _ _ _ a3 a4,
            decodeMember_total _ _ _ a5 a6, decodeMember_iteration _ _ _ a7 a8,
            decodeMember_attempts _ _ _ a9 a10, decodeMember_end _ _ _ _ hp2, Bool.false_eq_true, List.append_nil,
            List.nil_append] <;>
          refine ⟨_, rfl, ?_⟩ <;>
          simp [sameExported, hp] <;>
          exact hst hc
      · rcases marshalTimeField_ok lib _ _ _ h2 with ⟨hs2, hl2⟩ | ⟨t2, s2, hs2, hp2, hl2⟩
        · subst hs1 hl1 hs2 hl2
          by_cases hp : perr = "" <;>
          by_cases hc : (stateIsNil && st.isEmpty) = true <;>
          simp only [decodeMetadata, hp, hc, if_true, if_false, List.foldl_append,
            List.foldl_cons, List.foldl_nil, decodeMember_uuid, decodeMember_ref,
            decodeMember_error, decodeMember_errors _ _ _ a1 a2, decodeMember_progress,
            decodeMember_state, decodeMember_state_null, decodeMember_completed _ _ _ a3 a4,
            decodeMember_total _ _ _ a5 a6, decodeMember_iteration _ _ _ a7 a8,
            decodeMember_attempts _ _ _ a9 a10, decodeMember_start _ _ _ _ hp1, Bool.false_eq_true, List.append_nil,
            List.nil_append] <;>
          refine ⟨_, rfl, ?_⟩ <;>
          simp [sameExported, hp] <;>
          exact hst hc
        · subst hs1 hl1 hs2 hl2
          by_cases hp : perr = "" <;>
          by_cases hc : (stateIsNil && st.isEmpty) = true <;>
          simp only [decodeMetadata, hp, hc, if_true, if_false, List.foldl_append,
            List.foldl_cons, List.foldl_nil, decodeMember_uuid, decodeMember_ref,
            decodeMember_error, decodeMember_errors _ _ _ a1 a2, decodeMember_progress,
            decodeMember_state, decodeMember_state_null, decodeMember_completed _ _ _ a3 a4,
            decodeMember_total _ _ _ a5 a6, decodeMember_iteration _ _ _ a7 a8,
            decodeMember_attempts _ _ _ a9 a10, decodeMember_start _ _ _ _ hp1, decodeMember_end _ _ _ _ hp2, Bool.false_eq_true, List.append_nil,
            List.nil_append] <;>
          refine ⟨_, rfl, ?_⟩ <;>
          simp [sameExported, hp] <;>
          exact hst hc

/-! ## C24 -/

/-- C24: let the store return the object just written as the latest for `id`, and let the int
fields of `m` be Go ints. When `WriteMetadata(id, m)` returns no error, `LoadMetadata(id)` on
the store it leaves returns no error and a metadata equal to `m` on every exported field: uuid,
reference, error text, errors, progress, state tags, completed, total, iteration, attempts,
window start and window end. -/
theorem WriteMetadata_LoadMetadata {σ : Type} (lib : TimeLib) (rw : S3ReadWriter σ)
    (now : UTCTime) (st : σ) (id : String) (m : CycleMetadata) (stateIsNil : Bool)
    (hInts : m.intsInRange)
    (hStore : rw.returnsWritten st id)
    (hWrite : (WriteMetadata lib rw now st id m stateIsNil).1 = none) :
    ∃ m1, LoadMetadata lib rw (WriteMetadata lib rw now st id m stateIsNil).2 id = (some m1, none) ∧
      sameExported m1 m := by
  cases hm : marshalMetadata lib stateIsNil m with
  | error e =>
    simp [WriteMetadata, hm] at hWrite
  | ok b =>
    obtain ⟨m1, hd, hs⟩ := decodeMetadata_marshalMetadata lib stateIsNil m b hInts hm
    have hW : WriteMetadata lib rw now st id m stateIsNil =
        rw.Write st id (formatKey now) (some b) defaultContentType := by
      simp [WriteMetadata, hm]
    rw [hW] at hWrite ⊢
    obtain ⟨latest, hl, hk, hr⟩ := hStore (formatKey now) (some b) defaultContentType
      (rw.Write st id (formatKey now) (some b) defaultContentType).2
      (Prod.ext hWrite rfl)
    refine ⟨m1, ?_, hs⟩
    have hct : TrimSpace defaultContentType = "application/json" := by decide
    simp only [LoadMetadata, hl, hr, if_neg hk, hd, hct]
    simp

theorem TrimSpace_ne_empty (s : String) (c : Char) (hc : c ∈ s.data) (hs : isSpace c = false) :
    TrimSpace s ≠ "" := by
  intro h
  have := (TrimSpace_eq_empty_iff s).mp h c hc
  rw [hs] at this
  exact Bool.noConfusion this

theorem exampleStore_returnsWritten (id : String) : exampleStore.returnsWritten [] id := by
  intro key b ct st1 h
  simp only [exampleStore, List.nil_append, Prod.mk.injEq, true_and] at h
  subst h
  refine ⟨id ++ "/" ++ key, ?_, ?_, ?_⟩
  · simp [exampleStore]
  · apply TrimSpace_ne_empty _ '/' _ (by decide)
    simp
  · simp [exampleStore]

/-- C24 at a concrete store: a checkpoint written to the example store is read back. -/
theorem WriteMetadata_LoadMetadata_witness :
    checkpointMetadata.intsInRange ∧ exampleStore.returnsWritten [] "id1" ∧
    (WriteMetadata exampleTimeLib exampleStore instant1 [] "id1" checkpointMetadata false).1
      = none ∧
    ∃ m1, LoadMetadata exampleTimeLib exampleStore
        (WriteMetadata exampleTimeLib exampleStore instant1 [] "id1" checkpointMetadata false).2
        "id1" = (some m1, none) ∧ sameExported m1 checkpointMetadata :=
  have hw : (WriteMetadata exampleTimeLib exampleStore instant1 [] "id1" checkpointMetadata
      false).1 = none := by
    simp [WriteMetadata, marshalMetadata, marshalTimeField, exampleTimeLib, checkpointMetadata,
      exampleStore]
  ⟨by decide, exampleStore_returnsWritten "id1", hw,
    WriteMetadata_LoadMetadata exampleTimeLib exampleStore instant1 [] "id1" checkpointMetadata
      false (by decide) (exampleStore_returnsWritten "id1") hw⟩

/-! ## C25 -/

theorem buildMessage_append (es : List String) (e : String) :
    buildMessage (es ++ [e]) = "\"" ++ e ++ "\", " := by
  simp [buildMessage, List.foldl_append]

/-- C25, as the code behaves: with collected errors `es` followed by `e`, `Build` returns
no blacklist and an error whose message is the message of `e` alone, in quotes and followed by
a comma and a blank, whatever the earlier errors `es` were (every pass of the loop assigns the
message instead of appending to it); with no collected error `Build` returns a blacklist and no
error. -/
theorem Build_reports_last_error (chain : List blacklistFilter) :
    (∀ (es : List String) (e : String),
      ({ chain := chain, errs := es ++ [e] } : Builder).Build = (none, some ("\"" ++ e ++ "\", "))) ∧
    (∃ bl, ({ chain := chain, errs := [] } : Builder).Build = (some bl, none)) := by
  refine ⟨?_, ?_⟩
  · intro es e
    simp [Builder.Build, buildMessage_append]
  · exact ⟨_, rfl⟩

/-- C25 at a concrete builder: after `FileBasedBlacklist` of the two missing files `a.txt` and
`b.txt` the builder holds both errors, and the message of the error `Build` returns is that of
`b.txt` alone: the message of the first error does not occur in it. -/
theorem Build_drops_first_error :
    failedBuilder.errs = ["open a.txt: no such file or directory",
      "open b.txt: no such file or directory"] ∧
    failedBuilder.Build = (none, some "\"open b.txt: no such file or directory\", ") ∧
    containsChars "\"open b.txt: no such file or directory\", ".data
      "open a.txt: no such file or directory".data = false :=
  ⟨by decide, rfl, by decide⟩

/-! ## The chain of filters -/

theorem runChain_valid (chain : List blacklistFilter) (uuid : String) (content : Content) :
    (runChain chain uuid content).1 = (true, none) ↔
      ∀ f ∈ chain, f uuid content = (true, none) := by
  induction chain with
  | nil => simp [runChain]
  | cons f rest ih =>
    rcases hf : f uuid content with ⟨v, e⟩
    cases v <;> cases e <;> simp [runChain, hf, ih]

theorem runChain_stop (pre : List blacklistFilter) (f : blacklistFilter)
    (post : List blacklistFilter) (uuid : String) (content : Content)
    (hpre : ∀ g ∈ pre, g uuid content = (true, none)) (hf : f uuid content ≠ (true, none)) :
    runChain (pre ++ f :: post) uuid content = (f uuid content, pre.length + 1) := by
  induction pre with
  | nil =>
    rcases hr : f uuid content with ⟨v, e⟩
    rw [hr] at hf
    cases v <;> cases e <;> simp_all [runChain]
  | cons g rest ih =>
    have hg : g uuid content = (true, none) := hpre g (List.mem_cons_self _ _)
    have hrest : ∀ g ∈ rest, g uuid content = (true, none) :=
      fun x hx => hpre x (List.mem_cons_of_mem _ hx)
    simp [runChain, hg, ih hrest]

theorem Build_filter (b : Builder) (h : b.errs = []) :
    b.Build = (some { filter := fun uuid content => (runChain b.chain uuid content).1 }, none) := by
  simp [Builder.Build, h]

/-! ## C26 -/

/-- C26: for a builder without errors `Build` returns a blacklist `bl` and no error, and
for every uuid and content: `bl.ValidForPublish` answers `(true, nil)` exactly when every filter
of the chain answers `(true, nil)`; when the chain is `pre ++ f :: post`, every filter of `pre`
answers `(true, nil)` and `f` does not, it answers the result of `f` and the loop has called
`pre.length + 1` filters, none of `post`; with an empty chain it answers `(true, nil)`. -/
theorem ValidForPublish_chain (b : Builder) (hErrs : b.errs = []) :
    ∃ bl, b.Build = (some bl, none) ∧
      ∀ (uuid : String) (content : Content),
        bl.ValidForPublish uuid content = (runChain b.chain uuid content).1 ∧
        (bl.ValidForPublish uuid content = (true, none) ↔
          ∀ f ∈ b.chain, f uuid content = (true, none)) ∧
        (∀ (pre : List blacklistFilter) (f : blacklistFilter) (post : List blacklistFilter),
          b.chain = pre ++ f :: post → (∀ g ∈ pre, g uuid content = (true, none)) →
          f uuid content ≠ (true, none) →
          bl.ValidForPublish uuid content = f uuid content ∧
            (runChain b.chain uuid content).2 = pre.length + 1) ∧
        (b.chain = [] → bl.ValidForPublish uuid content = (true, none)) := by
  refine ⟨_, Build_filter b hErrs, ?_⟩
  intro uuid content
  refine ⟨rfl, ?_, ?_, ?_⟩
  · exact runChain_valid b.chain uuid content
  · intro pre f post hc hpre hf
    simp only [chainedBlacklist.ValidForPublish]
    rw [hc, runChain_stop pre f post uuid content hpre hf]
    exact ⟨rfl, rfl⟩
  · intro hc
    simp [chainedBlacklist.ValidForPublish, hc, runChain]

/-- C26 at a concrete chain: a builder with the chain `exampleChain` and no
error; for the uuid `u1` the second filter decides and the third is not called. -/
theorem ValidForPublish_chain_witness :
    runChain exampleChain "u1" {} = ((false, some "lookup failed"), 2) ∧
    runChain exampleChain "u2" {} = ((false, none), 3) ∧
    ∃ bl, ({ chain := exampleChain } : Builder).Build = (some bl, none) ∧
      ∀ (uuid : String) (content : Content),
        bl.ValidForPublish uuid content =
          (runChain ({ chain := exampleChain } : Builder).chain uuid content).1 ∧
        (bl.ValidForPublish uuid content = (true, none) ↔
          ∀ f ∈ ({ chain := exampleChain } : Builder).chain, f uuid content = (true, none)) ∧
        (∀ (pre : List blacklistFilter) (f : blacklistFilter) (post : List blacklistFilter),
          ({ chain := exampleChain } : Builder).chain = pre ++ f :: post →
          (∀ g ∈ pre, g uuid content = (true, none)) →
          f uuid content ≠ (true, none) →
          bl.ValidForPublish uuid content = f uuid content ∧
            (runChain ({ chain := exampleChain } : Builder).chain uuid content).2 =
              pre.length + 1) ∧
        (({ chain := exampleChain } : Builder).chain = [] →
          bl.ValidForPublish uuid content = (true, none)) :=
  ⟨by decide, by decide, ValidForPublish_chain { chain := exampleChain } rfl⟩

/-! ## C27 -/

/-- C27, as the code behaves: for a request whose body decodes to a config that
`Validate` accepts, and a scheduler that creates the cycle and adds it, `CreateCycle` on a new
response writer writes the header with status 201 before it sets `Location`: the response has
status 201 and is sent without any header, and `/cycles/` followed by the id is set only
afterwards in the header map of the handler, which is not sent. -/
theorem CreateCycle_created {σ : Type} (json : JsonLib) (validate : CycleConfig → GoError)
    (sched : Scheduler σ) (st st1 : σ) (r : Request) (config : CycleConfig) (cycle : ApiCycle)
    (hDecode : json.decodeConfig r.body = (config, none))
    (hValid : validate config = none)
    (hNew : sched.NewCycle st config = .ok cycle)
    (hAdd : sched.AddCycle st cycle = (none, st1)) :
    (CreateCycle json validate sched st {} r).w.status = some 201 ∧
      (CreateCycle json validate sched st {} r).w.sent = [] ∧
      mapGet (CreateCycle json validate sched st {} r).w.sent "Location" = none ∧
      (CreateCycle json validate sched st {} r).w.header =
        [("Location", ["/cycles/" ++ cycle.ID])] ∧
      (CreateCycle json validate sched st {} r).sched = st1 ∧
      (CreateCycle json validate sched st {} r).calls = [.NewCycle config, .AddCycle cycle.ID] := by
  simp [CreateCycle, createCycle, hDecode, hValid, hNew, hAdd, ResponseWriter.WriteHeader,
    ResponseWriter.HeaderSet, mapSet, mapGet, cycleURL]

/-- C27 at a concrete request: a POST of `throttledConfig` to the example scheduler
without cycles. -/
theorem CreateCycle_created_witness :
    (CreateCycle exampleJson exampleValidate exampleApiScheduler [] {} {}).w.status = some 201 ∧
      (CreateCycle exampleJson exampleValidate exampleApiScheduler [] {} {}).w.sent = [] ∧
      mapGet (CreateCycle exampleJson exampleValidate exampleApiScheduler [] {} {}).w.sent
        "Location" = none ∧
      (CreateCycle exampleJson exampleValidate exampleApiScheduler [] {} {}).w.header =
        [("Location", ["/cycles/" ++ (ApiCycle.throttled "x" (NewThrottle 1000000000 1)
          throttledConfig).ID])] ∧
      (CreateCycle exampleJson exampleValidate exampleApiScheduler [] {} {}).sched =
        [("x", .throttled "x" (NewThrottle 1000000000 1) throttledConfig)] ∧
      (CreateCycle exampleJson exampleValidate exampleApiScheduler [] {} {}).calls =
        [.NewCycle throttledConfig, .AddCycle (ApiCycle.throttled "x" (NewThrottle 1000000000 1)
          throttledConfig).ID] :=
  CreateCycle_created exampleJson exampleValidate exampleApiScheduler []
    [("x", .throttled "x" (NewThrottle 1000000000 1) throttledConfig)] {} throttledConfig
    (.throttled "x" (NewThrottle 1000000000 1) throttledConfig) rfl (by decide) rfl
    (by decide)

/-- C27 at a concrete request, in short: the response to a POST of `throttledConfig` to the example
scheduler has status 201 and no `Location` header. -/
theorem CreateCycle_no_location :
    (CreateCycle exampleJson exampleValidate exampleApiScheduler [] {} {}).w.status = some 201 ∧
      mapGet (CreateCycle exampleJson exampleValidate exampleApiScheduler [] {} {}).w.sent
        "Location" = none := by
  decide

/-! ## C28 -/

/-- C28, counterexample: for the cycle `id1`, which is not a ThrottledWholeCollection
cycle, `GetCycleThrottle` responds with status 404, not 405. -/
theorem GetCycleThrottle_not_throttled_404 :
    mapGet (exampleApiScheduler.Cycles apiCycles) "id1" = some (.other "id1") ∧
      (GetCycleThrottle exampleJson exampleApiScheduler apiCycles {} requestId1).w.status =
        some 404 := by
  decide

/-- C28, amended: for a cycle that exists under the id of the request and is not a
ThrottledWholeCollection cycle, `SetCycleThrottle` (PUT) responds with status 405 and
`GetCycleThrottle` (GET) with status 404; both call the scheduler only for `Cycles()`, so
neither deletes nor adds a cycle, and both leave the scheduler as it was. -/
theorem throttle_handlers_not_throttled {σ : Type} (lib : StdLib) (json : JsonLib)
    (sched : Scheduler σ) (st : σ) (w : ResponseWriter) (r : Request) (id : String)
    (hNew : w.status = none)
    (hCycle : mapGet (sched.Cycles st) ((mapGet r.vars "id").getD "") = some (.other id)) :
    (SetCycleThrottle lib json sched st w r).w.status = some 405 ∧
      (SetCycleThrottle lib json sched st w r).calls = [.Cycles] ∧
      (SetCycleThrottle lib json sched st w r).sched = st ∧
    (GetCycleThrottle json sched st w r).w.status = some 404 ∧
      (GetCycleThrottle json sched st w r).calls = [.Cycles] ∧
      (GetCycleThrottle json sched st w r).sched = st := by
  simp [SetCycleThrottle, GetCycleThrottle, findCycle, hCycle, httpError,
    ResponseWriter.WriteHeader, ResponseWriter.Write, ResponseWriter.HeaderSet,
    ResponseWriter.HeaderAdd, hNew]

/-- C28, amended, at a concrete scheduler: the example scheduler with the cycle `id1`,
which is not a ThrottledWholeCollection cycle, and a new response writer. -/
theorem throttle_handlers_not_throttled_witness :
    (SetCycleThrottle exampleLib exampleJson exampleApiScheduler apiCycles {} requestId1).w.status
        = some 405 ∧
      (SetCycleThrottle exampleLib exampleJson exampleApiScheduler apiCycles {} requestId1).calls
        = [.Cycles] ∧
      (SetCycleThrottle exampleLib exampleJson exampleApiScheduler apiCycles {} requestId1).sched
        = apiCycles ∧
    (GetCycleThrottle exampleJson exampleApiScheduler apiCycles {} requestId1).w.status
        = some 404 ∧
      (GetCycleThrottle exampleJson exampleApiScheduler apiCycles {} requestId1).calls
        = [.Cycles] ∧
      (GetCycleThrottle exampleJson exampleApiScheduler apiCycles {} requestId1).sched
        = apiCycles :=
  throttle_handlers_not_throttled exampleLib exampleJson exampleApiScheduler apiCycles {}
    requestId1 "id1" rfl (by decide)

/-! ## The calls of a run, turn by turn -/

/-- The calls of one pass: a `Queue` first, then no further `Queue` and at most one `Next`,
one `Prepare` and one `Execute`. -/
theorem publishTurn_calls (a : abstractCycle) (w : Turn) :
    ∃ tl, (a.publishTurn w).calls = Call.Queue :: tl ∧
      tl.countP Call.isQueue = 0 ∧ tl.countP Call.isNext ≤ 1 ∧
      tl.countP Call.isPrepare ≤ 1 ∧ tl.countP Call.isExecute ≤ 1 := by
  rcases hN : w.Next with ⟨fin, uuid, err⟩
  cases hE : w.Err with
  | some e =>
    refine ⟨[Call.Err], ?_, by decide, by decide, by decide, by decide⟩
    simp [abstractCycle.publishTurn, hE]
  | none =>
    by_cases hF : fin = true
    · refine ⟨[Call.Err, Call.Next], ?_, by decide, by decide, by decide, by decide⟩
      simp [abstractCycle.publishTurn, hE, hN, hF]
    · by_cases hB : TrimSpace uuid = ""
      · refine ⟨[Call.Err, Call.Next], ?_, by decide, by decide, by decide, by decide⟩
        simp [abstractCycle.publishTurn, hE, hN, hF, hB]
      · rcases hP : w.Prepare a.DBCollection uuid with ⟨content, txID, perr⟩
        cases perr with
        | none =>
          refine ⟨[Call.Err, Call.Next, Call.Prepare a.DBCollection uuid,
            Call.Execute uuid content a.Origin txID], ?_, ?_, ?_, ?_, ?_⟩
          · simp [abstractCycle.publishTurn, hE, hN, hF, hB, hP]
          · simp [List.countP_cons, Call.isQueue]
          · simp [List.countP_cons, Call.isNext]
          · simp [List.countP_cons, Call.isPrepare]
          · simp [List.countP_cons, Call.isExecute]
        | some e =>
          refine ⟨[Call.Err, Call.Next, Call.Prepare a.DBCollection uuid], ?_, ?_, ?_, ?_, ?_⟩
          · simp [abstractCycle.publishTurn, hE, hN, hF, hB, hP]
          · simp [List.countP_cons, Call.isQueue]
          · simp [List.countP_cons, Call.isNext]
          · simp [List.countP_cons, Call.isPrepare]
          · simp [List.countP_cons, Call.isExecute]

theorem countP_take_le (p : Call → Bool) (n : Nat) (l : List Call) :
    (l.take n).countP p ≤ l.countP p :=
  (List.take_sublist n l).countP_le p

/-- In every beginning of a block `Queue :: tl` with at most one call of kind `p` in `tl`,
the calls of kind `p` are at most the `Queue` calls. -/
theorem block_take_count (p : Call → Bool) (hp : p Call.Queue = false) (tl : List Call)
    (h1 : tl.countP p ≤ 1) (n : Nat) :
    ((Call.Queue :: tl).take n).countP p ≤ ((Call.Queue :: tl).take n).countP Call.isQueue := by
  cases n with
  | zero => simp
  | succ k =>
    rw [List.take_succ_cons, List.countP_cons, List.countP_cons, hp]
    have := countP_take_le p k tl
    simp only [Call.isQueue]
    simp only [Bool.false_eq_true, if_false, if_true]
    omega

/-- The calls of a run are the calls of its passes, one after the other. -/
theorem publishCollection_take_count (p : Call → Bool) (hp : p Call.Queue = false)
    (hturn : ∀ (a : abstractCycle) (w : Turn), ∃ tl, (a.publishTurn w).calls = Call.Queue :: tl ∧
      tl.countP p ≤ 1)
    (ws : List Turn) :
    ∀ (a : abstractCycle) (n : Nat),
      ((a.publishCollection ws).calls.take n).countP p
        ≤ ((a.publishCollection ws).calls.take n).countP Call.isQueue := by
  induction ws with
  | nil => intro a n; simp [abstractCycle.publishCollection]
  | cons w ws ih =>
    intro a n
    obtain ⟨tl, htl, h1⟩ := hturn a w
    cases hr : (a.publishTurn w).result with
    | some res =>
      rw [publishCollection_cons_return a w ws res hr]
      simp only
      rw [htl]
      exact block_take_count p hp tl h1 n
    | none =>
      rw [publishCollection_cons_continue a w ws hr]
      simp only
      rw [htl, List.take_append_eq_append_take, List.countP_append, List.countP_append]
      have hA := block_take_count p hp tl h1 n
      have hB := ih (a.publishTurn w).cycle (n - (Call.Queue :: tl).length)
      omega

/-! ## C29 -/

/-- C29: in every run of `publishCollection` every pass makes exactly one `Queue` call, and
makes it first; at any point of the run (after any number `n` of calls) the number of `Next`
calls, of `Prepare` calls and of `Execute` calls made so far is each at most the number of
`Queue` calls made so far. -/
theorem publishCollection_paced (a : abstractCycle) (ws : List Turn) :
    (∀ (b : abstractCycle) (w : Turn), ∃ tl, (b.publishTurn w).calls = Call.Queue :: tl ∧
      tl.countP Call.isQueue = 0) ∧
    (∀ n : Nat,
      ((a.publishCollection ws).calls.take n).countP Call.isNext
        ≤ ((a.publishCollection ws).calls.take n).countP Call.isQueue ∧
      ((a.publishCollection ws).calls.take n).countP Call.isPrepare
        ≤ ((a.publishCollection ws).calls.take n).countP Call.isQueue ∧
      ((a.publishCollection ws).calls.take n).countP Call.isExecute
        ≤ ((a.publishCollection ws).calls.take n).countP Call.isQueue) := by
  refine ⟨?_, ?_⟩
  · intro b w
    obtain ⟨tl, h1, h2, _⟩ := publishTurn_calls b w
    exact ⟨tl, h1, h2⟩
  · intro n
    refine ⟨?_, ?_, ?_⟩
    · apply publishCollection_take_count Call.isNext rfl
      intro b w
      obtain ⟨tl, h1, _, h3, _, _⟩ := publishTurn_calls b w
      exact ⟨tl, h1, h3⟩
    · apply publishCollection_take_count Call.isPrepare rfl
      intro b w
      obtain ⟨tl, h1, _, _, h4, _⟩ := publishTurn_calls b w
      exact ⟨tl, h1, h4⟩
    · apply publishCollection_take_count Call.isExecute rfl
      intro b w
      obtain ⟨tl, h1, _, _, _, h5⟩ := publishTurn_calls b w
      exact ⟨tl, h1, h5⟩

/-- C29 at a concrete run of two items: after 8 calls there are two `Queue` calls, two `Next`
calls and one `Execute` call, within the bounds of the theorem. -/
theorem publishCollection_paced_witness :
    (((exampleCycle.publishCollection [itemTurn "u1", itemTurn "u2"]).calls.take 8).countP
      Call.isQueue = 2 ∧
    ((exampleCycle.publishCollection [itemTurn "u1", itemTurn "u2"]).calls.take 8).countP
      Call.isNext = 2 ∧
    ((exampleCycle.publishCollection [itemTurn "u1", itemTurn "u2"]).calls.take 8).countP
      Call.isExecute = 1) ∧
    (((exampleCycle.publishCollection [itemTurn "u1", itemTurn "u2"]).calls.take 8).countP
        Call.isNext
      ≤ ((exampleCycle.publishCollection [itemTurn "u1", itemTurn "u2"]).calls.take 8).countP
        Call.isQueue ∧
    ((exampleCycle.publishCollection [itemTurn "u1", itemTurn "u2"]).calls.take 8).countP
        Call.isPrepare
      ≤ ((exampleCycle.publishCollection [itemTurn "u1", itemTurn "u2"]).calls.take 8).countP
        Call.isQueue ∧
    ((exampleCycle.publishCollection [itemTurn "u1", itemTurn "u2"]).calls.take 8).countP
        Call.isExecute
      ≤ ((exampleCycle.publishCollection [itemTurn "u1", itemTurn "u2"]).calls.take 8).countP
        Call.isQueue) :=
  ⟨by decide, (publishCollection_paced exampleCycle [itemTurn "u1", itemTurn "u2"]).2 8⟩

/-! ## C30 -/

theorem newCycleID_concat (lib : StdLib) (n1 c1 n2 c2 : String) (h : n1 ++ c1 = n2 ++ c2) :
    newCycleID lib n1 c1 = newCycleID lib n2 c2 := by
  unfold newCycleID
  rw [← utf8Bytes_append, ← utf8Bytes_append, h]

/-- A successful `AddCycle` passed validation and found a cycle in the switch. -/
theorem AddCycle_success_materialize (lib : StdLib) (validate : CycleConfig → GoError)
    (s s1 : defaultScheduler) (config : CycleConfig)
    (h : s.AddCycle lib validate config = some (none, s1)) :
    validate config = none ∧ ∃ c, s.materialize lib config = .ok (some c) ∧
      c.ID = newCycleID lib config.Name config.Collection ∧
      s1 = { s with cycles := mapSet s.cycles c.ID c } := by
  have hv : validate config = none := by
    cases hv : validate config with
    | none => rfl
    | some err => simp [defaultScheduler.AddCycle, hv] at h
  refine ⟨hv, ?_⟩
  obtain ⟨c, hid, _, hs⟩ := AddCycle_success lib validate s s1 config h
  cases hm : s.materialize lib config with
  | error msg => simp [defaultScheduler.AddCycle, hv, hm] at h
  | ok oc =>
    cases oc with
    | none => simp [defaultScheduler.AddCycle, hv, hm] at h
    | some c2 =>
      refine ⟨c2, rfl, ?_, ?_⟩
      · by_cases hl : lib.toLower config.Type = "longterm"
        · rcases materialize_handled lib s config (Or.inl hl) with ⟨msg, hm2, _⟩ | ⟨c3, hm3, hid3, _⟩
          · rw [hm] at hm2
            exact Except.noConfusion hm2
          · rw [hm] at hm3
            cases hm3
            exact hid3
        · by_cases hsh : lib.toLower config.Type = "shortterm"
          · rcases materialize_handled lib s config (Or.inr hsh) with
              ⟨msg, hm2, _⟩ | ⟨c3, hm3, hid3, _⟩
            · rw [hm] at hm2
              exact Except.noConfusion hm2
            · rw [hm] at hm3
              cases hm3
              exact hid3
          · rw [materialize_unhandled lib s config hl hsh] at hm
            cases hm
      · simp only [defaultScheduler.AddCycle, hv, hm] at h
        by_cases hex : (mapGet s.cycles c2.ID).isSome = true
        · simp [hex] at h
        · simp only [hex] at h
          simpa using h.symm

/-- C30: `newCycleID` depends only on the concatenation of name and collection: whenever
`n1 ++ c1 = n2 ++ c2` the two ids are equal. So of two configs with different (name,
collection) pairs and the same concatenation, such as ("ab", "c") and ("a", "bc"), each of
which `AddCycle` accepts on its own, the one added second is rejected with the error
`Conflicting ID found` and the scheduler is left as the first add left it. -/
theorem newCycleID_concat_conflict (lib : StdLib) (validate : CycleConfig → GoError)
    (s0 s1 s2 : defaultScheduler) (first second : CycleConfig)
    (hcat : first.Name ++ first.Collection = second.Name ++ second.Collection)
    (hFirst : s0.AddCycle lib validate first = some (none, s1))
    (hSecond : s0.AddCycle lib validate second = some (none, s2)) :
    (∀ n1 c1 n2 c2 : String, n1 ++ c1 = n2 ++ c2 → newCycleID lib n1 c1 = newCycleID lib n2 c2) ∧
    newCycleID lib first.Name first.Collection = newCycleID lib second.Name second.Collection ∧
    s1.AddCycle lib validate second
      = some (some ("Conflicting ID found for cycle " ++ second.Name), s1) := by
  refine ⟨fun n1 c1 n2 c2 h => newCycleID_concat lib n1 c1 n2 c2 h,
    newCycleID_concat lib _ _ _ _ hcat, ?_⟩
  obtain ⟨_, c1, _, hid1, hs1⟩ := AddCycle_success_materialize lib validate s0 s1 first hFirst
  obtain ⟨hv2, c2, hm2, hid2, _⟩ := AddCycle_success_materialize lib validate s0 s2 second hSecond
  have hm : s1.materialize lib second = .ok (some c2) := by
    rw [hs1]
    exact hm2
  have hex : (mapGet s1.cycles c2.ID).isSome = true := by
    rw [hs1, hid2, ← newCycleID_concat lib _ _ _ _ hcat, ← hid1]
    simp [mapGet_mapSet_self]
  simp [defaultScheduler.AddCycle, hv2, hm, hex]

/-- C30 at the configs ("ab", "c") and ("a", "bc"), with a digest that depends on its input:
both get the id `6162630000000000`, each is accepted by the example scheduler on its own, and
after the first the second is refused as a conflict. -/
theorem newCycleID_concat_conflict_witness :
    newCycleID prefixLib "ab" "c" = "6162630000000000" ∧
    newCycleID prefixLib "a" "bc" = "6162630000000000" ∧
    (∃ s1 msg, exampleScheduler.AddCycle prefixLib exampleValidate
        { longTermConfig with Name := "ab", Collection := "c" } = some (none, s1) ∧
      s1.AddCycle prefixLib exampleValidate
        { shortTermConfig with Name := "a", Collection := "bc" } = some (some msg, s1)) :=
  ⟨by decide, by decide,
    _, _, rfl,
    (newCycleID_concat_conflict prefixLib exampleValidate exampleScheduler _ _
      { longTermConfig with Name := "ab", Collection := "c" }
      { shortTermConfig with Name := "a", Collection := "bc" } (by decide) rfl rfl).2.2⟩

end PublishCarousel
